import Mathlib

/-! FFmpegLibrary/jni/player.c : the playback engine controller and pipeline.

A shallow embedding of `player.c`.  The `Player` record of the C source becomes
a Lean structure, the controller functions become pure functions that take the
record and return the new record together with the ordered list of the
synchronisation and library calls they issue (`Ev`), and every outcome that the
C code obtains from a collaborator (libav, pthreads, the Java host) is read from
an explicit environment record.  The reader thread and the decoder threads are
step functions on a system state (`Sys`) with one program point per blocking
call, and a run is a list of steps of the reader, the decoders and the host in any
order.

Conventions
* `int`, `long`, `int64_t` values are `Int`.  `seek_position` is involved in a
  comparison whose result depends on the 32-bit width, and that comparison is
  modelled with an explicit `% 2^32`; a `double` stored in an `int` or a `long`,
  both of 32 bits, goes through `double_to_long`.
* `double` values are rationals.  The arithmetic of the clocks is exact; where a
  `double` is cut or rounded to an integer (the durations, the pacing in
  `jni_player_render_frame`), every operation before it is rounded to the
  nearest `double` (`to_double`).
* An array indexed by `enum AVMediaType` is a function on `Fin 5`
  (`AVMEDIA_TYPE_NB = 5`); a pointer is an `Option`, `NULL` being `none`.
-/

namespace FFmpegPlayer

/-! ## Constants -/

/-- The number of media kinds, `AVMEDIA_TYPE_NB` of libavutil. -/
abbrev AVMEDIA_TYPE_NB : Nat := 5

/-- An index into the per-kind tables of the player. -/
abbrev MediaType := Fin AVMEDIA_TYPE_NB

def AVMEDIA_TYPE_VIDEO : MediaType := 0
def AVMEDIA_TYPE_AUDIO : MediaType := 1
def AVMEDIA_TYPE_DATA : MediaType := 2
def AVMEDIA_TYPE_SUBTITLE : MediaType := 3
def AVMEDIA_TYPE_ATTACHMENT : MediaType := 4

/-- The integer value of a media kind, as stored in `AVCodecContext.codec_type`. -/
def enumValue (t : MediaType) : Int := (t.val : Int)

/-- The kinds in the order in which every `for (i = 0; i < AVMEDIA_TYPE_NB; ++i)` visits them. -/
def mediaTypes : List MediaType := [0, 1, 2, 3, 4]

/-- The macro `DO_NOT_SEEK`, an `unsigned int` constant. -/
def DO_NOT_SEEK : Nat := 0xdeadbeef

/-- The value an `int` holds after `DO_NOT_SEEK` is assigned to it (two's complement). -/
def DO_NOT_SEEK_int : Int := (0xdeadbeef : Int) - 2 ^ 32

/-- The constant `AV_TIME_BASE` of libavutil. -/
def AV_TIME_BASE : Int := 1000000

/-- The constant `AV_NOPTS_VALUE` of libavutil, as an `int64_t`. -/
def AV_NOPTS_VALUE : Int := -(2 ^ 63)

/-- The constant `AV_SAMPLE_FMT_S16` of libavutil. -/
def AV_SAMPLE_FMT_S16 : Int := 1

/-- The constant `AV_PIX_FMT_RGB565` (little endian) of libavutil. -/
def AV_PIX_FMT_RGB565 : Int := 44

/-! `enum PlayerErrors` of `player.h`, numbered in declaration order. -/

def ERROR_NO_ERROR : Int := 0
def ERROR_COULD_NOT_DETACH_THREAD : Int := 8
def ERROR_COULD_NOT_ATTACH_THREAD : Int := 9
def ERROR_COULD_NOT_OPEN_VIDEO_FILE : Int := 20
def ERROR_COULD_NOT_OPEN_STREAM : Int := 21
def ERROR_COULD_NOT_ALLOC_FRAME : Int := 25
def ERROR_COULD_NOT_GET_SWS_CONTEXT : Int := 27
def ERROR_COULD_NOT_PREPARE_PACKETS_QUEUE : Int := 28
def ERROR_COULD_NOT_PREPARE_RGB_QUEUE : Int := 32
def ERROR_WHILE_DUPLICATING_FRAME : Int := 35
def ERROR_WHILE_DECODING_VIDEO : Int := 36
def ERROR_COULD_NOT_RESAMPLE_FRAME : Int := 37
def ERROR_WHILE_DECODING_AUDIO_FRAME : Int := 39
def ERROR_NOT_CREATED_AUDIO_TRACK : Int := 40
def ERROR_NOT_CREATED_AUDIO_TRACK_GLOBAL_REFERENCE : Int := 41
def ERROR_COULD_NOT_INIT_SWR_CONTEXT : Int := 42
def ERROR_NOT_CREATED_AUDIO_SAMPLE_BYTE_ARRAY : Int := 43
def ERROR_PLAYING_AUDIO : Int := 44
def ERROR_WHILE_LOCING_BITMAP : Int := 45
def ERROR_COULD_NOT_JOIN_PTHREAD : Int := 46
def ERROR_COULD_NOT_INIT_PTHREAD_ATTR : Int := 47
def ERROR_COULD_NOT_CREATE_PTHREAD : Int := 48
def ERROR_COULD_NOT_DESTROY_PTHREAD_ATTR : Int := 49

/-! ## Data model -/

/-- The two mutexes of the player. -/
inductive Mutex where
  | mutex_operation
  | mutex_queue
  deriving DecidableEq, Repr

/-- The methods of the Java `AudioTrack` the player calls. -/
inductive SinkMethod where
  | write
  | play
  | pause
  | flush
  | stop
  deriving DecidableEq, Repr

/-- The calls a function of `player.c` issues to pthreads, libav and the host, in order. -/
inductive Ev where
  | lock (m : Mutex)
  | unlock (m : Mutex)
  | cond_broadcast
  | cond_wait
  | cond_timeout (ms : Int)
  | pthread_create_decoder (t : MediaType)
  | pthread_create_reader
  | pthread_join_reader
  | pthread_join_decoder (t : MediaType)
  | avformat_open_input
  | avformat_close_input
  | index_streams (i : Int)
  | avcodec_open2 (ctx : Nat)
  | avcodec_close (ctx : Nat)
  | avcodec_flush_buffers (ctx : Nat)
  | swr_free
  | sws_freeContext
  | delete_audio_track_ref
  | queue_free_rgb
  | queue_free_packets (t : MediaType)
  | av_freep_frame (t : MediaType)
  | audio_track (m : SinkMethod)
  | prepareAudioTrack (sample_rate channels : Int)
  | onUpdateTime (current duration : Int) (finished : Bool)
  | throw_not_playing
  | av_seek_frame (stream : Int) (target : Int)
  | av_free_packet (payload : Nat)
  deriving DecidableEq, Repr

/-- The fields of an `AVCodecContext` the player reads or writes.  `id` stands for the address
of the context: it is the index of the stream that owns it (`ic->streams[id]->codec`), and
`stream_component_open` fills it in when it takes `st->codec`. -/
structure AVCodecContext where
  id : Nat
  codec_type : Int
  channels : Int
  sample_rate : Int
  frame_size : Int
  sample_fmt : Int
  channel_layout : Int
  width : Int
  height : Int
  pix_fmt : Int
  deriving DecidableEq, Repr

/-- The fields of an `AVStream` the player reads.  `codec` is the context as
`avformat_find_stream_info` left it; once a stream is opened the live context is the entry of
`input_codec_ctxs`. -/
structure AVStream where
  duration : Int
  time_base_num : Int
  time_base_den : Int
  codec : AVCodecContext
  deriving DecidableEq, Repr

/-- The fields of an `AVFormatContext` the player reads; `nb_streams` is `streams.length`. -/
structure AVFormatContext where
  streams : List AVStream
  duration : Int
  deriving DecidableEq, Repr

/-- The fields of an `AVPacket` that decide who frees its payload: `data` names the payload
buffer, `destruct` tells whether the packet owns it (a destructor is set), `stream_index` is
the stream the packet belongs to. -/
structure AVPacket where
  data : Option Nat
  destruct : Bool
  stream_index : Int
  deriving DecidableEq, Repr

/-- A slot of a packet queue: `struct PacketData`. -/
structure PacketData where
  end_of_stream : Bool
  packet : AVPacket
  deriving DecidableEq, Repr

/-- A slot of the RGB frame queue: `struct VideoRGBFrameElem` without its host handles. -/
structure VideoRGBFrameElem where
  time : ℚ
  end_of_stream : Bool
  deriving DecidableEq, Repr

/-- Modelled from the spec: the bounded queue of `queue.c`, which is not part of the sources
at hand.  It has a fixed capacity and holds the committed slots oldest first;
`free + used = capacity`. -/
structure Queue (α : Type) where
  capacity : Nat
  used : List α
  deriving DecidableEq, Repr

/-- The `struct Player` of `player.c`, without the JNI handles and the pthread objects. -/
@[ext]
structure Player where
  format_ctx : Option AVFormatContext
  input_inited : Bool
  open_time : Int
  video_index : Int
  audio_index : Int
  input_streams : MediaType → Option AVStream
  input_codec_ctxs : MediaType → Option AVCodecContext
  stream_indexs : MediaType → Int
  input_frames : MediaType → Bool
  out_format : Int
  audio_track : Bool
  audio_track_format : Int
  audio_track_channel_count : Int
  sws_context : Bool
  swr_context : Bool
  video_duration : Int
  last_updated_time : Int
  playing : Bool
  packets_queue : MediaType → Option (Queue PacketData)
  rgb_video_queue : Option (Queue VideoRGBFrameElem)
  interrupt_renderer : Bool
  pause : Bool
  stop : Bool
  seek_position : Int
  flush_streams : MediaType → Bool
  flush_video_play : Bool
  stop_streams : MediaType → Bool
  rendering : Bool
  read_stream_thread_created : Bool
  decode_threads_created : MediaType → Bool
  audio_clock : ℚ
  audio_write_time : Int
  audio_pause_time : Int
  audio_resume_time : Int
  video_current_pts : ℚ
  video_current_pts_drift : ℚ
  external_clock : ℚ
  external_clock_drift : ℚ
  external_clock_time : Int
  external_clock_speed : ℚ

/-- The player `jni_player_init` leaves behind: the record is cleared with `memset` and the
two stream numbers are set to `-1`. -/
def jni_player_init : Player :=
  { format_ctx := none
    input_inited := false
    open_time := 0
    video_index := -1
    audio_index := -1
    input_streams := fun _ => none
    input_codec_ctxs := fun _ => none
    stream_indexs := fun _ => 0
    input_frames := fun _ => false
    out_format := 0
    audio_track := false
    audio_track_format := 0
    audio_track_channel_count := 0
    sws_context := false
    swr_context := false
    video_duration := 0
    last_updated_time := 0
    playing := false
    packets_queue := fun _ => none
    rgb_video_queue := none
    interrupt_renderer := false
    pause := false
    stop := false
    seek_position := 0
    flush_streams := fun _ => false
    flush_video_play := false
    stop_streams := fun _ => false
    rendering := false
    read_stream_thread_created := false
    decode_threads_created := fun _ => false
    audio_clock := 0
    audio_write_time := 0
    audio_pause_time := 0
    audio_resume_time := 0
    video_current_pts := 0
    video_current_pts_drift := 0
    external_clock := 0
    external_clock_drift := 0
    external_clock_time := 0
    external_clock_speed := 0 }

/-- The test `player->seek_position != DO_NOT_SEEK`: the `int` is converted to `unsigned int`. -/
def seek_pending (p : Player) : Bool :=
  decide (p.seek_position % 2 ^ 32 ≠ (DO_NOT_SEEK : Int))

/-! ## Clocks -/

/-- The C function `get_external_clock`; `now` is the reading of `av_gettime`. -/
def get_external_clock (p : Player) (now : Int) : ℚ :=
  if p.pause then p.external_clock
  else
    let time : ℚ := (now : ℚ) / 1000000
    p.external_clock_drift + time
      - (time - (p.external_clock_time : ℚ) / 1000000) * (1 - p.external_clock_speed)

/-- The C function `update_external_clock_pts`; `now` is the reading of `av_gettime`. -/
def update_external_clock_pts (p : Player) (pts : ℚ) (now : Int) : Player :=
  { p with
    external_clock_time := now
    external_clock := pts
    external_clock_drift := pts - (now : ℚ) / 1000000 }

/-- The C function `update_external_clock_speed`; `now1` is read by `get_external_clock`
when the player is not paused, `now2` by `update_external_clock_pts`. -/
def update_external_clock_speed (p : Player) (speed : ℚ) (now1 now2 : Int) : Player :=
  { update_external_clock_pts p (get_external_clock p now1) now2 with
    external_clock_speed := speed }

/-! ## Teardown -/

/-- The return values of the `pthread_join` calls of a teardown. -/
structure JoinEnv where
  pthread_join_reader : Int
  pthread_join_decoder : MediaType → Int

/-- The C function `player_signal_stop`. -/
def player_signal_stop (p : Player) : Player × List Ev :=
  ({ p with stop := true },
   [Ev.lock Mutex.mutex_queue, Ev.cond_broadcast, Ev.unlock Mutex.mutex_queue])

/-- One turn of the decoder loop of `player_free_decoding_threads`. -/
def player_free_decoding_threads_step (j : JoinEnv) (acc : Int × Player × List Ev)
    (i : MediaType) : Int × Player × List Ev :=
  let err := acc.1
  let p := acc.2.1
  let evs := acc.2.2
  if p.decode_threads_created i then
    let ret := j.pthread_join_decoder i
    let p1 := { p with decode_threads_created := Function.update p.decode_threads_created i false }
    (if ret ≠ 0 then ERROR_COULD_NOT_JOIN_PTHREAD else err, p1, evs ++ [Ev.pthread_join_decoder i])
  else (err, p, evs)

/-- The C function `player_free_decoding_threads`: the reader is joined first, then each
decoder that is marked created.  The join itself is recorded as a call; what the joined
thread does until it ends is the subject of the pipeline model further down. -/
def player_free_decoding_threads (j : JoinEnv) (p : Player) : Int × Player × List Ev :=
  let start : Int × Player × List Ev :=
    if p.read_stream_thread_created then
      let ret := j.pthread_join_reader
      (if ret ≠ 0 then ERROR_COULD_NOT_JOIN_PTHREAD else 0,
       { p with read_stream_thread_created := false }, [Ev.pthread_join_reader])
    else (0, p, [])
  mediaTypes.foldl (player_free_decoding_threads_step j) start

/-- The C function `player_free_audio_track`. -/
def player_free_audio_track (p : Player) : Player × List Ev :=
  let r1 : Player × List Ev :=
    if p.swr_context then ({ p with swr_context := false }, [Ev.swr_free]) else (p, [])
  let r2 : Player × List Ev :=
    if r1.1.audio_track then
      ({ r1.1 with audio_track := false }, r1.2 ++ [Ev.delete_audio_track_ref])
    else r1
  if 0 ≤ r2.1.audio_index then
    match r2.1.input_codec_ctxs AVMEDIA_TYPE_AUDIO with
    | some ctx =>
      ({ r2.1 with
          input_codec_ctxs := Function.update r2.1.input_codec_ctxs AVMEDIA_TYPE_AUDIO none },
       r2.2 ++ [Ev.avcodec_close ctx.id])
    | none => r2
  else r2

/-- The C function `player_free_sws_context`. -/
def player_free_sws_context (p : Player) : Player × List Ev :=
  if p.sws_context then ({ p with sws_context := false }, [Ev.sws_freeContext]) else (p, [])

/-- The C function `player_free_rgb_frames`. -/
def player_free_rgb_frames (p : Player) : Player × List Ev :=
  match p.rgb_video_queue with
  | some _ => ({ p with rgb_video_queue := none }, [Ev.queue_free_rgb])
  | none => (p, [])

/-- One turn of the loop of `player_free_queues`. -/
def player_free_queues_step (acc : Player × List Ev) (i : MediaType) : Player × List Ev :=
  match acc.1.packets_queue i with
  | some _ =>
    ({ acc.1 with packets_queue := Function.update acc.1.packets_queue i none },
     acc.2 ++ [Ev.queue_free_packets i])
  | none => acc

/-- The C function `player_free_queues`. -/
def player_free_queues (p : Player) : Player × List Ev :=
  mediaTypes.foldl player_free_queues_step (p, [])

/-- One turn of the loop of `player_free_frames`; `av_freep` clears the entry. -/
def player_free_frames_step (acc : Player × List Ev) (i : MediaType) : Player × List Ev :=
  if acc.1.input_frames i then
    ({ acc.1 with input_frames := Function.update acc.1.input_frames i false },
     acc.2 ++ [Ev.av_freep_frame i])
  else acc

/-- The C function `player_free_frames`. -/
def player_free_frames (p : Player) : Player × List Ev :=
  mediaTypes.foldl player_free_frames_step (p, [])

/-- One turn of the loop of `player_free_streams`. -/
def player_free_streams_step (acc : Player × List Ev) (i : MediaType) : Player × List Ev :=
  let r : Player × List Ev :=
    match acc.1.input_codec_ctxs i with
    | some ctx =>
      ({ acc.1 with input_codec_ctxs := Function.update acc.1.input_codec_ctxs i none },
       acc.2 ++ [Ev.avcodec_close ctx.id])
    | none => acc
  ({ r.1 with
      input_streams := Function.update r.1.input_streams i none
      input_frames := Function.update r.1.input_frames i false
      stream_indexs := Function.update r.1.stream_indexs i (-1) },
   r.2)

/-- The C function `player_free_streams`. -/
def player_free_streams (p : Player) : Player × List Ev :=
  let r := mediaTypes.foldl player_free_streams_step (p, [])
  ({ r.1 with video_index := -1, audio_index := -1 }, r.2)

/-- The C function `player_free_input`; `avformat_close_input` clears the pointer it is given. -/
def player_free_input (p : Player) : Player × List Ev :=
  if p.input_inited then
    ({ p with format_ctx := none, input_inited := false }, [Ev.avformat_close_input])
  else (p, [])

/-- The nine calls from `player_signal_stop` to `player_free_input` that `player_stop` and
the `error:` label of `player_set_data_source` both make, in the same order. -/
def player_teardown (j : JoinEnv) (p : Player) : Player × List Ev :=
  let r1 := player_signal_stop p
  let r2 := player_free_decoding_threads j r1.1
  let r3 := player_free_audio_track r2.2.1
  let r4 := player_free_sws_context r3.1
  let r5 := player_free_rgb_frames r4.1
  let r6 := player_free_queues r5.1
  let r7 := player_free_frames r6.1
  let r8 := player_free_streams r7.1
  let r9 := player_free_input r8.1
  (r9.1, r1.2 ++ r2.2.2 ++ r3.2 ++ r4.2 ++ r5.2 ++ r6.2 ++ r7.2 ++ r8.2 ++ r9.2)

/-- The C function `player_stop`.  `playing` is read once before `mutex_operation` is taken
and once more under it. -/
def player_stop (j : JoinEnv) (p : Player) : Player × List Ev :=
  if !p.playing then (p, [])
  else if !p.playing then
    (p, [Ev.lock Mutex.mutex_operation, Ev.unlock Mutex.mutex_operation])
  else
    let r := player_teardown j { p with playing := false }
    (r.1, [Ev.lock Mutex.mutex_operation] ++ r.2 ++ [Ev.unlock Mutex.mutex_operation])

/-! ## Opening a source -/

/-- C `round` on a `double`: to the nearest integer, halves away from zero. -/
def c_round (x : ℚ) : Int :=
  if 0 ≤ x then ⌊x + 1 / 2⌋ else ⌈x - 1 / 2⌉

/-- Everything `player_set_data_source` obtains from its collaborators. -/
structure OpenEnv where
  /-- The status code `ERROR_NOT_STOP_LAST_INSTANCE`, which `player.h` does not declare. -/
  ERROR_NOT_STOP_LAST_INSTANCE : Int
  /-- The successive readings of `av_gettime`, numbered by call site. -/
  gettime : Nat → Int
  /-- The container `avformat_open_input` yields, `none` when it fails. -/
  avformat_open_input : Option AVFormatContext
  /-- Whether `avformat_find_stream_info` succeeds. -/
  find_stream_info_ok : Bool
  /-- The preference of `av_find_best_stream` among the streams that qualify. -/
  best_stream : List Nat → Nat
  /-- What a read of `ic->streams[nb_streams]`, one past the array, yields. -/
  stray_stream : AVStream
  /-- Whether `avcodec_find_decoder` finds a decoder for the codec of a stream. -/
  find_decoder : Nat → Bool
  /-- The `channels`, `sample_rate` and `frame_size` that `avcodec_open2` leaves in the context
  of a stream, `none` when it fails. -/
  avcodec_open2 : Nat → Option (Int × Int × Int)
  prepareAudioTrack_exception : Bool
  prepareAudioTrack_null : Bool
  NewGlobalRef_null : Bool
  getChannelCount : Int
  getSampleRate : Int
  /-- The function `av_get_channel_layout_nb_channels` of libavutil. -/
  av_get_channel_layout_nb_channels : Int → Int
  /-- The function `av_get_default_channel_layout` of libavutil. -/
  av_get_default_channel_layout : Int → Int
  swr_alloc_set_opts_null : Bool
  swr_init : Int
  /-- Whether `queue_init_with_custom_lock` yields the RGB queue. -/
  rgb_queue_ok : Bool
  sws_getContext_ok : Bool
  avcodec_alloc_frame_ok : MediaType → Bool
  /-- Whether `queue_init_with_custom_lock` yields the packet queue of a kind. -/
  packets_queue_ok : MediaType → Bool
  pthread_attr_init : Int
  pthread_create_decoder : MediaType → Int
  pthread_create_reader : Int
  pthread_attr_destroy : Int
  join : JoinEnv

/-- The C function `player_open_input`, with the readings 1 to 5 of `av_gettime`. -/
def player_open_input (env : OpenEnv) (p : Player) : Int × Player × List Ev :=
  let p1 := { p with open_time := env.gettime 1 }
  match env.avformat_open_input with
  | none => (-ERROR_COULD_NOT_OPEN_VIDEO_FILE, p1, [Ev.avformat_open_input])
  | some ic =>
    let p2 := { p1 with format_ctx := some ic, open_time := 0, input_inited := true }
    let p3 := update_external_clock_pts p2 ((env.gettime 2 : ℚ) / (AV_NOPTS_VALUE : ℚ))
      (env.gettime 3)
    let p4 := update_external_clock_speed p3 1 (env.gettime 4) (env.gettime 4)
    let p5 := { p4 with video_current_pts_drift := -(env.gettime 5 : ℚ) / 1000000 }
    (ERROR_NO_ERROR, p5, [Ev.avformat_open_input])

/-- The C function `player_find_stream_info`. -/
def player_find_stream_info (env : OpenEnv) : Int :=
  if env.find_stream_info_ok then ERROR_NO_ERROR else -ERROR_COULD_NOT_OPEN_STREAM

/-- The error `AVERROR_STREAM_NOT_FOUND` of libavutil, `-MKTAG(0xF8,'S','T','R')`. -/
def AVERROR_STREAM_NOT_FOUND : Int := -0x525453F8

/-- The library function `av_find_best_stream(ic, type, wanted, -1, NULL, 0)`, from its
documentation: among the streams of the wanted kind (only the stream `wanted` when that is not
negative) it returns the one the library prefers, and `AVERROR_STREAM_NOT_FOUND` when there
is none. -/
def av_find_best_stream (env : OpenEnv) (ic : AVFormatContext) (type : MediaType)
    (wanted : Int) : Int :=
  let candidates := (List.range ic.streams.length).filter fun i =>
    match ic.streams[i]? with
    | some st => decide (st.codec.codec_type = enumValue type) &&
        (decide (wanted < 0) || decide ((i : Int) = wanted))
    | none => false
  match candidates with
  | [] => AVERROR_STREAM_NOT_FOUND
  | c :: cs => if env.best_stream (c :: cs) ∈ c :: cs then (env.best_stream (c :: cs) : Int) else c

/-- The C function `stream_component_open`.  The guard lets `stream_index = nb_streams`
through; the read of `ic->streams[stream_index]` is recorded as a call. -/
def stream_component_open (env : OpenEnv) (ic : AVFormatContext) (p : Player)
    (stream_index : Int) : Int × Player × List Ev :=
  if stream_index < 0 ∨ stream_index > (ic.streams.length : Int) then (-1, p, [])
  else
    let st : AVStream := (ic.streams[stream_index.toNat]?).getD env.stray_stream
    let avctx := { st.codec with id := stream_index.toNat }
    let evs := [Ev.index_streams stream_index]
    if !env.find_decoder avctx.id then (-1, p, evs)
    else
      let store (c : AVCodecContext) (q : Player) : Player :=
        if c.codec_type = enumValue AVMEDIA_TYPE_AUDIO then
          { q with
            audio_index := stream_index
            input_streams := Function.update q.input_streams AVMEDIA_TYPE_AUDIO (some st)
            input_codec_ctxs := Function.update q.input_codec_ctxs AVMEDIA_TYPE_AUDIO (some c)
            stream_indexs := Function.update q.stream_indexs AVMEDIA_TYPE_AUDIO stream_index }
        else if c.codec_type = enumValue AVMEDIA_TYPE_VIDEO then
          { q with
            video_index := stream_index
            input_streams := Function.update q.input_streams AVMEDIA_TYPE_VIDEO (some st)
            input_codec_ctxs := Function.update q.input_codec_ctxs AVMEDIA_TYPE_VIDEO (some c)
            stream_indexs := Function.update q.stream_indexs AVMEDIA_TYPE_VIDEO stream_index }
        else q
      match env.avcodec_open2 avctx.id with
      | none => (-1, store avctx p, evs ++ [Ev.avcodec_open2 avctx.id])
      | some (channels, sample_rate, frame_size) =>
        let opened := { avctx with
          channels := channels, sample_rate := sample_rate, frame_size := frame_size }
        let fixed :=
          if opened.codec_type = enumValue AVMEDIA_TYPE_AUDIO then
            { opened with
              channels := if opened.channels ≤ 0 then avctx.channels else opened.channels
              sample_rate :=
                if opened.sample_rate ≤ 0 then avctx.sample_rate else opened.sample_rate
              frame_size :=
                if opened.frame_size ≤ 0 then avctx.frame_size else opened.frame_size }
          else opened
        (0, store fixed p, evs ++ [Ev.avcodec_open2 avctx.id])

/-- The C function `player_find_layout_from_channels` over `channel_android_layout_map` of
`player.h`, the `AV_CH_LAYOUT_*` masks being those of libavutil. -/
def player_find_layout_from_channels (nb_channels : Int) : Int :=
  let channel_android_layout_map : List (Int × Int) :=
    [(1, 0x4), (2, 0x3), (3, 0xB), (4, 0x107), (5, 0x10F), (6, 0x3F), (6, 0x707),
     (7, 0x6C7), (8, 0x63F)]
  match channel_android_layout_map.find? (fun e => decide (nb_channels = e.1)) with
  | some e => e.2
  | none => 0

/-- The context a `NULL` table entry reads as; no caller in this file reaches a read of a
`NULL` entry. -/
def null_ctx : AVCodecContext := ⟨0, -1, 0, 0, 0, 0, 0, 0, 0, 0⟩

/-- The container a `NULL` `format_ctx` reads as; no caller in this file reaches such a read. -/
def null_ic : AVFormatContext := ⟨[], 0⟩

/-- The C function `player_create_audio_track`. -/
def player_create_audio_track (env : OpenEnv) (p : Player) : Int × Player × List Ev :=
  let ctx := (p.input_codec_ctxs AVMEDIA_TYPE_AUDIO).getD null_ctx
  let sample_rate := ctx.sample_rate
  let channels := ctx.channels
  let evs := [Ev.prepareAudioTrack sample_rate channels]
  if env.prepareAudioTrack_exception then (-ERROR_NOT_CREATED_AUDIO_TRACK, p, evs)
  else if env.prepareAudioTrack_null then (-ERROR_NOT_CREATED_AUDIO_TRACK, p, evs)
  else
    let p1 := { p with audio_track := !env.NewGlobalRef_null }
    if !p1.audio_track then (-ERROR_NOT_CREATED_AUDIO_TRACK_GLOBAL_REFERENCE, p1, evs)
    else
      let p2 := { p1 with
        audio_track_channel_count := env.getChannelCount
        audio_track_format := AV_SAMPLE_FMT_S16 }
      let audio_track_sample_rate := env.getSampleRate
      let audio_track_layout := player_find_layout_from_channels p2.audio_track_channel_count
      let dec_channel_layout :=
        if ctx.channel_layout ≠ 0 ∧
            ctx.channels = env.av_get_channel_layout_nb_channels ctx.channel_layout then
          ctx.channel_layout
        else env.av_get_default_channel_layout ctx.channels
      let p3 := { p2 with swr_context := false }
      if ctx.sample_fmt ≠ p3.audio_track_format ∨ dec_channel_layout ≠ audio_track_layout
          ∨ ctx.sample_rate ≠ audio_track_sample_rate then
        let p4 := { p3 with swr_context := !env.swr_alloc_set_opts_null }
        if !p4.swr_context ∨ env.swr_init < 0 then (-ERROR_COULD_NOT_INIT_SWR_CONTEXT, p4, evs)
        else (0, p4, evs)
      else (0, p3, evs)

/-- The C function `player_prepare_rgb_frames`: a queue of 8 slots. -/
def player_prepare_rgb_frames (env : OpenEnv) (p : Player) : Int × Player :=
  let p1 := { p with rgb_video_queue := if env.rgb_queue_ok then some ⟨8, []⟩ else none }
  if p1.rgb_video_queue.isNone then (-ERROR_COULD_NOT_PREPARE_RGB_QUEUE, p1) else (0, p1)

/-- The C function `player_preapre_sws_context`. -/
def player_preapre_sws_context (env : OpenEnv) (p : Player) : Int × Player :=
  let p1 := { p with sws_context := env.sws_getContext_ok }
  if !p1.sws_context then (-ERROR_COULD_NOT_GET_SWS_CONTEXT, p1) else (0, p1)

/-- The loop of `player_alloc_frames`, which returns at the first failed allocation. -/
def player_alloc_frames_loop (env : OpenEnv) : List MediaType → Player → Int × Player
  | [], p => (0, p)
  | i :: rest, p =>
    if (p.input_codec_ctxs i).isSome then
      let p1 := { p with
        input_frames := Function.update p.input_frames i (env.avcodec_alloc_frame_ok i) }
      if !p1.input_frames i then (-ERROR_COULD_NOT_ALLOC_FRAME, p1)
      else player_alloc_frames_loop env rest p1
    else player_alloc_frames_loop env rest p

/-- The C function `player_alloc_frames`. -/
def player_alloc_frames (env : OpenEnv) (p : Player) : Int × Player :=
  player_alloc_frames_loop env mediaTypes p

/-- The loop of `player_alloc_queues`: queues of 100 slots, returning at the first failure. -/
def player_alloc_queues_loop (env : OpenEnv) : List MediaType → Player → Int × Player
  | [], p => (0, p)
  | i :: rest, p =>
    if (p.input_codec_ctxs i).isSome then
      let p1 := { p with
        packets_queue := Function.update p.packets_queue i
          (if env.packets_queue_ok i then some ⟨100, []⟩ else none) }
      if (p1.packets_queue i).isNone then (-ERROR_COULD_NOT_PREPARE_PACKETS_QUEUE, p1)
      else player_alloc_queues_loop env rest p1
    else player_alloc_queues_loop env rest p

/-- The C function `player_alloc_queues`. -/
def player_alloc_queues (env : OpenEnv) (p : Player) : Int × Player :=
  player_alloc_queues_loop env mediaTypes p

/-- The power `2^e` for an integer exponent `e`. -/
def pow2 (e : Int) : ℚ :=
  if 0 ≤ e then ((2 ^ e.toNat : Nat) : ℚ) else 1 / ((2 ^ (-e).toNat : Nat) : ℚ)

/-- Rounding to the nearest integer, a tie going to the even one. -/
def round_half_even (x : ℚ) : Int :=
  if x - ⌊x⌋ < 1 / 2 then ⌊x⌋
  else if 1 / 2 < x - ⌊x⌋ then ⌊x⌋ + 1
  else if ⌊x⌋ % 2 = 0 then ⌊x⌋ else ⌊x⌋ + 1

/-- The loop of `bit_length`. -/
def bit_length_loop : Nat → Nat → Nat
  | 0, _ => 0
  | fuel + 1, n => if n = 0 then 0 else bit_length_loop fuel (n / 2) + 1

/-- The number of binary digits of `n`: `⌊log₂ n⌋ + 1` for `n > 0`, and 0 for 0. -/
def bit_length (n : Nat) : Nat := bit_length_loop n n

/-- The exponent `⌊log₂ |x|⌋` of a rational number `x ≠ 0`. -/
def binary_exponent (x : ℚ) : Int :=
  let k : Int := (bit_length x.num.natAbs : Int) - (bit_length x.den : Int)
  if pow2 k ≤ |x| then k else k - 1

/-- The `double` (IEEE 754 binary64) nearest to the real number `x`, a tie going to the even
significand: the rounding that ends every C operation on `double`.  The significand has 53
bits, and the last place is never below `2^(−1074)`.  Overflow to infinity is not modelled: a
number beyond the largest `double` is rounded to 53 bits like any other. -/
def to_double (x : ℚ) : ℚ :=
  if x = 0 then 0
  else
    let q := max (binary_exponent x - 52) (-1074)
    (round_half_even (x / pow2 q) : ℚ) * pow2 q

/-- The least value of the C types `int` and `long`, which both have 32 bits on the targets
of the library: `jni_player_init` stores the `Player *` in a `jint`. -/
def LONG_MIN : Int := -2147483648

/-- The greatest value of the C types `int` and `long`. -/
def LONG_MAX : Int := 2147483647

/-- The C conversion to `long`, or to `int`, of a `double` that holds the integer `x`, as in
`player->video_duration = round(...)` and in `int time_int = round(time)`.  Inside the range
of the type it is `x`.  Outside it the conversion is undefined in C; the model takes the
nearest bound, which is what the conversion instruction of the ARM targets gives. -/
def double_to_long (x : Int) : Int := max LONG_MIN (min LONG_MAX x)

/-- The library function `av_q2d` of libavutil, `num / (double) den`. -/
def av_q2d (num den : Int) : ℚ := to_double ((num : ℚ) / (den : ℚ))

/-- The duration of a stream in seconds, the `double`
`round(stream->duration * av_q2d(stream->time_base))`: the `int64_t` is converted to
`double`, and the product is rounded to a `double` before `round` is applied. -/
def stream_seconds (st : AVStream) : Int :=
  c_round (to_double (to_double (st.duration : ℚ) * av_q2d st.time_base_num st.time_base_den))

/-- The duration of a container in seconds, the `double`
`round(format_ctx->duration * av_q2d(AV_TIME_BASE_Q))`. -/
def container_seconds (ic : AVFormatContext) : Int :=
  c_round (to_double (to_double (ic.duration : ℚ) * av_q2d 1 AV_TIME_BASE))

/-- The C function `player_get_video_duration`. -/
def player_get_video_duration (p : Player) : Player :=
  let p1 := { p with last_updated_time := -1, video_duration := 0 }
  let ic := p1.format_ctx.getD null_ic
  match (mediaTypes.filterMap p1.input_streams).find? (fun st => decide (0 < st.duration)) with
  | some st => { p1 with video_duration := double_to_long (stream_seconds st) }
  | none =>
    if ic.duration ≠ 0 then { p1 with video_duration := double_to_long (container_seconds ic) }
    else
      match ic.streams.find? (fun st => decide (0 < st.duration)) with
      | some st => { p1 with video_duration := double_to_long (stream_seconds st) }
      | none => p1

/-- The C function `player_update_current_time`: the call of `onUpdateTime`. -/
def player_update_current_time (p : Player) (is_finished : Bool) : List Ev :=
  [Ev.onUpdateTime p.last_updated_time p.video_duration is_finished]

/-- The C function `player_update_time`. -/
def player_update_time (p : Player) (time : ℚ) : Player × List Ev :=
  let time_int := double_to_long (c_round time)
  if p.last_updated_time = time_int then (p, [])
  else
    let p1 := { p with last_updated_time := time_int }
    let p2 := if time_int > p1.video_duration then { p1 with video_duration := time_int } else p1
    (p2, player_update_current_time p2 false)

/-- The C function `player_assign_to_no_boolean_array`: the entries of the kinds that have a
codec context are set, the others are left as they are. -/
def player_assign_to_no_boolean_array (p : Player) (array : MediaType → Bool) (value : Bool) :
    MediaType → Bool :=
  mediaTypes.foldl
    (fun a i => if (p.input_codec_ctxs i).isSome then Function.update a i value else a) array

/-- The C function `player_if_all_no_array_elements_has_value`. -/
def player_if_all_no_array_elements_has_value (p : Player) (array : MediaType → Bool)
    (value : Bool) : Bool :=
  mediaTypes.all fun i => !((p.input_codec_ctxs i).isSome && array i != value)

/-- The C function `player_play_prepare`. -/
def player_play_prepare (p : Player) : Player × List Ev :=
  let p1 := { p with stop := false, seek_position := DO_NOT_SEEK_int }
  let p2 := { p1 with flush_streams := player_assign_to_no_boolean_array p1 p1.flush_streams false }
  let p3 := { p2 with stop_streams := player_assign_to_no_boolean_array p2 p2.stop_streams false }
  (p3, [Ev.lock Mutex.mutex_queue, Ev.cond_broadcast, Ev.unlock Mutex.mutex_queue])

/-- The decoder loop of `player_create_decoding_threads`; it stops at the first
`pthread_create` that fails. -/
def player_create_decoding_threads_loop (env : OpenEnv) :
    List MediaType → Player → List Ev → Int × Player × List Ev
  | [], p, evs => (0, p, evs)
  | i :: rest, p, evs =>
    if (p.input_codec_ctxs i).isSome then
      if env.pthread_create_decoder i ≠ 0 then
        (-ERROR_COULD_NOT_CREATE_PTHREAD, p, evs)
      else
        player_create_decoding_threads_loop env rest
          { p with decode_threads_created := Function.update p.decode_threads_created i true }
          (evs ++ [Ev.pthread_create_decoder i])
    else player_create_decoding_threads_loop env rest p evs

/-- The C function `player_create_decoding_threads`. -/
def player_create_decoding_threads (env : OpenEnv) (p : Player) : Int × Player × List Ev :=
  let body : Int × Player × List Ev :=
    if env.pthread_attr_init ≠ 0 then (-ERROR_COULD_NOT_INIT_PTHREAD_ATTR, p, [])
    else
      let r := player_create_decoding_threads_loop env mediaTypes p []
      if r.1 ≠ 0 then r
      else if env.pthread_create_reader ≠ 0 then (-ERROR_COULD_NOT_CREATE_PTHREAD, r.2.1, r.2.2)
      else (0, { r.2.1 with read_stream_thread_created := true },
            r.2.2 ++ [Ev.pthread_create_reader])
  let err := body.1
  (if env.pthread_attr_destroy ≠ 0 then
      (if err = 0 then ERROR_COULD_NOT_DESTROY_PTHREAD_ATTR else err)
    else err,
   body.2.1, body.2.2)

/-- The `error:` label of `player_set_data_source`: the teardown, the unlock, the return of
`err`.  `evs` are the calls made before the jump. -/
def player_set_data_source_error (env : OpenEnv) (p : Player) (err : Int) (evs : List Ev) :
    Int × Player × List Ev :=
  let r := player_teardown env.join p
  (err, r.1, evs ++ r.2 ++ [Ev.unlock Mutex.mutex_operation])

/-- The part of `player_set_data_source` from `player_alloc_frames` to the end. -/
def player_set_data_source_finish (env : OpenEnv) (p : Player) (evs : List Ev) :
    Int × Player × List Ev :=
  let r1 := player_alloc_frames env p
  if r1.1 < 0 then player_set_data_source_error env r1.2 r1.1 evs
  else
    let r2 := player_alloc_queues env r1.2
    if r2.1 < 0 then player_set_data_source_error env r2.2 r2.1 evs
    else
      let p3 := player_get_video_duration r2.2
      let r4 := player_update_time p3 0
      let r5 := player_play_prepare r4.1
      let r6 := player_create_decoding_threads env r5.1
      let evs6 := evs ++ r4.2 ++ r5.2 ++ r6.2.2
      if r6.1 < 0 then player_set_data_source_error env r6.2.1 r6.1 evs6
      else (r6.1, { r6.2.1 with playing := true }, evs6 ++ [Ev.unlock Mutex.mutex_operation])

/-- The video part of `player_set_data_source`, entered with the stream `st_video` that
`av_find_best_stream` chose, and what follows it. -/
def player_set_data_source_video (env : OpenEnv) (ic : AVFormatContext) (p : Player)
    (st_video : Int) (evs : List Ev) : Int × Player × List Ev :=
  if 0 ≤ st_video then
    let r1 := stream_component_open env ic p st_video
    let evs1 := evs ++ r1.2.2
    if r1.1 < 0 then player_set_data_source_error env r1.2.1 r1.1 evs1
    else
      let r2 := player_prepare_rgb_frames env r1.2.1
      if r2.1 < 0 then player_set_data_source_error env r2.2 r2.1 evs1
      else
        let r3 := player_preapre_sws_context env r2.2
        if r3.1 < 0 then player_set_data_source_error env r3.2 r3.1 evs1
        else player_set_data_source_finish env r3.2 evs1
  else player_set_data_source_finish env p evs

/-- The assignments and `memset` calls at the head of `player_set_data_source`, after the
test of `playing`. -/
def player_set_data_source_reset (env : OpenEnv) (p : Player)
    (video_index audio_index subtitle_index : Int) : Player :=
  { p with
    out_format := AV_PIX_FMT_RGB565
    pause := true
    audio_pause_time := env.gettime 0
    audio_resume_time := env.gettime 0
    stream_indexs :=
      Function.update
        (Function.update
          (Function.update (fun _ => -1) AVMEDIA_TYPE_VIDEO video_index)
          AVMEDIA_TYPE_AUDIO audio_index)
        AVMEDIA_TYPE_SUBTITLE subtitle_index
    input_codec_ctxs := fun _ => none
    input_frames := fun _ => false
    packets_queue := fun _ => none
    decode_threads_created := fun _ => false }

/-- The part of `player_set_data_source` from `player_open_input` on, `p1` being the player
after the assignments at the head and `evs0` the calls made so far. -/
def player_set_data_source_open (env : OpenEnv) (p1 : Player) (evs0 : List Ev) :
    Int × Player × List Ev :=
  let r1 := player_open_input env p1
  let evs1 := evs0 ++ r1.2.2
  if r1.1 < 0 then player_set_data_source_error env r1.2.1 r1.1 evs1
  else
    let err2 := player_find_stream_info env
    if err2 < 0 then player_set_data_source_error env r1.2.1 err2 evs1
    else
      let p2 := r1.2.1
      let ic := p2.format_ctx.getD null_ic
      let st_video := av_find_best_stream env ic AVMEDIA_TYPE_VIDEO
        (p2.stream_indexs AVMEDIA_TYPE_VIDEO)
      let st_audio := av_find_best_stream env ic AVMEDIA_TYPE_AUDIO
        (p2.stream_indexs AVMEDIA_TYPE_AUDIO)
      if 0 ≤ st_audio then
        let r3 := stream_component_open env ic p2 st_audio
        let evs3 := evs1 ++ r3.2.2
        if r3.1 < 0 then player_set_data_source_error env r3.2.1 r3.1 evs3
        else
          let r4 := player_create_audio_track env r3.2.1
          let evs4 := evs3 ++ r4.2.2
          if r4.1 < 0 then player_set_data_source_error env r4.2.1 r4.1 evs4
          else player_set_data_source_video env ic r4.2.1 st_video evs4
      else player_set_data_source_video env ic p2 st_video evs1

/-- The C function `player_set_data_source`.  It returns the status, the player it leaves
and the calls it made. -/
def player_set_data_source (env : OpenEnv) (p : Player)
    (video_index audio_index subtitle_index : Int) : Int × Player × List Ev :=
  if p.playing then
    (env.ERROR_NOT_STOP_LAST_INSTANCE, p,
      [Ev.lock Mutex.mutex_operation, Ev.unlock Mutex.mutex_operation])
  else
    player_set_data_source_open env
      (player_set_data_source_reset env p video_index audio_index subtitle_index)
      [Ev.lock Mutex.mutex_operation]

/-! ## Reachable players -/

/-- The players the controller can hold when only `init`, `open` and `stop` are called. -/
inductive Reachable : Player → Prop where
  | init : Reachable jni_player_init
  | after_open (env : OpenEnv) (p : Player) (v a s : Int) :
      Reachable p → Reachable (player_set_data_source env p v a s).2.1
  | after_stop (j : JoinEnv) (p : Player) : Reachable p → Reachable (player_stop j p).1

/-! ## A sample source

A container with a video stream (25 fps, 10 s) and a stereo audio stream, and a host on which
every call succeeds. -/

/-- The codec context of the video stream of the sample container. -/
def sample_video_ctx : AVCodecContext := ⟨0, 0, 0, 0, 0, 0, 0, 640, 480, 0⟩

/-- The codec context of the audio stream of the sample container. -/
def sample_audio_ctx : AVCodecContext := ⟨1, 1, 2, 44100, 1024, 1, 3, 0, 0, 0⟩

/-- The sample container: stream 0 is video, stream 1 is audio. -/
def sample_container : AVFormatContext :=
  ⟨[⟨250, 1, 25, sample_video_ctx⟩, ⟨441000, 1, 44100, sample_audio_ctx⟩], 10000000⟩

/-- Joins that all return 0. -/
def sample_join : JoinEnv := ⟨0, fun _ => 0⟩

/-- A host on which every call of `player_set_data_source` succeeds. -/
def sample_env : OpenEnv :=
  { ERROR_NOT_STOP_LAST_INSTANCE := 51
    gettime := fun _ => 1000
    avformat_open_input := some sample_container
    find_stream_info_ok := true
    best_stream := fun l => l.headD 0
    stray_stream := ⟨0, 0, 1, null_ctx⟩
    find_decoder := fun _ => true
    avcodec_open2 := fun i => if i = 0 then some (0, 0, 0) else some (2, 44100, 1024)
    prepareAudioTrack_exception := false
    prepareAudioTrack_null := false
    NewGlobalRef_null := false
    getChannelCount := 2
    getSampleRate := 44100
    av_get_channel_layout_nb_channels := fun _ => 2
    av_get_default_channel_layout := fun _ => 3
    swr_alloc_set_opts_null := false
    swr_init := 0
    rgb_queue_ok := true
    sws_getContext_ok := true
    avcodec_alloc_frame_ok := fun _ => true
    packets_queue_ok := fun _ => true
    pthread_attr_init := 0
    pthread_create_decoder := fun _ => 0
    pthread_create_reader := 0
    pthread_attr_destroy := 0
    join := sample_join }

/-- The sample host, except that `pthread_attr_destroy` returns an error. -/
def attr_destroy_fails_env : OpenEnv := { sample_env with pthread_attr_destroy := 1 }

/-- The player that the open of the sample source on a fresh player leaves: it is playing. -/
def playing_player : Player :=
  (player_set_data_source sample_env jni_player_init (-1) (-1) (-1)).2.1

/-! ## Pause, resume, seek and the renderer switches -/

/-- The C function `jni_player_pause`; `clock 0`, `clock 1`, `clock 2` are the readings of
`av_gettime` in `get_external_clock`, in `update_external_clock_pts` and for
`audio_pause_time`. -/
def jni_player_pause (clock : Nat → Int) (p : Player) : Player × List Ev :=
  if !p.playing then
    (p, [Ev.lock Mutex.mutex_operation, Ev.throw_not_playing, Ev.unlock Mutex.mutex_operation])
  else if p.pause then
    (p, [Ev.lock Mutex.mutex_operation, Ev.lock Mutex.mutex_queue, Ev.unlock Mutex.mutex_queue,
      Ev.unlock Mutex.mutex_operation])
  else
    let p1 := update_external_clock_pts p (get_external_clock p (clock 0)) (clock 1)
    let p2 := { p1 with pause := true }
    let sink := if p2.audio_track then [Ev.audio_track SinkMethod.pause] else []
    let p3 := { p2 with audio_pause_time := clock 2 }
    (p3, [Ev.lock Mutex.mutex_operation, Ev.lock Mutex.mutex_queue] ++ sink ++
      [Ev.cond_broadcast, Ev.unlock Mutex.mutex_queue, Ev.unlock Mutex.mutex_operation])

/-- The C function `jni_player_resume`; `clock 0` is the reading for `audio_resume_time`,
`clock 1` the one for the video drift, `clock 2` and `clock 3` those of `get_external_clock`
and `update_external_clock_pts`. -/
def jni_player_resume (clock : Nat → Int) (p : Player) : Player × List Ev :=
  if !p.playing then
    (p, [Ev.lock Mutex.mutex_operation, Ev.throw_not_playing, Ev.unlock Mutex.mutex_operation])
  else if !p.pause then
    (p, [Ev.lock Mutex.mutex_operation, Ev.lock Mutex.mutex_queue, Ev.unlock Mutex.mutex_queue,
      Ev.unlock Mutex.mutex_operation])
  else
    let p1 := { p with pause := false }
    let sink := if p1.audio_track then [Ev.audio_track SinkMethod.play] else []
    let p2 := { p1 with audio_resume_time := clock 0 }
    let p3 :=
      if p2.audio_write_time < p2.audio_pause_time then
        { p2 with audio_write_time := p2.audio_resume_time }
      else if p2.audio_write_time < p2.audio_resume_time then
        { p2 with
          audio_write_time :=
            p2.audio_write_time + (p2.audio_resume_time - p2.audio_pause_time) }
      else p2
    let p4 := { p3 with
      video_current_pts_drift := p3.video_current_pts - (clock 1 : ℚ) / 1000000 }
    let p5 := update_external_clock_pts p4 (get_external_clock p4 (clock 2)) (clock 3)
    (p5, [Ev.lock Mutex.mutex_operation, Ev.lock Mutex.mutex_queue] ++ sink ++
      [Ev.cond_broadcast, Ev.unlock Mutex.mutex_queue, Ev.unlock Mutex.mutex_operation])

/-- The loop `while (player->seek_position != DO_NOT_SEEK) pthread_cond_wait(...)` of
`jni_player_seek`.  Each wait gives the player to the other threads; `wakes` lists the player
as the caller finds it at each wake-up.  The result is `none` when the caller is still waiting
after the last of them. -/
def jni_player_seek_wait : Player → List Player → Option Player × List Ev
  | p, [] => if seek_pending p then (none, [Ev.cond_wait]) else (some p, [])
  | p, w :: wakes =>
    if seek_pending p then
      let r := jni_player_seek_wait w wakes
      (r.1, Ev.cond_wait :: r.2)
    else (some p, [])

/-- The C function `jni_player_seek`. -/
def jni_player_seek (wakes : List Player) (p : Player) (position : Int) :
    Option Player × List Ev :=
  if !p.playing then
    (some p,
      [Ev.lock Mutex.mutex_operation, Ev.throw_not_playing, Ev.unlock Mutex.mutex_operation])
  else
    let p1 := { p with seek_position := position }
    let r := jni_player_seek_wait p1 wakes
    match r.1 with
    | some p2 =>
      (some p2, [Ev.lock Mutex.mutex_operation, Ev.lock Mutex.mutex_queue, Ev.cond_broadcast] ++
        r.2 ++ [Ev.unlock Mutex.mutex_queue, Ev.unlock Mutex.mutex_operation])
    | none =>
      (none, [Ev.lock Mutex.mutex_operation, Ev.lock Mutex.mutex_queue, Ev.cond_broadcast] ++ r.2)

/-- The C function `jni_player_render_frame_start`; `none` is the failed `assert`. -/
def jni_player_render_frame_start (p : Player) : Option Player × List Ev :=
  if p.rendering then (none, [Ev.lock Mutex.mutex_queue])
  else
    (some { p with rendering := true, interrupt_renderer := false },
      [Ev.lock Mutex.mutex_queue, Ev.cond_broadcast, Ev.unlock Mutex.mutex_queue])

/-- The C function `jni_player_render_frame_stop`; `none` is the failed `assert`. -/
def jni_player_render_frame_stop (p : Player) : Option Player × List Ev :=
  if !p.rendering then (none, [Ev.lock Mutex.mutex_queue])
  else
    (some { p with rendering := false, interrupt_renderer := true },
      [Ev.lock Mutex.mutex_queue, Ev.cond_broadcast, Ev.unlock Mutex.mutex_queue])

/-! ## Relations between players used in the statements -/

/-- No two entries of a context table hold the same context. -/
def TableDistinct (C : MediaType → Option AVCodecContext) : Prop :=
  ∀ t t' c c', C t = some c → C t' = some c' → c.id = c'.id → t = t'

/-- No two entries of the context table of a player hold the same context. -/
def CtxDistinct (p : Player) : Prop := TableDistinct p.input_codec_ctxs

/-- What holds of every player that `init`, `open` and `stop` can produce. -/
structure Inv (p : Player) : Prop where
  flush : ∀ t, p.flush_streams t = false
  stops : ∀ t, p.stop_streams t = false
  reader : p.playing = false → p.read_stream_thread_created = false
  decoders : p.playing = false → ∀ t, p.decode_threads_created t = false
  inited : p.playing = true → p.input_inited = true
  distinct : CtxDistinct p

/-- The control fields of a player: the part of the record the statements on opening and
stopping are about. -/
structure Ctl where
  playing : Bool
  pause : Bool
  stop : Bool
  seek_position : Int
  flush_streams : MediaType → Bool
  stop_streams : MediaType → Bool
  input_inited : Bool
  input_codec_ctxs : MediaType → Option AVCodecContext
  read_stream_thread_created : Bool
  decode_threads_created : MediaType → Bool

/-- The control fields of a player. -/
def ctl (p : Player) : Ctl :=
  { playing := p.playing
    pause := p.pause
    stop := p.stop
    seek_position := p.seek_position
    flush_streams := p.flush_streams
    stop_streams := p.stop_streams
    input_inited := p.input_inited
    input_codec_ctxs := p.input_codec_ctxs
    read_stream_thread_created := p.read_stream_thread_created
    decode_threads_created := p.decode_threads_created }

/-- What an error exit of an open leaves: the teardown of a player `q1` that has the `playing`
and `pause` of `q` and no flush or stop request that `q` has not. -/
def ErrorExit (env : OpenEnv) (q : Player) (r : Int × Player × List Ev) : Prop :=
  r.1 < 0 ∧ ∃ q1, q1.playing = q.playing ∧ q1.pause = q.pause ∧
    (∀ t, q1.flush_streams t = true → q.flush_streams t = true) ∧
    (∀ t, q1.stop_streams t = true → q.stop_streams t = true) ∧
    r.2.1 = (player_teardown env.join q1).1

/-- What a successful open leaves in the control fields, `q` being the player before the
streams are opened and `C` the context table after. -/
def SuccessExit (q : Player) (C : MediaType → Option AVCodecContext)
    (r : Int × Player × List Ev) : Prop :=
  0 ≤ r.1 ∧
    ctl r.2.1 =
      { ctl q with
        input_codec_ctxs := C
        stop := false
        seek_position := DO_NOT_SEEK_int
        flush_streams := fun t => q.flush_streams t && !(C t).isSome
        stop_streams := fun t => q.stop_streams t && !(C t).isSome
        decode_threads_created := fun t => (C t).isSome || q.decode_threads_created t
        read_stream_thread_created := true
        playing := true }

/-! ## Reading a list of calls -/

/-- Whether a call is a wait on `cond_queue`. -/
def Ev.is_wait : Ev → Bool
  | Ev.cond_wait => true
  | Ev.cond_timeout _ => true
  | _ => false

/-- Whether a call locks or unlocks `mutex_operation`. -/
def Ev.on_mutex_operation : Ev → Bool
  | Ev.lock Mutex.mutex_operation => true
  | Ev.unlock Mutex.mutex_operation => true
  | _ => false

/-- A call that is neither a wait on `cond_queue` nor a lock or unlock of `mutex_operation`. -/
def Ev.inner (e : Ev) : Bool := !e.is_wait && !e.on_mutex_operation

/-- Whether, in a list of calls made by one thread that starts holding the mutex `m` or not
(`held`), some wait on `cond_queue` is made while `m` is held. -/
def waits_holding (m : Mutex) : List Ev → Bool → Bool
  | [], _ => false
  | Ev.lock m' :: rest, held => waits_holding m rest (held || decide (m' = m))
  | Ev.unlock m' :: rest, held => waits_holding m rest (held && !decide (m' = m))
  | Ev.cond_wait :: rest, held => held || waits_holding m rest held
  | Ev.cond_timeout _ :: rest, held => held || waits_holding m rest held
  | _ :: rest, held => waits_holding m rest held

/-- A list of calls is bracketed by `mutex_operation`: it starts with the lock, ends with the
unlock and does not touch that mutex in between. -/
def bracketed (evs : List Ev) : Prop :=
  ∃ mid, evs = Ev.lock Mutex.mutex_operation :: mid ++ [Ev.unlock Mutex.mutex_operation] ∧
    ∀ e ∈ mid, e.on_mutex_operation = false

/-- Every call of the list is neither a wait nor an operation on `mutex_operation`. -/
def AllInner (evs : List Ev) : Prop := ∀ e ∈ evs, e.inner = true

/-- A function that is entered with the calls `evs` already made adds calls that are neither
waits nor operations on `mutex_operation`, and then unlocks `mutex_operation`. -/
def Tail (evs : List Ev) (r : Int × Player × List Ev) : Prop :=
  ∃ mid, r.2.2 = evs ++ mid ++ [Ev.unlock Mutex.mutex_operation] ∧ AllInner mid

/-! ## The reader and decoder threads

`player_read_stream` and `player_decode` run concurrently with each other and with the host.
Each becomes a step function on the state of the whole system: a thread is at a program
point (`RPc`, `DPc`), and one step runs it from there to the next point where it can block or
where it gives up `mutex_queue`.  A step of a thread that cannot go on leaves the system as
it is.  The order of the steps and every outcome of a library call are given from outside
(`Action`), so a statement for all lists of actions is a statement for all interleavings. -/

/-- The result of a check function of a queue: `QueueCheckFuncRet` of `queue.h`, with the
message a skip carries. -/
inductive QueueCheckFuncRet where
  | test
  | wait
  | skip (msg : Nat)
  deriving DecidableEq, Repr

/-- The value `DECODE_CHECK_MSG_STOP` of `enum DecodeCheckMsg`. -/
def DECODE_CHECK_MSG_STOP : Nat := 0
/-- The value `DECODE_CHECK_MSG_FLUSH` of `enum DecodeCheckMsg`. -/
def DECODE_CHECK_MSG_FLUSH : Nat := 1
/-- The value `READ_FROM_STREAM_CHECK_MSG_STOP` of `enum ReadFromStreamCheckMsg`. -/
def READ_FROM_STREAM_CHECK_MSG_STOP : Nat := 0
/-- The value `READ_FROM_STREAM_CHECK_MSG_SEEK` of `enum ReadFromStreamCheckMsg`. -/
def READ_FROM_STREAM_CHECK_MSG_SEEK : Nat := 1

/-- The C function `player_decode_queue_check` for the decoder of the media type `t`. -/
def player_decode_queue_check (p : Player) (t : MediaType) : QueueCheckFuncRet :=
  if p.stop_streams t then QueueCheckFuncRet.skip DECODE_CHECK_MSG_STOP
  else if p.flush_streams t then QueueCheckFuncRet.skip DECODE_CHECK_MSG_FLUSH
  else QueueCheckFuncRet.test

/-- The C function `player_read_stream_check`. -/
def player_read_stream_check (p : Player) : QueueCheckFuncRet :=
  if p.stop then QueueCheckFuncRet.skip READ_FROM_STREAM_CHECK_MSG_STOP
  else if seek_pending p then QueueCheckFuncRet.skip READ_FROM_STREAM_CHECK_MSG_SEEK
  else QueueCheckFuncRet.test

/-- The library function `av_init_packet`: it clears the destructor and the stream index and
leaves `data` as it is. -/
def av_init_packet (pkt : AVPacket) : AVPacket :=
  { pkt with destruct := false, stream_index := 0 }

/-- The library function `av_free_packet`: the destructor, when set, releases the payload;
`data` is cleared.  The release is recorded as a call. -/
def av_free_packet (pkt : AVPacket) : AVPacket × List Ev :=
  ({ pkt with data := none },
   match pkt.destruct, pkt.data with
   | true, some d => [Ev.av_free_packet d]
   | _, _ => [])

/-- The library function `av_dup_packet`: a packet that has data but does not own it gets a
copy of its own, in the buffer `fresh`; `none` is the failure of that allocation. -/
def av_dup_packet (pkt : AVPacket) (fresh : Nat) (ok : Bool) : Option AVPacket :=
  if !pkt.destruct && pkt.data.isSome then
    if ok then some { pkt with data := some fresh, destruct := true } else none
  else some pkt

/-- The threads of the system. -/
inductive Thread where
  | reader
  | decoder (t : MediaType)
  | host
  deriving DecidableEq, Repr

/-- The program points of `player_read_stream`. -/
inductive RPc where
  /-- The head of the `for (;;)` loop, before the pause loop. -/
  | top
  /-- Before `av_read_frame`. -/
  | read
  /-- In `queue_push_start_impl` for the end-of-stream marker. -/
  | eof_push
  /-- In the loop that waits for a stop or a seek after the end of the container. -/
  | eof_wait
  /-- The label `parse_frame`. -/
  | parse_frame
  /-- In `queue_push_start_impl` for a packet of the queue `i`. -/
  | push (i : MediaType)
  /-- The label `exit_loop`. -/
  | exit_loop
  /-- In the loop that waits for the stop requests to be cleared. -/
  | exit_wait
  /-- The label `seek_loop`. -/
  | seek_loop
  /-- In the loop that waits for the flush requests to be cleared. -/
  | seek_wait
  /-- The thread has returned. -/
  | done
  /-- The thread has dereferenced a null pointer. -/
  | crashed
  deriving DecidableEq, Repr

/-- The local variables of `player_read_stream`. -/
structure Reader where
  pc : RPc
  packet : AVPacket
  seek_target : Int
  err : Int
  holds_mutex_queue : Bool
  deriving DecidableEq, Repr

/-- The program points of `player_decode`. -/
inductive DPc where
  /-- The label `pop`, before the pause loop. -/
  | top
  /-- In `queue_pop_start_impl`. -/
  | pop
  /-- Holding a slot of the packet queue, before the decode call. -/
  | decode
  /-- In `queue_push_start_impl` of `player_decode_video`, with the frame to store and the
  status the function will return once the frame is stored. -/
  | push_rgb (elem : VideoRGBFrameElem) (err : Int)
  /-- The label `flush`. -/
  | flush
  /-- In the loop that waits for the renderer to clear `flush_video_play`. -/
  | flush_wait
  /-- The thread has returned. -/
  | done
  /-- The thread has dereferenced a null pointer. -/
  | crashed
  deriving DecidableEq, Repr

/-- The local variables of `player_decode`. -/
structure Decoder where
  pc : DPc
  stop : Bool
  packet_data : Option PacketData
  deriving DecidableEq, Repr

/-- The state of the whole system.  `next_payload` numbers the payload buffers the library
hands out; `log` lists the calls made, newest last, each with the thread that made it;
`flush_served t` is a history variable: it is cleared when the reader raises the flush
requests of a seek and set when the decoder of `t` clears its flush request. -/
structure Sys where
  player : Player
  reader : Reader
  decoders : MediaType → Decoder
  next_payload : Nat
  log : List (Thread × Ev)
  flush_served : MediaType → Bool

/-- What the library answers to the reader during one step. -/
structure ReaderOracle where
  /-- The packet `av_read_frame` yields, named by its stream index; `none` is a negative
  return value. -/
  read : Option Int
  /-- Whether `av_read_frame`, when it fails, leaves the packet blank. -/
  read_failure_blanks : Bool
  /-- Whether `av_seek_frame` succeeds. -/
  seek_ok : Bool
  /-- Whether the allocation in `av_dup_packet` succeeds. -/
  dup_ok : Bool
  /-- The reading of `av_gettime`. -/
  now : Int

/-- The outcomes of `player_decode_audio` on one packet. -/
inductive AudioOutcome where
  /-- `avcodec_decode_audio4` returns a negative value. -/
  | decode_error
  /-- No frame is produced. -/
  | no_frame
  /-- `swr_convert` returns a negative value. -/
  | resample_error
  /-- `NewByteArray` returns `NULL` in `player_write_audio`. -/
  | byte_array_null
  /-- The frame reaches the sink: the `pts` of the packet, the size of the decoded samples,
  the reading of `av_gettime`, the return value of `write` and whether it raised. -/
  | written (pts : Int) (original_data_size : Int) (now : Int) (ret : Int) (exception : Bool)
  deriving DecidableEq, Repr

/-- The outcomes of the decode call of `player_decode_video` on one packet. -/
inductive VideoOutcome where
  /-- `avcodec_decode_video2` returns a negative value. -/
  | decode_error
  /-- No frame is finished. -/
  | not_finished
  /-- A frame with the presentation time `time`; `lock_ok` tells whether
  `AndroidBitmap_lockPixels` succeeds. -/
  | frame (time : ℚ) (lock_ok : Bool)
  deriving DecidableEq, Repr

/-- What the library and the host answer to a decoder during one step. -/
structure DecoderOracle where
  audio : AudioOutcome
  video : VideoOutcome

/-- What the host does between the steps of the threads: the controller calls and the two
effects of a `jni_player_render_frame` on the frame queue. -/
inductive HostAction where
  /-- The assignment `player->seek_position = position` of `jni_player_seek`. -/
  | seek (position : Int)
  /-- The C function `player_signal_stop`. -/
  | signal_stop
  | pause (clock : Nat → Int)
  | resume (clock : Nat → Int)
  | render_frame_start
  | render_frame_stop
  /-- The renderer serves a flush: it empties the frame queue and clears `flush_video_play`. -/
  | render_flush
  /-- The renderer takes the oldest frame and releases it. -/
  | render_take

/-- One step of the system. -/
inductive Action where
  | reader (o : ReaderOracle)
  | decoder (t : MediaType) (o : DecoderOracle)
  | host (h : HostAction)

/-- The library function `av_get_bytes_per_sample` on the sample formats of libavutil
(`U8`, `S16`, `S32`, `FLT`, `DBL` and their planar forms); 0 for any other value. -/
def av_get_bytes_per_sample (sample_fmt : Int) : Int :=
  if sample_fmt = 0 ∨ sample_fmt = 5 then 1
  else if sample_fmt = 1 ∨ sample_fmt = 6 then 2
  else if sample_fmt = 2 ∨ sample_fmt = 7 then 4
  else if sample_fmt = 3 ∨ sample_fmt = 8 then 4
  else if sample_fmt = 4 ∨ sample_fmt = 9 then 8
  else 0

/-- The part of `player_write_audio` under `mutex_queue`: the audio clock and
`audio_write_time`. -/
def player_write_audio_clock (p : Player) (pts : Int) (original_data_size : Int)
    (now : Int) : Player :=
  let ctx := (p.input_codec_ctxs AVMEDIA_TYPE_AUDIO).getD null_ctx
  let p1 :=
    if pts ≠ AV_NOPTS_VALUE then
      match p.input_streams AVMEDIA_TYPE_AUDIO with
      | some stream =>
        { p with
          audio_clock :=
            ((stream.time_base_num : ℚ) / (stream.time_base_den : ℚ)) * (pts : ℚ) }
      | none => p
    else
      { p with
        audio_clock := p.audio_clock + (original_data_size : ℚ) /
          ((ctx.channels * ctx.sample_rate * av_get_bytes_per_sample ctx.sample_fmt : Int) : ℚ) }
  { p1 with audio_write_time := now }

/-- The C function `player_decode_audio` with `player_write_audio`: the status and the player
they leave, and their calls. -/
def player_decode_audio (p : Player) (o : AudioOutcome) : Int × Player × List Ev :=
  match o with
  | AudioOutcome.decode_error => (-ERROR_WHILE_DECODING_AUDIO_FRAME, p, [])
  | AudioOutcome.no_frame => (0, p, [])
  | AudioOutcome.resample_error => (-ERROR_COULD_NOT_RESAMPLE_FRAME, p, [])
  | AudioOutcome.byte_array_null => (-ERROR_NOT_CREATED_AUDIO_SAMPLE_BYTE_ARRAY, p, [])
  | AudioOutcome.written pts original_data_size now ret exception =>
    let p1 := player_write_audio_clock p pts original_data_size now
    let evs := [Ev.lock Mutex.mutex_queue, Ev.cond_broadcast, Ev.unlock Mutex.mutex_queue,
      Ev.audio_track SinkMethod.write]
    if exception then (- ERROR_PLAYING_AUDIO, p1, evs)
    else if ret < 0 then (- ERROR_PLAYING_AUDIO, p1, evs)
    else (0, p1, evs)

/-- Removes the oldest slot of the packet queue of `t`: `queue_pop_finish`. -/
def queue_pop_finish (p : Player) (t : MediaType) : Player :=
  match p.packets_queue t with
  | some q =>
    { p with
      packets_queue := Function.update p.packets_queue t (some ⟨q.capacity, q.used.tail⟩) }
  | none => p

/-- Adds the calls of a thread to the log. -/
def Sys.add (s : Sys) (th : Thread) (evs : List Ev) : Sys :=
  { s with log := s.log ++ evs.map fun e => (th, e) }

/-- Puts the reader at a program point. -/
def Sys.reader_at (s : Sys) (pc : RPc) : Sys :=
  { s with reader := { s.reader with pc := pc } }

/-- The calls `avcodec_flush_buffers` on every context of the table, in order. -/
def flush_buffers_calls (p : Player) : List Ev :=
  mediaTypes.filterMap fun i => (p.input_codec_ctxs i).map fun c => Ev.avcodec_flush_buffers c.id

/-- The label `skip_loop` of `player_read_stream`: the local packet is freed, `mutex_queue`
is released, the loop starts again. -/
def reader_skip_loop (s : Sys) : Sys :=
  let f := av_free_packet s.reader.packet
  let s1 := (s.add Thread.reader (f.2 ++ [Ev.unlock Mutex.mutex_queue]))
  { s1 with reader := { s1.reader with pc := RPc.top, packet := f.1, holds_mutex_queue := false } }

/-- The seek target of `seek_loop`: `av_rescale_q` from microseconds to the time base of the
stream, to the nearest integer. -/
def seek_target_of (seek_position : Int) (stream : AVStream) : Int :=
  c_round (((AV_TIME_BASE * seek_position : Int) : ℚ) * (1 / (AV_TIME_BASE : ℚ)) /
    ((stream.time_base_num : ℚ) / (stream.time_base_den : ℚ)))

/-- One step of `player_read_stream`. -/
def reader_step (o : ReaderOracle) (s : Sys) : Sys :=
  let p := s.player
  let r := s.reader
  match r.pc with
  | RPc.top =>
    if p.pause && !p.stop then
      if seek_pending p then
        { s with reader := { r with pc := RPc.seek_loop, packet := av_init_packet r.packet } }
      else s
    else s.reader_at RPc.read
  | RPc.read =>
    match o.read with
    | none =>
      let pkt := if o.read_failure_blanks then ⟨none, false, 0⟩ else r.packet
      { (s.add Thread.reader [Ev.lock Mutex.mutex_queue]) with
        reader := { r with pc := RPc.eof_push, packet := pkt, holds_mutex_queue := true } }
    | some stream_index =>
      let pkt : AVPacket := ⟨some s.next_payload, true, stream_index⟩
      let pc :=
        if p.stop then RPc.exit_loop
        else if seek_pending p then RPc.seek_loop
        else RPc.parse_frame
      { (s.add Thread.reader [Ev.lock Mutex.mutex_queue]) with
        next_payload := s.next_payload + 1
        reader := { r with pc := pc, packet := pkt, holds_mutex_queue := true } }
  | RPc.eof_push =>
    match p.packets_queue AVMEDIA_TYPE_VIDEO with
    | none => s.reader_at RPc.crashed
    | some q =>
      match player_read_stream_check p with
      | QueueCheckFuncRet.skip msg =>
        if msg = READ_FROM_STREAM_CHECK_MSG_STOP then s.reader_at RPc.exit_loop
        else { s with reader := { r with pc := RPc.seek_loop, packet := av_init_packet r.packet } }
      | QueueCheckFuncRet.wait => s
      | QueueCheckFuncRet.test =>
        if q.used.length < q.capacity then
          let slot : PacketData := ⟨true, ⟨none, false, 0⟩⟩
          { (s.add Thread.reader [Ev.cond_broadcast]) with
            player := { p with
              packets_queue := Function.update p.packets_queue AVMEDIA_TYPE_VIDEO
                (some ⟨q.capacity, q.used ++ [slot]⟩) }
            reader := { r with pc := RPc.eof_wait } }
        else s
  | RPc.eof_wait =>
    if p.stop then s.reader_at RPc.exit_loop
    else if seek_pending p then
      { s with reader := { r with pc := RPc.seek_loop, packet := av_init_packet r.packet } }
    else s
  | RPc.parse_frame =>
    match mediaTypes.find? fun i => decide (r.packet.stream_index = p.stream_indexs i) with
    | some i =>
      if (p.packets_queue i).isSome then s.reader_at (RPc.push i)
      else reader_skip_loop s
    | none => reader_skip_loop s
  | RPc.push i =>
    match p.packets_queue i with
    | none => s.reader_at RPc.crashed
    | some q =>
      match player_read_stream_check p with
      | QueueCheckFuncRet.skip msg =>
        if msg = READ_FROM_STREAM_CHECK_MSG_STOP then s.reader_at RPc.exit_loop
        else s.reader_at RPc.seek_loop
      | QueueCheckFuncRet.wait => s
      | QueueCheckFuncRet.test =>
        if q.used.length < q.capacity then
          match av_dup_packet r.packet s.next_payload o.dup_ok with
          | none =>
            { (s.add Thread.reader [Ev.unlock Mutex.mutex_queue, Ev.lock Mutex.mutex_queue]) with
              reader := { r with pc := RPc.exit_loop, err := ERROR_WHILE_DUPLICATING_FRAME } }
          | some stored =>
            let slot : PacketData := ⟨false, stored⟩
            { (s.add Thread.reader [Ev.unlock Mutex.mutex_queue, Ev.lock Mutex.mutex_queue,
                Ev.cond_broadcast, Ev.unlock Mutex.mutex_queue]) with
              next_payload := s.next_payload + 1
              player := { p with
                packets_queue := Function.update p.packets_queue i
                  (some ⟨q.capacity, q.used ++ [slot]⟩) }
              reader := { r with pc := RPc.top, holds_mutex_queue := false } }
        else s
  | RPc.exit_loop =>
    let f := av_free_packet r.packet
    { (s.add Thread.reader (f.2 ++ [Ev.cond_broadcast])) with
      player := { p with stop_streams := player_assign_to_no_boolean_array p p.stop_streams true }
      reader := { r with pc := RPc.exit_wait, packet := f.1 } }
  | RPc.exit_wait =>
    if player_if_all_no_array_elements_has_value p p.stop_streams false then
      { (s.add Thread.reader (flush_buffers_calls p ++ [Ev.unlock Mutex.mutex_queue])) with
        reader := { r with pc := RPc.done, holds_mutex_queue := false } }
    else s
  | RPc.seek_loop =>
    match p.input_streams AVMEDIA_TYPE_VIDEO with
    | none => s.reader_at RPc.crashed
    | some seek_stream =>
      let seek_target := seek_target_of p.seek_position seek_stream
      let call := Ev.av_seek_frame (p.stream_indexs AVMEDIA_TYPE_VIDEO) seek_target
      if !o.seek_ok then
        { (s.add Thread.reader [call, Ev.cond_broadcast]) with
          player := { p with seek_position := DO_NOT_SEEK_int }
          reader := { r with pc := RPc.parse_frame, seek_target := seek_target } }
      else
        let sink := if p.audio_track then [Ev.audio_track SinkMethod.flush] else []
        { (s.add Thread.reader ([call] ++ sink ++ [Ev.cond_broadcast])) with
          player := { p with
            flush_streams := player_assign_to_no_boolean_array p p.flush_streams true }
          flush_served := fun _ => false
          reader := { r with pc := RPc.seek_wait, seek_target := seek_target } }
  | RPc.seek_wait =>
    if player_if_all_no_array_elements_has_value p p.flush_streams false then
      let p1 := { p with seek_position := DO_NOT_SEEK_int }
      let p2 := update_external_clock_pts p1 ((r.seek_target : ℚ) / (AV_TIME_BASE : ℚ)) o.now
      reader_skip_loop
        { (s.add Thread.reader (flush_buffers_calls p ++ [Ev.cond_broadcast])) with player := p2 }
    else s
  | RPc.done => s
  | RPc.crashed => s

/-- Sets the local variables of the decoder of `t`. -/
def Sys.set_decoder (s : Sys) (t : MediaType) (d : Decoder) : Sys :=
  { s with decoders := Function.update s.decoders t d }

/-- Replaces the player. -/
def Sys.set_player (s : Sys) (p : Player) : Sys := { s with player := p }

/-- An empty queue of the capacity of `q`. -/
def Queue.emptied {α : Type} (q : Queue α) : Queue α := ⟨q.capacity, []⟩

/-- The queue `q` with one more committed slot. -/
def Queue.pushed {α : Type} (q : Queue α) (x : α) : Queue α := ⟨q.capacity, q.used ++ [x]⟩

/-- The queue `q` without its oldest slot. -/
def Queue.popped {α : Type} (q : Queue α) : Queue α := ⟨q.capacity, q.used.tail⟩

/-- The end of one turn of the loop of `player_decode`, after the decode call returned `err`:
the packet is freed unless the slot is an end-of-stream marker, the slot is given back, and a
negative `err` sends the thread to the label `stop`. -/
def decoder_finish_decode (t : MediaType) (pd : PacketData) (err : Int) (s : Sys) : Sys :=
  let free := if !pd.end_of_stream then (av_free_packet pd.packet).2 else []
  let s1 := s.add (Thread.decoder t) (free ++ [Ev.lock Mutex.mutex_queue, Ev.cond_broadcast,
    Ev.unlock Mutex.mutex_queue])
  let s2 := s1.set_player (queue_pop_finish s1.player t)
  let s3 := s2.add (Thread.decoder t) [Ev.lock Mutex.mutex_queue]
  if err < 0 then s3.set_decoder t ⟨DPc.flush, true, none⟩
  else s3.set_decoder t ⟨DPc.top, (s3.decoders t).stop, none⟩

/-- The end of the label `flush` of `player_decode`: a stopping thread clears its stop request
and returns, a flushing one clears its flush request and goes back to the label `pop`. -/
def decoder_finish_flush (t : MediaType) (s : Sys) : Sys :=
  let d := s.decoders t
  let p := s.player
  if d.stop then
    let s1 := s.set_player { p with stop_streams := Function.update p.stop_streams t false }
    let s2 := s1.add (Thread.decoder t) [Ev.cond_broadcast, Ev.unlock Mutex.mutex_queue]
    s2.set_decoder t { d with pc := DPc.done }
  else
    let s1 : Sys := { s with
      player := { p with flush_streams := Function.update p.flush_streams t false }
      flush_served := Function.update s.flush_served t true }
    let s2 := s1.add (Thread.decoder t) [Ev.cond_broadcast]
    s2.set_decoder t { d with pc := DPc.top }

/-- The calls `av_free_packet` of the drain loop of the label `flush` on the slots of a queue. -/
def drain_calls (slots : List PacketData) : List Ev :=
  (slots.filter fun pd => !pd.end_of_stream).flatMap fun pd => (av_free_packet pd.packet).2

/-- The label `flush` of `player_decode` up to the point where the thread may have to wait
for the renderer. -/
def decoder_flush (t : MediaType) (s : Sys) : Sys :=
  let p := s.player
  let d := s.decoders t
  let codec_type := ((p.input_codec_ctxs t).getD null_ctx).codec_type
  match p.packets_queue t with
  | none => s.set_decoder t { d with pc := DPc.crashed }
  | some q =>
    let p1 := { p with packets_queue := Function.update p.packets_queue t (some q.emptied) }
    let s1 := (s.set_player p1).add (Thread.decoder t) (drain_calls q.used)
    if codec_type = enumValue AVMEDIA_TYPE_AUDIO then
      decoder_finish_flush t (s1.add (Thread.decoder t) [Ev.audio_track SinkMethod.flush])
    else if codec_type = enumValue AVMEDIA_TYPE_VIDEO then
      if !p.rendering then
        decoder_finish_flush t
          (s1.set_player { p1 with rgb_video_queue := p1.rgb_video_queue.map Queue.emptied })
      else
        let s2 := (s1.set_player { p1 with flush_video_play := true }).add (Thread.decoder t)
          [Ev.cond_broadcast]
        s2.set_decoder t { d with pc := DPc.flush_wait }
    else decoder_finish_flush t s1

/-- The decode call of one turn of the loop of `player_decode`, for the slot `pd`. -/
def decoder_decode (t : MediaType) (o : DecoderOracle) (pd : PacketData) (s : Sys) : Sys :=
  let p := s.player
  let d := s.decoders t
  let codec_type := ((p.input_codec_ctxs t).getD null_ctx).codec_type
  if codec_type = enumValue AVMEDIA_TYPE_AUDIO then
    let r := player_decode_audio p o.audio
    decoder_finish_decode t pd r.1 ((s.set_player r.2.1).add (Thread.decoder t) r.2.2)
  else if codec_type = enumValue AVMEDIA_TYPE_VIDEO then
    if pd.end_of_stream then
      (s.add (Thread.decoder t) [Ev.lock Mutex.mutex_queue]).set_decoder t
        { d with pc := DPc.push_rgb ⟨0, true⟩ 0 }
    else
      match o.video with
      | VideoOutcome.decode_error => decoder_finish_decode t pd (-ERROR_WHILE_DECODING_VIDEO) s
      | VideoOutcome.not_finished => decoder_finish_decode t pd 0 s
      | VideoOutcome.frame time lock_ok =>
        (s.add (Thread.decoder t) [Ev.lock Mutex.mutex_queue]).set_decoder t
          { d with
            pc := DPc.push_rgb ⟨time, false⟩ (if lock_ok then 0 else -ERROR_WHILE_LOCING_BITMAP) }
  else decoder_finish_decode t pd 0 s

/-- The `queue_push_start_impl` of `player_decode_video` and what follows it. -/
def decoder_push_rgb (t : MediaType) (elem : VideoRGBFrameElem) (err : Int) (pd : PacketData)
    (s : Sys) : Sys :=
  let p := s.player
  let d := s.decoders t
  match p.rgb_video_queue with
  | none => s.set_decoder t { d with pc := DPc.crashed }
  | some q =>
    match player_decode_queue_check p t with
    | QueueCheckFuncRet.skip _ =>
      decoder_finish_decode t pd 0 (s.add (Thread.decoder t) [Ev.unlock Mutex.mutex_queue])
    | QueueCheckFuncRet.wait => s
    | QueueCheckFuncRet.test =>
      if q.used.length < q.capacity then
        decoder_finish_decode t pd err
          ((s.set_player { p with rgb_video_queue := some (q.pushed elem) }).add
            (Thread.decoder t) [Ev.unlock Mutex.mutex_queue, Ev.lock Mutex.mutex_queue,
              Ev.cond_broadcast, Ev.unlock Mutex.mutex_queue])
      else s

/-- Where a check of `player_decode_queue_check` that skips sends the decoder: a flush
message to the label `flush`, a stop message to the label `stop`. -/
def decoder_skip (t : MediaType) (msg : Nat) (s : Sys) : Sys :=
  let d := s.decoders t
  if msg = DECODE_CHECK_MSG_FLUSH then s.set_decoder t { d with pc := DPc.flush }
  else s.set_decoder t { d with pc := DPc.flush, stop := true }

/-- One step of `player_decode` for the media type `t`. -/
def decoder_step (t : MediaType) (o : DecoderOracle) (s : Sys) : Sys :=
  let p := s.player
  let d := s.decoders t
  match d.pc with
  | DPc.top =>
    if p.pause && !p.stop then
      match player_decode_queue_check p t with
      | QueueCheckFuncRet.skip msg => decoder_skip t msg s
      | _ => s.add (Thread.decoder t) [Ev.cond_timeout 10]
    else s.set_decoder t { d with pc := DPc.pop }
  | DPc.pop =>
    match player_decode_queue_check p t with
    | QueueCheckFuncRet.skip msg => decoder_skip t msg s
    | QueueCheckFuncRet.wait => s
    | QueueCheckFuncRet.test =>
      match p.packets_queue t with
      | none => s.set_decoder t { d with pc := DPc.crashed }
      | some q =>
        match q.used with
        | [] => s
        | pd :: _ =>
          (s.add (Thread.decoder t) [Ev.unlock Mutex.mutex_queue]).set_decoder t
            { d with pc := DPc.decode, packet_data := some pd }
  | DPc.decode =>
    match d.packet_data with
    | none => s.set_decoder t { d with pc := DPc.crashed }
    | some pd => decoder_decode t o pd s
  | DPc.push_rgb elem err =>
    match d.packet_data with
    | none => s.set_decoder t { d with pc := DPc.crashed }
    | some pd => decoder_push_rgb t elem err pd s
  | DPc.flush => decoder_flush t s
  | DPc.flush_wait => if p.flush_video_play then s else decoder_finish_flush t s
  | DPc.done => s
  | DPc.crashed => s

/-- One step of the host. -/
def host_step (h : HostAction) (s : Sys) : Sys :=
  let p := s.player
  match h with
  | HostAction.seek position =>
    (s.set_player { p with seek_position := position }).add Thread.host [Ev.cond_broadcast]
  | HostAction.signal_stop =>
    (s.set_player (player_signal_stop p).1).add Thread.host (player_signal_stop p).2
  | HostAction.pause clock =>
    (s.set_player (jni_player_pause clock p).1).add Thread.host (jni_player_pause clock p).2
  | HostAction.resume clock =>
    (s.set_player (jni_player_resume clock p).1).add Thread.host (jni_player_resume clock p).2
  | HostAction.render_frame_start =>
    match (jni_player_render_frame_start p).1 with
    | some p1 => (s.set_player p1).add Thread.host (jni_player_render_frame_start p).2
    | none => s
  | HostAction.render_frame_stop =>
    match (jni_player_render_frame_stop p).1 with
    | some p1 => (s.set_player p1).add Thread.host (jni_player_render_frame_stop p).2
    | none => s
  | HostAction.render_flush =>
    if p.flush_video_play then
      (s.set_player { p with
          rgb_video_queue := p.rgb_video_queue.map Queue.emptied
          flush_video_play := false }).add Thread.host [Ev.cond_broadcast]
    else s
  | HostAction.render_take =>
    s.set_player { p with rgb_video_queue := p.rgb_video_queue.map Queue.popped }

/-- One step of the system. -/
def Sys.step (s : Sys) : Action → Sys
  | Action.reader o => reader_step o s
  | Action.decoder t o => decoder_step t o s
  | Action.host h => host_step h s

/-- The system after a list of steps. -/
def Sys.run (s : Sys) (acts : List Action) : Sys := acts.foldl Sys.step s

/-- The system right after `player_create_decoding_threads`: a thread that was created is at
its first program point, one that was not is counted as returned. -/
def Sys.init (p : Player) : Sys :=
  { player := p
    reader :=
      { pc := if p.read_stream_thread_created then RPc.top else RPc.done
        packet := av_init_packet ⟨none, false, 0⟩
        seek_target := 0
        err := 0
        holds_mutex_queue := false }
    decoders := fun t =>
      { pc := if p.decode_threads_created t then DPc.top else DPc.done
        stop := false
        packet_data := none }
    next_payload := 1
    log := []
    flush_served := fun _ => false }

/-! ## Sample runs and the invariants of the pipeline statements -/

/-- The sample host, except that `pthread_create` fails for the reader thread. -/
def reader_create_fails_env : OpenEnv := { sample_env with pthread_create_reader := 1 }

/-- The player with which the open of the sample source reaches its `error:` label when
`pthread_create` fails for the reader: the steps of `player_set_data_source` in order, up to
and with `player_create_decoding_threads`. -/
def open_failed_player : Player :=
  let env := reader_create_fails_env
  let p1 := player_set_data_source_reset env jni_player_init (-1) (-1) (-1)
  let p2 := (player_open_input env p1).2.1
  let p3 := (stream_component_open env sample_container p2 1).2.1
  let p4 := (player_create_audio_track env p3).2.1
  let p5 := (stream_component_open env sample_container p4 0).2.1
  let p6 := (player_prepare_rgb_frames env p5).2
  let p7 := (player_preapre_sws_context env p6).2
  let p8 := (player_alloc_frames env p7).2
  let p9 := (player_alloc_queues env p8).2
  let p10 := (player_update_time (player_get_video_duration p9) 0).1
  let p11 := (player_play_prepare p10).1
  (player_create_decoding_threads env p11).2.1

/-- A system without a reader in which no stop or flush request is set and every packet queue
is empty: every decoder is at the label `pop`, in `queue_pop_start_impl`, or has ended, and
the decoder of `t0` has not returned. -/
structure NoReader (t0 : MediaType) (s : Sys) : Prop where
  reader : s.reader.pc = RPc.done
  stops : ∀ t, s.player.stop_streams t = false
  flushes : ∀ t, s.player.flush_streams t = false
  queues : ∀ t q, s.player.packets_queue t = some q → q.used = []
  pcs : ∀ t, (s.decoders t).pc = DPc.top ∨ (s.decoders t).pc = DPc.pop ∨
    (s.decoders t).pc = DPc.crashed ∨ (s.decoders t).pc = DPc.done
  waiting : (s.decoders t0).pc ≠ DPc.done

/-! ## What the steps of the threads leave alone, and the bookkeeping of a seek -/

/-- What a step of the decoder of `t` leaves alone: the reader, the other decoders, the other
packet queues, `seek_position`, the context table; a flush request and its history either
stay, or they are those of `t`, the request is clear and marked served; the log grows by
calls of this decoder. -/
structure DecoderKeeps (t : MediaType) (s s' : Sys) : Prop where
  reader : s'.reader = s.reader
  decoders : ∀ t', t' ≠ t → s'.decoders t' = s.decoders t'
  queues : ∀ t', t' ≠ t → s'.player.packets_queue t' = s.player.packets_queue t'
  seek : s'.player.seek_position = s.player.seek_position
  ctxs : s'.player.input_codec_ctxs = s.player.input_codec_ctxs
  flush : ∀ t', (s'.player.flush_streams t' = s.player.flush_streams t' ∧
      s'.flush_served t' = s.flush_served t') ∨
    (t' = t ∧ s'.player.flush_streams t' = false ∧ s'.flush_served t' = true)
  log : ∃ evs : List Ev, s'.log = s.log ++ evs.map fun e => (Thread.decoder t, e)

/-- What a step of the reader leaves alone: the decoders, the context table, the slots that
are in the packet queues; the log grows by calls of the reader; and what it does to a seek
request: nothing, or `av_seek_frame` failed and the request is withdrawn without a flush, or
`av_seek_frame` succeeded and every active stream is asked to flush, or every active stream
has no flush request left and the request is withdrawn. -/
structure ReaderKeeps (o : ReaderOracle) (s s' : Sys) : Prop where
  decoders : s'.decoders = s.decoders
  ctxs : s'.player.input_codec_ctxs = s.player.input_codec_ctxs
  queues : ∀ t q, s.player.packets_queue t = some q →
    ∃ q', s'.player.packets_queue t = some q' ∧ ∀ x ∈ q.used, x ∈ q'.used
  log : ∃ evs : List Ev, s'.log = s.log ++ evs.map fun e => (Thread.reader, e)
  seek :
    (s'.player.seek_position = s.player.seek_position ∧
      s'.player.flush_streams = s.player.flush_streams ∧ s'.flush_served = s.flush_served ∧
      (s'.reader.pc = RPc.seek_wait → s.reader.pc = RPc.seek_wait)) ∨
    (s.reader.pc = RPc.seek_loop ∧ o.seek_ok = false ∧ s'.reader.pc = RPc.parse_frame ∧
      s'.player.flush_streams = s.player.flush_streams ∧ s'.flush_served = s.flush_served) ∨
    (s.reader.pc = RPc.seek_loop ∧ o.seek_ok = true ∧
      s'.player.seek_position = s.player.seek_position ∧
      s'.player.flush_streams =
        player_assign_to_no_boolean_array s.player s.player.flush_streams true ∧
      s'.flush_served = fun _ => false) ∨
    (s.reader.pc = RPc.seek_wait ∧
      player_if_all_no_array_elements_has_value s.player s.player.flush_streams false = true ∧
      s'.reader.pc = RPc.top ∧
      s'.player.flush_streams = s.player.flush_streams ∧ s'.flush_served = s.flush_served)

/-- The bookkeeping of a seek: while the reader waits at the end of `seek_loop`, every active
stream that has no flush request left has had its request cleared by its decoder since the
`av_seek_frame` of this seek. -/
def FlushServed (s : Sys) : Prop :=
  s.reader.pc = RPc.seek_wait →
    ∀ t, (s.player.input_codec_ctxs t).isSome = true →
      s.player.flush_streams t = false → s.flush_served t = true

/-- A reader oracle for which `av_seek_frame` fails. -/
def seek_fails_oracle : ReaderOracle :=
  { read := none, read_failure_blanks := false, seek_ok := false, dup_ok := true, now := 0 }

/-- A reader oracle for which `av_seek_frame` succeeds. -/
def seek_succeeds_oracle : ReaderOracle :=
  { read := none, read_failure_blanks := false, seek_ok := true, dup_ok := true, now := 0 }

/-- A decoder oracle: no audio frame, no video frame. -/
def idle_decoder_oracle : DecoderOracle :=
  { audio := AudioOutcome.no_frame, video := VideoOutcome.not_finished }

/-- A run on the playing sample player, which is paused: the host asks for a seek to 5 and the
reader reaches `seek_loop`. -/
def seek_requested_run : Sys :=
  (Sys.init playing_player).run
    [Action.host (HostAction.seek 5), Action.reader seek_fails_oracle]

/-- A run on the playing sample player: the host asks for a seek to 5, `av_seek_frame`
succeeds, and both decoders carry out their flush while the reader waits. -/
def seek_flushed_run : List Action :=
  [Action.host (HostAction.seek 5), Action.reader seek_succeeds_oracle,
    Action.reader seek_succeeds_oracle,
    Action.decoder AVMEDIA_TYPE_VIDEO idle_decoder_oracle,
    Action.decoder AVMEDIA_TYPE_VIDEO idle_decoder_oracle,
    Action.decoder AVMEDIA_TYPE_AUDIO idle_decoder_oracle,
    Action.decoder AVMEDIA_TYPE_AUDIO idle_decoder_oracle]

/-! ## Packets: what is released and what is committed -/

/-- A reader oracle for which `av_read_frame` yields a packet of the audio stream of the
sample source. -/
def audio_packet_oracle : ReaderOracle :=
  { read := some 1, read_failure_blanks := false, seek_ok := true, dup_ok := true, now := 0 }

/-- A decoder oracle for which `avcodec_decode_audio4` fails. -/
def audio_error_oracle : DecoderOracle :=
  { audio := AudioOutcome.decode_error, video := VideoOutcome.not_finished }

/-- A run on the playing sample player: the host resumes, the reader commits one audio
packet, the audio decoder takes it, fails to decode it and leaves through the label `stop`;
then the reader reads and commits a second audio packet. -/
def decode_error_run : List Action :=
  [Action.host (HostAction.resume fun _ => 0),
    Action.reader audio_packet_oracle, Action.reader audio_packet_oracle,
    Action.reader audio_packet_oracle, Action.reader audio_packet_oracle,
    Action.decoder AVMEDIA_TYPE_AUDIO audio_error_oracle,
    Action.decoder AVMEDIA_TYPE_AUDIO audio_error_oracle,
    Action.decoder AVMEDIA_TYPE_AUDIO audio_error_oracle,
    Action.decoder AVMEDIA_TYPE_AUDIO audio_error_oracle,
    Action.reader audio_packet_oracle, Action.reader audio_packet_oracle,
    Action.reader audio_packet_oracle, Action.reader audio_packet_oracle]

/-- A packet owns the payload `id`: its destructor is set and `data` is that payload. -/
def Owns (id : Nat) (pkt : AVPacket) : Prop := pkt.destruct = true ∧ pkt.data = some id

/-- The payloads the decoder of `t` has at hand: that of the slot it has taken with
`queue_pop_start_impl`, and those of the slots of its packet queue. -/
def Releasable (t : MediaType) (s : Sys) (d : Nat) : Prop :=
  (∃ pd, (s.decoders t).packet_data = some pd ∧ Owns d pd.packet) ∨
  (∃ q pd, s.player.packets_queue t = some q ∧ pd ∈ q.used ∧ Owns d pd.packet)

/-- What a step of the decoder of `t` does with packets: it takes no new payload, it adds no
slot to its queue, the slot it holds is one it held or one of its queue, and the payloads it
releases are ones it had at hand. -/
structure DecoderFrees (t : MediaType) (s s' : Sys) : Prop where
  payload : s'.next_payload = s.next_payload
  own_queue : ∀ q', s'.player.packets_queue t = some q' →
    ∃ q, s.player.packets_queue t = some q ∧ ∀ pd ∈ q'.used, pd ∈ q.used
  inflight : ∀ pd, (s'.decoders t).packet_data = some pd →
    (s.decoders t).packet_data = some pd ∨
      ∃ q, s.player.packets_queue t = some q ∧ pd ∈ q.used
  log : ∃ evs : List Ev, s'.log = s.log ++ (evs.map fun e => (Thread.decoder t, e)) ∧
    ∀ d, Ev.av_free_packet d ∈ evs → Releasable t s d

/-- The program points of the reader at which its local packet is one it has read and not
yet committed or dropped: `parse_frame`, the `queue_push_start_impl` after it, `seek_loop`. -/
def RPc.carries : RPc → Bool
  | RPc.parse_frame => true
  | RPc.push _ => true
  | RPc.seek_loop => true
  | _ => false

/-- What a step of the reader does with packets: payloads are numbered upwards; a packet it
carries is the one it carried, or does not own its data, or has the payload just read; a
slot of a packet queue was there, or its packet does not own its data, or has the payload
just copied, or is the packet the reader carried. -/
structure ReaderCarries (s s' : Sys) : Prop where
  payload : s.next_payload ≤ s'.next_payload
  packet : s'.reader.pc.carries = true →
    (s.reader.pc.carries = true ∧ s'.reader.packet = s.reader.packet) ∨
      s'.reader.packet.destruct = false ∨ s'.reader.packet.data = some s.next_payload
  queues : ∀ t q', s'.player.packets_queue t = some q' →
    ∃ q, s.player.packets_queue t = some q ∧ ∀ pd ∈ q'.used, pd ∈ q.used ∨
      pd.packet.destruct = false ∨ pd.packet.data = some s.next_payload ∨
      (s.reader.pc.carries = true ∧ pd.packet = s.reader.packet)

/-- The slot `slot` of the packet queue of `t0` is stranded with the payload `id`: the decoder
of `t0` has returned and has not released the payload, the slot is in the queue, and nothing
else owns the payload: not the packet the reader carries, not a slot of another queue, not
a slot another decoder holds; no decoder has released it. -/
structure Stranded (t0 : MediaType) (id : Nat) (slot : PacketData) (s : Sys) : Prop where
  ended : (s.decoders t0).pc = DPc.done
  queued : ∃ q, s.player.packets_queue t0 = some q ∧ slot ∈ q.used
  numbered : id < s.next_payload
  carried : s.reader.pc.carries = true → ¬Owns id s.reader.packet
  others : ∀ t, t ≠ t0 → ∀ q pd, s.player.packets_queue t = some q → pd ∈ q.used →
    ¬Owns id pd.packet
  inflight : ∀ t, t ≠ t0 → ∀ pd, (s.decoders t).packet_data = some pd → ¬Owns id pd.packet
  unreleased : ∀ t, (Thread.decoder t, Ev.av_free_packet id) ∉ s.log

/-! ## The video clock, the interrupt callback, the check of the renderer, the pacing

The parts of `player.c` that the statements on clocks and on `jni_player_render_frame` are
about. -/

/-- The C function `get_video_clock`; `now` is the reading of `av_gettime`. -/
def get_video_clock (p : Player) (now : Int) : ℚ :=
  if p.pause then p.video_current_pts
  else p.video_current_pts_drift + (now : ℚ) / 1000000

/-- The C function `update_video_pts`; `now` is the reading of `av_gettime`. -/
def update_video_pts (p : Player) (pts : ℚ) (now : Int) : Player :=
  let time : ℚ := (now : ℚ) / 1000000
  { p with video_current_pts := pts, video_current_pts_drift := pts - time }

/-- The C function `decoder_interrupt_cb`; `now` is the reading of `av_gettime`.  The value is
that of the C expression `a || b`, which is 1 or 0. -/
def decoder_interrupt_cb (p : Player) (now : Int) : Int :=
  if p.stop || (decide (p.open_time ≠ 0) && decide (now - p.open_time > 7 * AV_TIME_BASE))
  then 1 else 0

/-- The value `RENDER_CHECK_MSG_INTERRUPT` of `enum RenderCheckMsg`. -/
def RENDER_CHECK_MSG_INTERRUPT : Nat := 0
/-- The value `RENDER_CHECK_MSG_FLUSH` of `enum RenderCheckMsg`. -/
def RENDER_CHECK_MSG_FLUSH : Nat := 1

/-- The C function `player_render_frame_check`. -/
def player_render_frame_check (p : Player) : QueueCheckFuncRet :=
  if p.interrupt_renderer then QueueCheckFuncRet.skip RENDER_CHECK_MSG_INTERRUPT
  else if p.flush_video_play then QueueCheckFuncRet.skip RENDER_CHECK_MSG_FLUSH
  else if p.pause then QueueCheckFuncRet.wait
  else if p.stop then QueueCheckFuncRet.wait
  else QueueCheckFuncRet.test

/-- The content of the `int` behind the out pointer of a check function after the call,
`old` being its content before: a check function writes it only where it returns a skip. -/
def QueueCheckFuncRet.cell (r : QueueCheckFuncRet) (old : Nat) : Nat :=
  match r with
  | QueueCheckFuncRet.skip msg => msg
  | _ => old

/-- The error `AVERROR(EINVAL)` of libavutil. -/
def AVERROR_EINVAL : Int := -22

/-- The library function `av_samples_get_buffer_size(NULL, nb_channels, nb_samples,
sample_fmt, 1)` of libavutil: with the alignment 1 it is the size in bytes of `nb_samples`
samples of every channel, for packed and for planar formats alike, and `AVERROR(EINVAL)` for a
format without a sample size, for a count that is not positive and for a size beyond
`INT_MAX`. -/
def av_samples_get_buffer_size (nb_channels nb_samples sample_fmt : Int) : Int :=
  let sample_size := av_get_bytes_per_sample sample_fmt
  if sample_size = 0 ∨ nb_samples ≤ 0 ∨ nb_channels ≤ 0 then AVERROR_EINVAL
  else if nb_channels * nb_samples > Int.tdiv (2147483647 - nb_channels) sample_size then
    AVERROR_EINVAL
  else nb_samples * sample_size * nb_channels

/-- The `original_data_size` that `player_decode_audio` computes for a decoded frame of
`nb_samples` samples per channel and hands to `player_write_audio`. -/
def original_data_size (p : Player) (nb_samples : Int) : Int :=
  let ctx := (p.input_codec_ctxs AVMEDIA_TYPE_AUDIO).getD null_ctx
  av_samples_get_buffer_size ctx.channels nb_samples ctx.sample_fmt

/-- The player after the calls `player_update_time(t)` for the times of `ts`, in order. -/
def player_update_times (p : Player) (ts : List ℚ) : Player :=
  ts.foldl (fun q t => (player_update_time q t).1) p

/-- A player whose container has no stream and the duration `d`. -/
def duration_player (d : Int) : Player :=
  { jni_player_init with format_ctx := some ⟨[], d⟩ }

/-- The streams a player has opened, in the order of their media types. -/
def opened_streams (p : Player) : List AVStream := mediaTypes.filterMap p.input_streams

/-- The playing sample player after a `jni_player_resume` at the time 1000: it is running. -/
def running_player : Player := (jni_player_resume (fun _ => 1000) playing_player).1

/-- The player at the moment `player_open_input` calls `avformat_open_input`, which may call
`decoder_interrupt_cb`: `open_time` holds the first reading of `av_gettime`. -/
def player_open_input_start (env : OpenEnv) (p : Player) : Player :=
  { p with open_time := env.gettime 1 }

/-- The playing sample player after `player_stop`. -/
def stopped_player : Player := (player_stop sample_join playing_player).1

/-- The sample host, except that `avformat_open_input` fails. -/
def open_fails_env : OpenEnv := { sample_env with avformat_open_input := none }

/-- The player that a failed open on a fresh player leaves. -/
def failed_open_player : Player :=
  (player_set_data_source open_fails_env jni_player_init (-1) (-1) (-1)).2.1

/-- A reader oracle for which `av_read_frame` yields a packet of the video stream of the
sample source and `av_seek_frame` fails. -/
def video_packet_oracle : ReaderOracle :=
  { read := some 0, read_failure_blanks := false, seek_ok := false, dup_ok := true, now := 0 }

/-- A run on the playing sample player, which is paused and has read nothing yet: the host
asks for a seek to 5, the reader enters `seek_loop` from its pause loop, `av_seek_frame`
fails, and the reader goes on from `parse_frame`. -/
def failed_seek_paused_run : List Action :=
  [Action.host (HostAction.seek 5), Action.reader seek_fails_oracle,
    Action.reader seek_fails_oracle, Action.reader seek_fails_oracle,
    Action.reader seek_fails_oracle]

/-- A run on the playing sample player: after a resume the reader reads and commits one video
packet, the video decoder takes it and releases it; then the host pauses and asks for a seek
to 5, the reader enters `seek_loop` from its pause loop, `av_seek_frame` fails, and the reader
goes on from `parse_frame`. -/
def failed_seek_stale_run : List Action :=
  [Action.host (HostAction.resume fun _ => 0),
    Action.reader video_packet_oracle, Action.reader video_packet_oracle,
    Action.reader video_packet_oracle, Action.reader video_packet_oracle,
    Action.decoder AVMEDIA_TYPE_VIDEO idle_decoder_oracle,
    Action.decoder AVMEDIA_TYPE_VIDEO idle_decoder_oracle,
    Action.decoder AVMEDIA_TYPE_VIDEO idle_decoder_oracle,
    Action.host (HostAction.pause fun _ => 0), Action.host (HostAction.seek 5),
    Action.reader video_packet_oracle, Action.reader video_packet_oracle,
    Action.reader video_packet_oracle, Action.reader video_packet_oracle]

/-- The player that the open of the sample source leaves when the caller asks for the video
stream number 1, which is the audio stream of the container: no video stream is opened. -/
def shadowed_player : Player :=
  (player_set_data_source sample_env jni_player_init 1 (-1) (-1)).2.1

/-- A run on `shadowed_player`: after a resume the reader reads a packet of the stream 1 and
takes it through `parse_frame`. -/
def shadowed_run : List Action :=
  [Action.host (HostAction.resume fun _ => 0),
    Action.reader audio_packet_oracle, Action.reader audio_packet_oracle,
    Action.reader audio_packet_oracle]

/-- A container with one stream, an audio stream. -/
def audio_only_container : AVFormatContext :=
  ⟨[⟨441000, 1, 44100, sample_audio_ctx⟩], 10000000⟩

/-- The sample host with the container `audio_only_container`. -/
def audio_only_env : OpenEnv :=
  { sample_env with
    avformat_open_input := some audio_only_container
    avcodec_open2 := fun _ => some (2, 44100, 1024) }

/-- The player that the open of `audio_only_container` on a fresh player leaves. -/
def audio_only_player : Player :=
  (player_set_data_source audio_only_env jni_player_init (-1) (-1) (-1)).2.1

/-- A run on `audio_only_player`: after a resume `av_read_frame` fails, which is the end of
the container, and the reader takes its end-of-container step. -/
def audio_only_end_run : List Action :=
  [Action.host (HostAction.resume fun _ => 0),
    Action.reader seek_fails_oracle, Action.reader seek_fails_oracle,
    Action.reader seek_fails_oracle]

/-- A run on `audio_only_player`, which is paused: the host asks for a seek to 5 and the
reader takes its seek step. -/
def audio_only_seek_run : List Action :=
  [Action.host (HostAction.seek 5), Action.reader seek_succeeds_oracle,
    Action.reader seek_succeeds_oracle]

/-- The constant `AVCODEC_MAX_AUDIO_FRAME_SIZE` of libavcodec. -/
def AVCODEC_MAX_AUDIO_FRAME_SIZE : Int := 192000

/-- The size of the scratch buffer, `sizeof(player->audio_buf2)`. -/
def audio_buf2_size : Int := AVCODEC_MAX_AUDIO_FRAME_SIZE * 4

/-- The variable `sample_per_buffer_divider` of the resampling branch of
`player_decode_audio`. -/
def sample_per_buffer_divider (p : Player) : Int :=
  p.audio_track_channel_count * av_get_bytes_per_sample p.audio_track_format

/-- The output count that `player_decode_audio` asks `swr_convert` for,
`sizeof(player->audio_buf2) / sample_per_buffer_divider`: the division is one of `size_t`,
to which the `int` divisor is converted (32 bits on the targets of the library). -/
def swr_out_count (p : Player) : Int :=
  audio_buf2_size / (sample_per_buffer_divider p % 2 ^ 32)

/-- The `data_size` that the resampling branch of `player_decode_audio` hands to
`player_write_audio` when `swr_convert` returned `len2`. -/
def resampled_data_size (p : Player) (len2 : Int) : Int :=
  len2 * sample_per_buffer_divider p

/-- The sample host, except that the audio sink reports 0 channels. -/
def zero_channel_env : OpenEnv := { sample_env with getChannelCount := 0 }

/-- The player that the open of the sample source leaves on `zero_channel_env`. -/
def zero_channel_player : Player :=
  (player_set_data_source zero_channel_env jni_player_init (-1) (-1) (-1)).2.1

/-- What a step of the decoder of `t` leaves alone among the stop requests: those of the
other kinds. -/
def StopsKept (t : MediaType) (s s' : Sys) : Prop :=
  ∀ t', t' ≠ t → s'.player.stop_streams t' = s.player.stop_streams t'

/-- The run `decode_error_run`, in which the audio decoder leaves on a decode error, followed
by a stop: the host calls `player_signal_stop`, and the reader goes from the head of its loop
through `av_read_frame` and the label `exit_loop` to the loop that waits for the stop
requests to be cleared. -/
def stop_after_decode_error_run : List Action :=
  decode_error_run ++
    [Action.host HostAction.signal_stop, Action.reader audio_packet_oracle,
      Action.reader audio_packet_oracle, Action.reader audio_packet_oracle]

/-- The reader waits at its stop barrier for the decoder of `t`, which has returned: the
stream is active, its stop request is set, and its decoder thread has ended. -/
structure BarrierStuck (t : MediaType) (s : Sys) : Prop where
  waiting : s.reader.pc = RPc.exit_wait
  requested : s.player.stop_streams t = true
  active : (s.player.input_codec_ctxs t).isSome = true
  ended : (s.decoders t).pc = DPc.done

/-! ## Closed forms of the teardown -/

theorem mem_mediaTypes : ∀ i : MediaType, i ∈ mediaTypes := by decide

theorem player_free_decoding_threads_step_state (j : JoinEnv) (acc : Int × Player × List Ev)
    (a : MediaType) :
    (player_free_decoding_threads_step j acc a).2.1 =
      { acc.2.1 with
        decode_threads_created := Function.update acc.2.1.decode_threads_created a false } := by
  unfold player_free_decoding_threads_step
  by_cases h : acc.2.1.decode_threads_created a = true
  · simp [h]
  · simp only [h, if_false]
    apply Player.ext <;> simp
    simpa using h

theorem player_free_decoding_threads_fold (j : JoinEnv) (l : List MediaType)
    (acc : Int × Player × List Ev) :
    (l.foldl (player_free_decoding_threads_step j) acc).2.1 =
      { acc.2.1 with
        decode_threads_created :=
          fun i => if i ∈ l then false else acc.2.1.decode_threads_created i } := by
  induction l generalizing acc with
  | nil => simp
  | cons a l ih =>
    rw [List.foldl_cons, ih, player_free_decoding_threads_step_state]
    apply Player.ext <;> simp
    funext i
    by_cases hi : i = a
    · subst hi; simp
    · simp [hi, Function.update_noteq hi]

theorem player_free_decoding_threads_state (j : JoinEnv) (p : Player) :
    (player_free_decoding_threads j p).2.1 =
      { p with read_stream_thread_created := false, decode_threads_created := fun _ => false } := by
  unfold player_free_decoding_threads
  simp only [player_free_decoding_threads_fold, mem_mediaTypes, if_true]
  by_cases h : p.read_stream_thread_created = true
  · simp [h]
  · simp only [h, if_false]
    apply Player.ext <;> simp
    simpa using h

theorem player_free_audio_track_state (p : Player) :
    (player_free_audio_track p).1 =
      { p with
        swr_context := false
        audio_track := false
        input_codec_ctxs :=
          if 0 ≤ p.audio_index then Function.update p.input_codec_ctxs AVMEDIA_TYPE_AUDIO none
          else p.input_codec_ctxs } := by
  unfold player_free_audio_track
  rcases p with ⟨fc, ii, ot, vi, ai, is, ic, si, fr, of, tr, atf, atc, sws, swr, vd, lut, pl, pq,
    rgb, ir, pa, st, sp, fs, fvp, ss, re, rc, dc, ac, awt, apt, art, vcp, vcpd, ec, ecd, ect, ecs⟩
  cases swr <;> cases tr <;> by_cases h : 0 ≤ ai <;> simp [h] <;>
    cases hc : ic AVMEDIA_TYPE_AUDIO <;> simp [hc]

theorem player_free_sws_context_state (p : Player) :
    (player_free_sws_context p).1 = { p with sws_context := false } := by
  unfold player_free_sws_context
  by_cases h : p.sws_context = true
  · simp [h]
  · simp only [h, if_false]
    apply Player.ext <;> simp
    simpa using h

theorem player_free_rgb_frames_state (p : Player) :
    (player_free_rgb_frames p).1 = { p with rgb_video_queue := none } := by
  unfold player_free_rgb_frames
  cases h : p.rgb_video_queue with
  | none => apply Player.ext <;> simp [h]
  | some q => simp

theorem player_free_queues_step_state (acc : Player × List Ev) (a : MediaType) :
    (player_free_queues_step acc a).1 =
      { acc.1 with packets_queue := Function.update acc.1.packets_queue a none } := by
  unfold player_free_queues_step
  cases h : acc.1.packets_queue a with
  | none => apply Player.ext <;> simp [h]
  | some q => simp

theorem player_free_queues_fold (l : List MediaType) (acc : Player × List Ev) :
    (l.foldl player_free_queues_step acc).1 =
      { acc.1 with packets_queue := fun i => if i ∈ l then none else acc.1.packets_queue i } := by
  induction l generalizing acc with
  | nil => simp
  | cons a l ih =>
    rw [List.foldl_cons, ih, player_free_queues_step_state]
    apply Player.ext <;> simp
    funext i
    by_cases hi : i = a
    · subst hi; simp
    · simp [hi, Function.update_noteq hi]

theorem player_free_queues_state (p : Player) :
    (player_free_queues p).1 = { p with packets_queue := fun _ => none } := by
  unfold player_free_queues
  rw [player_free_queues_fold]
  simp [mem_mediaTypes]

theorem player_free_frames_step_state (acc : Player × List Ev) (a : MediaType) :
    (player_free_frames_step acc a).1 =
      { acc.1 with input_frames := Function.update acc.1.input_frames a false } := by
  unfold player_free_frames_step
  by_cases h : acc.1.input_frames a = true
  · simp [h]
  · simp only [h, if_false]
    apply Player.ext <;> simp
    simpa using h

theorem player_free_frames_fold (l : List MediaType) (acc : Player × List Ev) :
    (l.foldl player_free_frames_step acc).1 =
      { acc.1 with input_frames := fun i => if i ∈ l then false else acc.1.input_frames i } := by
  induction l generalizing acc with
  | nil => simp
  | cons a l ih =>
    rw [List.foldl_cons, ih, player_free_frames_step_state]
    apply Player.ext <;> simp
    funext i
    by_cases hi : i = a
    · subst hi; simp
    · simp [hi, Function.update_noteq hi]

theorem player_free_frames_state (p : Player) :
    (player_free_frames p).1 = { p with input_frames := fun _ => false } := by
  unfold player_free_frames
  rw [player_free_frames_fold]
  simp [mem_mediaTypes]

theorem player_free_streams_step_state (acc : Player × List Ev) (a : MediaType) :
    (player_free_streams_step acc a).1 =
      { acc.1 with
        input_codec_ctxs := Function.update acc.1.input_codec_ctxs a none
        input_streams := Function.update acc.1.input_streams a none
        input_frames := Function.update acc.1.input_frames a false
        stream_indexs := Function.update acc.1.stream_indexs a (-1) } := by
  unfold player_free_streams_step
  cases h : acc.1.input_codec_ctxs a with
  | none => apply Player.ext <;> simp [h]
  | some q => simp

theorem player_free_streams_fold (l : List MediaType) (acc : Player × List Ev) :
    (l.foldl player_free_streams_step acc).1 =
      { acc.1 with
        input_codec_ctxs := fun i => if i ∈ l then none else acc.1.input_codec_ctxs i
        input_streams := fun i => if i ∈ l then none else acc.1.input_streams i
        input_frames := fun i => if i ∈ l then false else acc.1.input_frames i
        stream_indexs := fun i => if i ∈ l then -1 else acc.1.stream_indexs i } := by
  induction l generalizing acc with
  | nil => simp
  | cons a l ih =>
    rw [List.foldl_cons, ih, player_free_streams_step_state]
    apply Player.ext <;> simp <;> funext i <;> by_cases hi : i = a
    all_goals first
      | (subst hi; simp)
      | simp [hi, Function.update_noteq hi]

theorem player_free_streams_state (p : Player) :
    (player_free_streams p).1 =
      { p with
        input_codec_ctxs := fun _ => none
        input_streams := fun _ => none
        input_frames := fun _ => false
        stream_indexs := fun _ => -1
        video_index := -1
        audio_index := -1 } := by
  unfold player_free_streams
  simp only [player_free_streams_fold]
  simp [mem_mediaTypes]

theorem player_free_input_state (p : Player) :
    (player_free_input p).1 =
      { p with
        format_ctx := if p.input_inited then none else p.format_ctx
        input_inited := false } := by
  unfold player_free_input
  by_cases h : p.input_inited = true
  · simp [h]
  · simp only [h, if_false]
    apply Player.ext <;> simp
    simpa using h

/-- The player a teardown leaves, field by field. -/
theorem player_teardown_state (j : JoinEnv) (p : Player) :
    (player_teardown j p).1 =
      { p with
        stop := true
        read_stream_thread_created := false
        decode_threads_created := fun _ => false
        swr_context := false
        audio_track := false
        sws_context := false
        rgb_video_queue := none
        packets_queue := fun _ => none
        input_codec_ctxs := fun _ => none
        input_streams := fun _ => none
        input_frames := fun _ => false
        stream_indexs := fun _ => -1
        video_index := -1
        audio_index := -1
        format_ctx := if p.input_inited then none else p.format_ctx
        input_inited := false } := by
  simp only [player_teardown, player_free_input_state, player_free_streams_state,
    player_free_frames_state, player_free_queues_state, player_free_rgb_frames_state,
    player_free_sws_context_state, player_free_audio_track_state,
    player_free_decoding_threads_state, player_signal_stop]

/-! ## The calls of a teardown that close codec contexts -/

/-- The number of entries of a context table that hold the context `x`. -/
theorem closes_update_audio (f : MediaType → Option AVCodecContext) (x : Nat) :
    (mediaTypes.filterMap fun i =>
        (Function.update f AVMEDIA_TYPE_AUDIO none i).map fun c => Ev.avcodec_close c.id).count
        (Ev.avcodec_close x) +
      (match f AVMEDIA_TYPE_AUDIO with
        | some c => [Ev.avcodec_close c.id]
        | none => []).count (Ev.avcodec_close x) =
    (mediaTypes.filterMap fun i => (f i).map fun c => Ev.avcodec_close c.id).count
      (Ev.avcodec_close x) := by
  have h0 : (0 : MediaType) ≠ AVMEDIA_TYPE_AUDIO := by decide
  have h2 : (2 : MediaType) ≠ AVMEDIA_TYPE_AUDIO := by decide
  have h3 : (3 : MediaType) ≠ AVMEDIA_TYPE_AUDIO := by decide
  have h4 : (4 : MediaType) ≠ AVMEDIA_TYPE_AUDIO := by decide
  have h1 : (1 : MediaType) = AVMEDIA_TYPE_AUDIO := by decide
  simp only [mediaTypes, List.filterMap_cons, List.filterMap_nil, Function.update_noteq h0,
    Function.update_noteq h2, Function.update_noteq h3, Function.update_noteq h4, h1,
    Function.update_same]
  cases f 0 <;> cases f AVMEDIA_TYPE_AUDIO <;> cases f 2 <;> cases f 3 <;> cases f 4 <;>
    simp [List.count_cons] <;> omega

theorem player_free_streams_fold_calls (l : List MediaType) (hl : l.Nodup)
    (acc : Player × List Ev) :
    (l.foldl player_free_streams_step acc).2 =
      acc.2 ++ l.filterMap fun i =>
        (acc.1.input_codec_ctxs i).map fun c => Ev.avcodec_close c.id := by
  induction l generalizing acc with
  | nil => simp
  | cons a l ih =>
    have ha : a ∉ l := (List.nodup_cons.mp hl).1
    rw [List.foldl_cons, ih (List.nodup_cons.mp hl).2, player_free_streams_step_state]
    have hrest : (l.filterMap fun i =>
          (Function.update acc.1.input_codec_ctxs a none i).map fun c => Ev.avcodec_close c.id) =
        l.filterMap fun i => (acc.1.input_codec_ctxs i).map fun c => Ev.avcodec_close c.id := by
      apply List.filterMap_congr
      intro i hi
      have : i ≠ a := fun h => ha (h ▸ hi)
      simp [Function.update_noteq this]
    simp only [hrest]
    unfold player_free_streams_step
    cases h : acc.1.input_codec_ctxs a <;> simp [h]

theorem player_free_streams_calls (p : Player) :
    (player_free_streams p).2 =
      mediaTypes.filterMap fun i => (p.input_codec_ctxs i).map fun c => Ev.avcodec_close c.id := by
  unfold player_free_streams
  simp [player_free_streams_fold_calls mediaTypes (by decide)]

theorem player_free_decoding_threads_calls (j : JoinEnv) (l : List MediaType)
    (acc : Int × Player × List Ev) (x : Nat) :
    (l.foldl (player_free_decoding_threads_step j) acc).2.2.count (Ev.avcodec_close x) =
      acc.2.2.count (Ev.avcodec_close x) := by
  induction l generalizing acc with
  | nil => simp
  | cons a l ih =>
    rw [List.foldl_cons, ih]
    simp only [player_free_decoding_threads_step]
    split_ifs <;> simp [List.count_append, List.count_cons]

theorem player_free_queues_calls (l : List MediaType) (acc : Player × List Ev) (x : Nat) :
    (l.foldl player_free_queues_step acc).2.count (Ev.avcodec_close x) =
      acc.2.count (Ev.avcodec_close x) := by
  induction l generalizing acc with
  | nil => simp
  | cons a l ih =>
    rw [List.foldl_cons, ih]
    unfold player_free_queues_step
    cases h : acc.1.packets_queue a <;> simp [List.count_append, List.count_cons]

theorem player_free_frames_calls (l : List MediaType) (acc : Player × List Ev) (x : Nat) :
    (l.foldl player_free_frames_step acc).2.count (Ev.avcodec_close x) =
      acc.2.count (Ev.avcodec_close x) := by
  induction l generalizing acc with
  | nil => simp
  | cons a l ih =>
    rw [List.foldl_cons, ih]
    simp only [player_free_frames_step]
    split_ifs <;> simp [List.count_append, List.count_cons]

theorem player_free_audio_track_calls (p : Player) (x : Nat) :
    (player_free_audio_track p).2.count (Ev.avcodec_close x) =
      if 0 ≤ p.audio_index then
        (match p.input_codec_ctxs AVMEDIA_TYPE_AUDIO with
          | some c => [Ev.avcodec_close c.id]
          | none => []).count (Ev.avcodec_close x)
      else 0 := by
  unfold player_free_audio_track
  rcases p with ⟨fc, ii, ot, vi, ai, is, ic, si, fr, of, tr, atf, atc, sws, swr, vd, lut, pl, pq,
    rgb, ir, pa, st, sp, fs, fvp, ss, re, rc, dc, ac, awt, apt, art, vcp, vcpd, ec, ecd, ect, ecs⟩
  cases swr <;> cases tr <;> by_cases h : 0 ≤ ai <;> simp [h] <;>
    cases hc : ic AVMEDIA_TYPE_AUDIO <;> simp [hc, List.count_cons]

/-- A teardown calls `avcodec_close` on a context as often as the context table holds it. -/
theorem player_teardown_closes (j : JoinEnv) (p : Player) (x : Nat) :
    (player_teardown j p).2.count (Ev.avcodec_close x) =
      (mediaTypes.filterMap fun i => (p.input_codec_ctxs i).map fun c => Ev.avcodec_close c.id).count
        (Ev.avcodec_close x) := by
  unfold player_teardown
  simp only [List.count_append, player_free_streams_calls, player_free_frames_state,
    player_free_queues_state, player_free_rgb_frames_state, player_free_sws_context_state,
    player_free_audio_track_state, player_free_decoding_threads_state,
    player_free_audio_track_calls]
  have e1 : (player_signal_stop p).2.count (Ev.avcodec_close x) = 0 := by
    simp [player_signal_stop, List.count_cons]
  have e2 : ∀ q, (player_free_decoding_threads j q).2.2.count (Ev.avcodec_close x) = 0 := by
    intro q
    simp only [player_free_decoding_threads]
    rw [player_free_decoding_threads_calls]
    split_ifs <;> simp [List.count_cons]
  have e3 : ∀ q, (player_free_sws_context q).2.count (Ev.avcodec_close x) = 0 := by
    intro q; unfold player_free_sws_context; split_ifs <;> simp [List.count_cons]
  have e4 : ∀ q, (player_free_rgb_frames q).2.count (Ev.avcodec_close x) = 0 := by
    intro q; unfold player_free_rgb_frames; cases q.rgb_video_queue <;> simp [List.count_cons]
  have e5 : ∀ q, (player_free_queues q).2.count (Ev.avcodec_close x) = 0 := by
    intro q; unfold player_free_queues; rw [player_free_queues_calls]; simp
  have e6 : ∀ q, (player_free_frames q).2.count (Ev.avcodec_close x) = 0 := by
    intro q; unfold player_free_frames; rw [player_free_frames_calls]; simp
  have e7 : ∀ q, (player_free_input q).2.count (Ev.avcodec_close x) = 0 := by
    intro q; unfold player_free_input; split_ifs <;> simp [List.count_cons]
  simp only [e1, e2, e3, e4, e5, e6, e7, zero_add, add_zero]
  simp only [player_signal_stop]
  by_cases h : 0 ≤ p.audio_index
  · simp only [h, if_true]
    rw [add_comm]
    exact closes_update_audio p.input_codec_ctxs x
  · simp [h]

/-! ## Pause, resume, stop: second calls -/

theorem player_stop_playing (j : JoinEnv) (p : Player) : (player_stop j p).1.playing = false := by
  unfold player_stop
  by_cases h : p.playing = true
  · simp [h, player_teardown_state]
  · simp [h]

theorem player_stop_of_not_playing (j : JoinEnv) (q : Player) (h : q.playing = false) :
    player_stop j q = (q, []) := by
  unfold player_stop
  simp [h]

theorem jni_player_pause_post (c : Nat → Int) (p : Player) :
    (jni_player_pause c p).1.playing = p.playing ∧
    (p.playing = true → (jni_player_pause c p).1.pause = true) := by
  unfold jni_player_pause
  by_cases h1 : p.playing = true <;> by_cases h2 : p.pause = true <;>
    simp [h1, h2, update_external_clock_pts]

theorem jni_player_pause_noop (c : Nat → Int) (q : Player)
    (h : q.playing = true → q.pause = true) :
    (jni_player_pause c q).1 = q ∧ ∀ m, Ev.audio_track m ∉ (jni_player_pause c q).2 := by
  unfold jni_player_pause
  by_cases h1 : q.playing = true
  · simp [h1, h h1]
  · simp [h1]

theorem jni_player_resume_post (c : Nat → Int) (p : Player) :
    (jni_player_resume c p).1.playing = p.playing ∧
    (p.playing = true → (jni_player_resume c p).1.pause = false) := by
  unfold jni_player_resume
  by_cases h1 : p.playing = true <;> by_cases h2 : p.pause = true <;>
    simp only [h1, h2, update_external_clock_pts] <;> simp <;> (try simp_all)
  split_ifs <;> simp [h1]

theorem jni_player_resume_noop (c : Nat → Int) (q : Player)
    (h : q.playing = true → q.pause = false) :
    (jni_player_resume c q).1 = q ∧ ∀ m, Ev.audio_track m ∉ (jni_player_resume c q).2 := by
  unfold jni_player_resume
  by_cases h1 : q.playing = true
  · simp [h1, h h1]
  · simp [h1]

/-! ## Closed forms of the steps of an open -/

theorem player_alloc_frames_loop_state (env : OpenEnv) (l : List MediaType) (q : Player) :
    ∃ fr, (player_alloc_frames_loop env l q).2 = { q with input_frames := fr } := by
  induction l generalizing q with
  | nil => exact ⟨q.input_frames, rfl⟩
  | cons a l ih =>
    simp only [player_alloc_frames_loop]
    split_ifs with h1 h2
    · exact ⟨_, rfl⟩
    · obtain ⟨fr, h⟩ := ih
        { q with input_frames := Function.update q.input_frames a (env.avcodec_alloc_frame_ok a) }
      exact ⟨fr, by rw [h]⟩
    · exact ih q

theorem player_alloc_frames_state (env : OpenEnv) (q : Player) :
    ∃ fr, (player_alloc_frames env q).2 = { q with input_frames := fr } :=
  player_alloc_frames_loop_state env mediaTypes q

theorem player_alloc_queues_loop_state (env : OpenEnv) (l : List MediaType) (q : Player) :
    ∃ pq, (player_alloc_queues_loop env l q).2 = { q with packets_queue := pq } := by
  induction l generalizing q with
  | nil => exact ⟨q.packets_queue, rfl⟩
  | cons a l ih =>
    simp only [player_alloc_queues_loop]
    generalize (if env.packets_queue_ok a then some (⟨100, []⟩ : Queue PacketData) else none) = v
    split_ifs with h1 h2
    · exact ⟨_, rfl⟩
    · obtain ⟨pq, h⟩ := ih { q with packets_queue := Function.update q.packets_queue a v }
      exact ⟨pq, by rw [h]⟩
    · exact ih q

theorem player_alloc_queues_state (env : OpenEnv) (q : Player) :
    ∃ pq, (player_alloc_queues env q).2 = { q with packets_queue := pq } :=
  player_alloc_queues_loop_state env mediaTypes q

theorem player_get_video_duration_state (q : Player) :
    ∃ vd, player_get_video_duration q = { q with last_updated_time := -1, video_duration := vd } := by
  simp only [player_get_video_duration]
  split
  · exact ⟨_, rfl⟩
  · split_ifs
    · exact ⟨_, rfl⟩
    · split
      · exact ⟨_, rfl⟩
      · exact ⟨_, rfl⟩

theorem player_update_time_state (q : Player) (time : ℚ) :
    ∃ lut vd, (player_update_time q time).1 =
      { q with last_updated_time := lut, video_duration := vd } := by
  simp only [player_update_time]
  split_ifs
  · exact ⟨q.last_updated_time, q.video_duration, rfl⟩
  · exact ⟨_, _, rfl⟩
  · exact ⟨_, q.video_duration, rfl⟩

theorem player_assign_fold (q : Player) (value : Bool) (l : List MediaType)
    (array : MediaType → Bool) (t : MediaType) :
    l.foldl (fun a i => if (q.input_codec_ctxs i).isSome then Function.update a i value else a)
        array t =
      if t ∈ l ∧ (q.input_codec_ctxs t).isSome then value else array t := by
  induction l generalizing array with
  | nil => simp
  | cons a l ih =>
    rw [List.foldl_cons, ih]
    by_cases hta : t = a
    · subst hta
      by_cases hc : (q.input_codec_ctxs t).isSome = true <;> simp [hc]
    · by_cases hc : (q.input_codec_ctxs a).isSome = true <;>
        simp [hc, hta, Function.update_noteq hta]

theorem player_assign_value (q : Player) (array : MediaType → Bool) (value : Bool)
    (t : MediaType) :
    player_assign_to_no_boolean_array q array value t =
      if (q.input_codec_ctxs t).isSome then value else array t := by
  unfold player_assign_to_no_boolean_array
  rw [player_assign_fold]
  simp [mem_mediaTypes]

theorem player_play_prepare_state (q : Player) :
    (player_play_prepare q).1 =
      { q with
        stop := false
        seek_position := DO_NOT_SEEK_int
        flush_streams := player_assign_to_no_boolean_array q q.flush_streams false
        stop_streams := player_assign_to_no_boolean_array q q.stop_streams false } := rfl

theorem player_create_decoding_threads_loop_state (env : OpenEnv) (l : List MediaType)
    (q : Player) (evs : List Ev) :
    ((player_create_decoding_threads_loop env l q evs).1 = 0 ∨
      (player_create_decoding_threads_loop env l q evs).1 = -ERROR_COULD_NOT_CREATE_PTHREAD) ∧
    ∃ dc, (player_create_decoding_threads_loop env l q evs).2.1 =
        { q with decode_threads_created := dc } ∧
      ((player_create_decoding_threads_loop env l q evs).1 = 0 →
        ∀ t, dc t = ((decide (t ∈ l) && (q.input_codec_ctxs t).isSome) ||
          q.decode_threads_created t)) := by
  induction l generalizing q evs with
  | nil => exact ⟨Or.inl rfl, q.decode_threads_created, rfl, fun _ t => by simp⟩
  | cons a l ih =>
    simp only [player_create_decoding_threads_loop]
    split_ifs with h1 h2
    · refine ⟨Or.inr rfl, q.decode_threads_created, rfl, fun h => ?_⟩
      simp [ERROR_COULD_NOT_CREATE_PTHREAD] at h
    · obtain ⟨hret, dc, hst, hdc⟩ := ih
        { q with decode_threads_created := Function.update q.decode_threads_created a true }
        (evs ++ [Ev.pthread_create_decoder a])
      refine ⟨hret, dc, by rw [hst], fun h t => ?_⟩
      rw [hdc h t]
      by_cases hta : t = a
      · subst hta; simp [h1]
      · simp [hta, Function.update_noteq hta]
    · obtain ⟨hret, dc, hst, hdc⟩ := ih q evs
      refine ⟨hret, dc, hst, fun h t => ?_⟩
      rw [hdc h t]
      by_cases hta : t = a
      · subst hta
        have : (q.input_codec_ctxs t).isSome = false := by simpa using h1
        simp [this]
      · simp [hta]

theorem player_create_decoding_threads_state (env : OpenEnv) (q : Player) :
    ((player_create_decoding_threads env q).1 < 0 ∧
      ∃ dc, (player_create_decoding_threads env q).2.1 = { q with decode_threads_created := dc }) ∨
    (0 ≤ (player_create_decoding_threads env q).1 ∧
      (player_create_decoding_threads env q).2.1 =
        { q with
          decode_threads_created :=
            fun t => (q.input_codec_ctxs t).isSome || q.decode_threads_created t
          read_stream_thread_created := true }) := by
  obtain ⟨hret, dc, hst, hdc⟩ := player_create_decoding_threads_loop_state env mediaTypes q []
  simp only [player_create_decoding_threads]
  by_cases h0 : env.pthread_attr_init ≠ 0
  · left
    rw [if_pos h0]
    refine ⟨?_, q.decode_threads_created, rfl⟩
    split_ifs <;> simp_all [ERROR_COULD_NOT_INIT_PTHREAD_ATTR]
  · rw [if_neg h0]
    rcases hret with hz | hneg
    · simp only [hz, ne_eq, not_true_eq_false, if_false]
      by_cases hr : env.pthread_create_reader ≠ 0
      · left
        rw [if_pos hr]
        refine ⟨?_, dc, hst⟩
        split_ifs <;> simp_all [ERROR_COULD_NOT_CREATE_PTHREAD]
      · right
        rw [if_neg hr]
        refine ⟨?_, ?_⟩
        · split_ifs <;> simp [ERROR_COULD_NOT_DESTROY_PTHREAD_ATTR]
        · rw [hst]
          have : dc = fun t => (q.input_codec_ctxs t).isSome || q.decode_threads_created t := by
            funext t
            rw [hdc hz t]
            simp [mem_mediaTypes]
          rw [this]
    · left
      have hne : (player_create_decoding_threads_loop env mediaTypes q []).1 ≠ 0 := by
        rw [hneg]; simp [ERROR_COULD_NOT_CREATE_PTHREAD]
      rw [if_pos hne]
      refine ⟨?_, dc, hst⟩
      rw [hneg]
      split_ifs <;> simp_all [ERROR_COULD_NOT_CREATE_PTHREAD]

/-! ## The control fields along an open -/

theorem ctl_player_alloc_frames (env : OpenEnv) (q : Player) :
    ctl (player_alloc_frames env q).2 = ctl q := by
  obtain ⟨fr, h⟩ := player_alloc_frames_state env q
  rw [h]; rfl

theorem ctl_player_alloc_queues (env : OpenEnv) (q : Player) :
    ctl (player_alloc_queues env q).2 = ctl q := by
  obtain ⟨pq, h⟩ := player_alloc_queues_state env q
  rw [h]; rfl

theorem ctl_player_get_video_duration (q : Player) :
    ctl (player_get_video_duration q) = ctl q := by
  obtain ⟨vd, h⟩ := player_get_video_duration_state q
  rw [h]; rfl

theorem ctl_player_update_time (q : Player) (time : ℚ) :
    ctl (player_update_time q time).1 = ctl q := by
  obtain ⟨lut, vd, h⟩ := player_update_time_state q time
  rw [h]; rfl

theorem ctl_player_play_prepare (q : Player) :
    ctl (player_play_prepare q).1 =
      { ctl q with
        stop := false
        seek_position := DO_NOT_SEEK_int
        flush_streams := fun t => q.flush_streams t && !(q.input_codec_ctxs t).isSome
        stop_streams := fun t => q.stop_streams t && !(q.input_codec_ctxs t).isSome } := by
  rw [player_play_prepare_state]
  simp only [ctl]
  congr 1 <;> funext t <;> rw [player_assign_value] <;>
    cases (q.input_codec_ctxs t).isSome <;> simp

theorem ctl_player_create_decoding_threads (env : OpenEnv) (q : Player) :
    ((player_create_decoding_threads env q).1 < 0 ∧
      ∃ dc, ctl (player_create_decoding_threads env q).2.1 =
        { ctl q with decode_threads_created := dc }) ∨
    (0 ≤ (player_create_decoding_threads env q).1 ∧
      ctl (player_create_decoding_threads env q).2.1 =
        { ctl q with
          decode_threads_created :=
            fun t => (q.input_codec_ctxs t).isSome || q.decode_threads_created t
          read_stream_thread_created := true }) := by
  rcases player_create_decoding_threads_state env q with ⟨h, dc, hdc⟩ | ⟨h, hdc⟩
  · exact Or.inl ⟨h, dc, by rw [hdc]; rfl⟩
  · exact Or.inr ⟨h, by rw [hdc]; rfl⟩

/-- The control fields of the player that a teardown leaves. -/
theorem ctl_player_teardown (j : JoinEnv) (q : Player) :
    ctl (player_teardown j q).1 =
      { ctl q with
        stop := true
        input_inited := false
        input_codec_ctxs := fun _ => none
        read_stream_thread_created := false
        decode_threads_created := fun _ => false } := by
  rw [player_teardown_state]; rfl

theorem ctl_flags {a b : Player} (h : ctl a = ctl b) :
    a.playing = b.playing ∧ a.pause = b.pause ∧
    (∀ t, a.flush_streams t = true → b.flush_streams t = true) ∧
    (∀ t, a.stop_streams t = true → b.stop_streams t = true) := by
  have e1 : a.playing = b.playing := congrArg Ctl.playing h
  have e2 : a.pause = b.pause := congrArg Ctl.pause h
  have e3 : a.flush_streams = b.flush_streams := congrArg Ctl.flush_streams h
  have e4 : a.stop_streams = b.stop_streams := congrArg Ctl.stop_streams h
  exact ⟨e1, e2, fun t ht => e3 ▸ ht, fun t ht => e4 ▸ ht⟩

/-- The last part of an open either fails, and then ends with the teardown of a player whose
control fields differ from those at the start at most in `stop`, `seek_position`, cleared flush
and stop requests and the thread marks; or it succeeds, and then changes the listed fields. -/
theorem player_set_data_source_finish_cases (env : OpenEnv) (q : Player) (evs : List Ev) :
    ((player_set_data_source_finish env q evs).1 < 0 ∧
      ∃ q1, q1.playing = q.playing ∧ q1.pause = q.pause ∧
        (∀ t, q1.flush_streams t = true → q.flush_streams t = true) ∧
        (∀ t, q1.stop_streams t = true → q.stop_streams t = true) ∧
        (player_set_data_source_finish env q evs).2.1 = (player_teardown env.join q1).1) ∨
    (0 ≤ (player_set_data_source_finish env q evs).1 ∧
      ctl (player_set_data_source_finish env q evs).2.1 =
        { ctl q with
          stop := false
          seek_position := DO_NOT_SEEK_int
          flush_streams := fun t => q.flush_streams t && !(q.input_codec_ctxs t).isSome
          stop_streams := fun t => q.stop_streams t && !(q.input_codec_ctxs t).isSome
          decode_threads_created :=
            fun t => (q.input_codec_ctxs t).isSome || q.decode_threads_created t
          read_stream_thread_created := true
          playing := true }) := by
  simp only [player_set_data_source_finish]
  have c1 := ctl_player_alloc_frames env q
  generalize player_alloc_frames env q = r1 at c1 ⊢
  by_cases h1 : r1.1 < 0
  · left
    rw [if_pos h1]
    obtain ⟨f1, f2, f3, f4⟩ := ctl_flags c1
    exact ⟨h1, r1.2, f1, f2, f3, f4, rfl⟩
  rw [if_neg h1]
  have c2 := ctl_player_alloc_queues env r1.2
  generalize player_alloc_queues env r1.2 = r2 at c2 ⊢
  rw [c1] at c2
  by_cases h2 : r2.1 < 0
  · left
    rw [if_pos h2]
    obtain ⟨f1, f2, f3, f4⟩ := ctl_flags c2
    exact ⟨h2, r2.2, f1, f2, f3, f4, rfl⟩
  rw [if_neg h2]
  have c3 := ctl_player_get_video_duration r2.2
  generalize player_get_video_duration r2.2 = q3 at c3 ⊢
  rw [c2] at c3
  have c4 := ctl_player_update_time q3 0
  generalize player_update_time q3 0 = r4 at c4 ⊢
  rw [c3] at c4
  have c5 := ctl_player_play_prepare r4.1
  generalize player_play_prepare r4.1 = r5 at c5 ⊢
  have e4a : r4.1.flush_streams = q.flush_streams := congrArg Ctl.flush_streams c4
  have e4b : r4.1.stop_streams = q.stop_streams := congrArg Ctl.stop_streams c4
  have e4c : r4.1.input_codec_ctxs = q.input_codec_ctxs := congrArg Ctl.input_codec_ctxs c4
  rw [c4, e4a, e4b, e4c] at c5
  have e5c : r5.1.input_codec_ctxs = q.input_codec_ctxs := congrArg Ctl.input_codec_ctxs c5
  have e5d : r5.1.decode_threads_created = q.decode_threads_created :=
    congrArg Ctl.decode_threads_created c5
  rcases ctl_player_create_decoding_threads env r5.1 with ⟨h3, dc, hdc⟩ | ⟨h3, hdc⟩
  · left
    rw [if_pos h3]
    rw [c5] at hdc
    have g1 : (player_create_decoding_threads env r5.1).2.1.playing = q.playing :=
      congrArg Ctl.playing hdc
    have g2 : (player_create_decoding_threads env r5.1).2.1.pause = q.pause :=
      congrArg Ctl.pause hdc
    have g3 : (player_create_decoding_threads env r5.1).2.1.flush_streams =
        fun t => q.flush_streams t && !(q.input_codec_ctxs t).isSome :=
      congrArg Ctl.flush_streams hdc
    have g4 : (player_create_decoding_threads env r5.1).2.1.stop_streams =
        fun t => q.stop_streams t && !(q.input_codec_ctxs t).isSome :=
      congrArg Ctl.stop_streams hdc
    refine ⟨h3, _, g1, g2, ?_, ?_, rfl⟩
    · intro t h
      rw [g3] at h
      simp only [Bool.and_eq_true] at h
      exact h.1
    · intro t h
      rw [g4] at h
      simp only [Bool.and_eq_true] at h
      exact h.1
  · right
    rw [if_neg (not_lt.mpr h3)]
    refine ⟨h3, ?_⟩
    rw [c5, e5c, e5d] at hdc
    show ({ ctl (player_create_decoding_threads env r5.1).2.1 with playing := true } : Ctl) = _
    rw [hdc]

/-! ## Choosing and opening a stream -/

theorem av_find_best_stream_cases (env : OpenEnv) (ic : AVFormatContext) (type : MediaType)
    (wanted : Int) :
    av_find_best_stream env ic type wanted < 0 ∨
    (0 ≤ av_find_best_stream env ic type wanted ∧
      ∃ st, ic.streams[(av_find_best_stream env ic type wanted).toNat]? = some st ∧
        st.codec.codec_type = enumValue type) := by
  unfold av_find_best_stream
  generalize hc : (List.filter _ (List.range ic.streams.length)) = cands
  have hmem : ∀ i ∈ cands, ∃ st, ic.streams[i]? = some st ∧
      st.codec.codec_type = enumValue type := by
    intro i hi
    rw [← hc] at hi
    have := (List.mem_filter.mp hi).2
    cases hs : ic.streams[i]? with
    | none => simp [hs] at this
    | some st =>
      simp only [hs, Bool.and_eq_true, decide_eq_true_eq] at this
      exact ⟨st, rfl, this.1⟩
  cases cands with
  | nil => left; simp [AVERROR_STREAM_NOT_FOUND]
  | cons c cs =>
    right
    simp only
    split_ifs with h
    · exact ⟨Int.natCast_nonneg _, by simpa using hmem _ h⟩
    · exact ⟨Int.natCast_nonneg _, by simpa using hmem c (List.mem_cons_self _ _)⟩

theorem ctl_stream_component_open (env : OpenEnv) (ic : AVFormatContext) (q : Player)
    (idx : Int) (st : AVStream) (T : MediaType) (h0 : 0 ≤ idx)
    (hst : ic.streams[idx.toNat]? = some st) (hty : st.codec.codec_type = enumValue T)
    (hT : T = AVMEDIA_TYPE_AUDIO ∨ T = AVMEDIA_TYPE_VIDEO) :
    ((stream_component_open env ic q idx).1 < 0 ∨ (stream_component_open env ic q idx).1 = 0) ∧
    (((stream_component_open env ic q idx).1 < 0 ∧
        ctl (stream_component_open env ic q idx).2.1 = ctl q) ∨
      ∃ c, c.id = idx.toNat ∧
        ctl (stream_component_open env ic q idx).2.1 =
          { ctl q with input_codec_ctxs := Function.update q.input_codec_ctxs T (some c) }) := by
  have hlt : idx.toNat < ic.streams.length := by
    rcases List.getElem?_eq_some_iff.mp hst with ⟨h, _⟩
    exact h
  have hguard : ¬(idx < 0 ∨ idx > (ic.streams.length : Int)) := by
    have : (idx.toNat : Int) = idx := Int.toNat_of_nonneg h0
    omega
  simp only [stream_component_open, if_neg hguard, hst, Option.getD_some]
  by_cases hfd : env.find_decoder idx.toNat = true
  · simp only [hfd, Bool.not_true, Bool.false_eq_true, if_false]
    rcases hT with hT | hT <;> subst hT <;> simp only [hty] <;>
      cases env.avcodec_open2 idx.toNat <;>
      simp [enumValue, AVMEDIA_TYPE_AUDIO, AVMEDIA_TYPE_VIDEO] <;>
      first
        | exact ⟨_, rfl, rfl⟩
        | exact Or.inr ⟨_, rfl, rfl⟩
  · have hfd' : env.find_decoder idx.toNat = false := by simpa using hfd
    simp [hfd']

theorem ctl_player_create_audio_track (env : OpenEnv) (q : Player) :
    ctl (player_create_audio_track env q).2.1 = ctl q := by
  simp only [player_create_audio_track]
  split_ifs <;> rfl

theorem ctl_player_prepare_rgb_frames (env : OpenEnv) (q : Player) :
    ctl (player_prepare_rgb_frames env q).2 = ctl q := by
  simp only [player_prepare_rgb_frames]
  split_ifs <;> rfl

theorem ctl_player_preapre_sws_context (env : OpenEnv) (q : Player) :
    ctl (player_preapre_sws_context env q).2 = ctl q := by
  simp only [player_preapre_sws_context]
  split_ifs <;> rfl

theorem ctl_player_open_input (env : OpenEnv) (q : Player) :
    ((player_open_input env q).1 < 0 ∧ ctl (player_open_input env q).2.1 = ctl q) ∨
    ((player_open_input env q).1 = 0 ∧
      ctl (player_open_input env q).2.1 = { ctl q with input_inited := true }) := by
  simp only [player_open_input]
  cases env.avformat_open_input with
  | none => left; exact ⟨by simp [ERROR_COULD_NOT_OPEN_VIDEO_FILE], rfl⟩
  | some ic => right; exact ⟨rfl, rfl⟩

theorem errorExit_of_ctl (env : OpenEnv) (q x : Player) (C : MediaType → Option AVCodecContext)
    (err : Int) (evs : List Ev) (herr : err < 0)
    (hx : ctl x = { ctl q with input_codec_ctxs := C }) :
    ErrorExit env q (player_set_data_source_error env x err evs) := by
  have e1 : x.playing = q.playing := congrArg Ctl.playing hx
  have e2 : x.pause = q.pause := congrArg Ctl.pause hx
  have e3 : x.flush_streams = q.flush_streams := congrArg Ctl.flush_streams hx
  have e4 : x.stop_streams = q.stop_streams := congrArg Ctl.stop_streams hx
  exact ⟨herr, x, e1, e2, fun t ht => e3 ▸ ht, fun t ht => e4 ▸ ht, rfl⟩

theorem exit_of_finish (env : OpenEnv) (q q3 : Player) (evs : List Ev)
    (C : MediaType → Option AVCodecContext)
    (h : ctl q3 = { ctl q with input_codec_ctxs := C }) :
    ErrorExit env q (player_set_data_source_finish env q3 evs) ∨
    SuccessExit q C (player_set_data_source_finish env q3 evs) := by
  have e1 : q3.playing = q.playing := congrArg Ctl.playing h
  have e2 : q3.pause = q.pause := congrArg Ctl.pause h
  have e3 : q3.flush_streams = q.flush_streams := congrArg Ctl.flush_streams h
  have e4 : q3.stop_streams = q.stop_streams := congrArg Ctl.stop_streams h
  have e5 : q3.input_codec_ctxs = C := congrArg Ctl.input_codec_ctxs h
  have e6 : q3.decode_threads_created = q.decode_threads_created :=
    congrArg Ctl.decode_threads_created h
  rcases player_set_data_source_finish_cases env q3 evs with
    ⟨hneg, q1, f1, f2, f3, f4, hq1⟩ | ⟨hpos, hctl⟩
  · left
    exact ⟨hneg, q1, f1.trans e1, f2.trans e2, fun t ht => e3 ▸ f3 t ht,
      fun t ht => e4 ▸ f4 t ht, hq1⟩
  · right
    refine ⟨hpos, ?_⟩
    rw [hctl, h, e3, e4, e5, e6]

/-- The video part of an open and what follows it. -/
theorem player_set_data_source_video_cases (env : OpenEnv) (ic : AVFormatContext)
    (q q2 : Player) (st_video : Int) (evs : List Ev) (C : MediaType → Option AVCodecContext)
    (h : ctl q2 = { ctl q with input_codec_ctxs := C })
    (hv : st_video < 0 ∨ (0 ≤ st_video ∧ ∃ st, ic.streams[st_video.toNat]? = some st ∧
      st.codec.codec_type = enumValue AVMEDIA_TYPE_VIDEO)) :
    ErrorExit env q (player_set_data_source_video env ic q2 st_video evs) ∨
    SuccessExit q C (player_set_data_source_video env ic q2 st_video evs) ∨
    ∃ c, c.id = st_video.toNat ∧ 0 ≤ st_video ∧
      SuccessExit q (Function.update C AVMEDIA_TYPE_VIDEO (some c))
        (player_set_data_source_video env ic q2 st_video evs) := by
  have e5 : q2.input_codec_ctxs = C := congrArg Ctl.input_codec_ctxs h
  have hq2 : ctl q2 = ctl { q with input_codec_ctxs := C } := h
  simp only [player_set_data_source_video]
  rcases hv with hneg | ⟨hpos, st, hst, hty⟩
  · rw [if_neg (not_le.mpr hneg)]
    rcases exit_of_finish env q q2 evs C h with h1 | h1
    · exact Or.inl h1
    · exact Or.inr (Or.inl h1)
  · rw [if_pos hpos]
    obtain ⟨hret, hcases⟩ := ctl_stream_component_open env ic q2 st_video st
      AVMEDIA_TYPE_VIDEO hpos hst hty (Or.inr rfl)
    generalize stream_component_open env ic q2 st_video = r1 at hret hcases ⊢
    by_cases h1 : r1.1 < 0
    · left
      rw [if_pos h1]
      rcases hcases with ⟨_, hc⟩ | ⟨c, _, hc⟩
      · exact errorExit_of_ctl env q r1.2.1 C r1.1 _ h1 (hc.trans h)
      · rw [h] at hc
        exact errorExit_of_ctl env q r1.2.1 _ r1.1 _ h1 hc
    · rw [if_neg h1]
      have hz : r1.1 = 0 := by
        rcases hret with h' | h'
        · exact absurd h' h1
        · exact h'
      rcases hcases with ⟨hlt, _⟩ | ⟨c, hcid, hc⟩
      · exact absurd hlt h1
      rw [h, e5] at hc
      have hc' : ctl r1.2.1 =
          { ctl q with input_codec_ctxs := Function.update C AVMEDIA_TYPE_VIDEO (some c) } := hc
      have c2 := ctl_player_prepare_rgb_frames env r1.2.1
      generalize player_prepare_rgb_frames env r1.2.1 = r2 at c2 ⊢
      rw [hc'] at c2
      by_cases h2 : r2.1 < 0
      · left
        rw [if_pos h2]
        exact errorExit_of_ctl env q r2.2 _ r2.1 _ h2 c2
      rw [if_neg h2]
      have c3 := ctl_player_preapre_sws_context env r2.2
      generalize player_preapre_sws_context env r2.2 = r3 at c3 ⊢
      rw [c2] at c3
      by_cases h3 : r3.1 < 0
      · left
        rw [if_pos h3]
        exact errorExit_of_ctl env q r3.2 _ r3.1 _ h3 c3
      rw [if_neg h3]
      rcases exit_of_finish env q r3.2 (evs ++ r1.2.2)
        (Function.update C AVMEDIA_TYPE_VIDEO (some c)) c3 with h4 | h4
      · exact Or.inl h4
      · exact Or.inr (Or.inr ⟨c, hcid, hpos, h4⟩)

theorem successExit_congr {q q' : Player} {C : MediaType → Option AVCodecContext}
    {r : Int × Player × List Ev} (h : ctl q = ctl q') (hs : SuccessExit q C r) :
    SuccessExit q' C r := by
  have e3 : q.flush_streams = q'.flush_streams := congrArg Ctl.flush_streams h
  have e4 : q.stop_streams = q'.stop_streams := congrArg Ctl.stop_streams h
  have e6 : q.decode_threads_created = q'.decode_threads_created :=
    congrArg Ctl.decode_threads_created h
  unfold SuccessExit at hs ⊢
  rw [← h, ← e3, ← e4, ← e6]
  exact hs

theorem errorExit_congr {env : OpenEnv} {q q' : Player} {r : Int × Player × List Ev}
    (h1 : q.playing = q'.playing) (h2 : q.pause = q'.pause)
    (h3 : q.flush_streams = q'.flush_streams) (h4 : q.stop_streams = q'.stop_streams)
    (hs : ErrorExit env q r) : ErrorExit env q' r := by
  obtain ⟨hneg, q1, f1, f2, f3, f4, hq1⟩ := hs
  exact ⟨hneg, q1, f1.trans h1, f2.trans h2, fun t ht => h3 ▸ f3 t ht,
    fun t ht => h4 ▸ f4 t ht, hq1⟩

theorem tableDistinct_none : TableDistinct (fun _ => none) := by
  intro t t' c c' h
  simp at h

theorem tableDistinct_single (T : MediaType) (c : AVCodecContext) :
    TableDistinct (Function.update (fun _ => none) T (some c)) := by
  intro t t' c1 c2 h1 h2 _
  by_cases ht : t = T
  · by_cases ht' : t' = T
    · rw [ht, ht']
    · simp [Function.update_noteq ht'] at h2
  · simp [Function.update_noteq ht] at h1

theorem tableDistinct_pair (ca cv : AVCodecContext) (h : ca.id ≠ cv.id) :
    TableDistinct
      (Function.update (Function.update (fun _ => none) AVMEDIA_TYPE_AUDIO (some ca))
        AVMEDIA_TYPE_VIDEO (some cv)) := by
  intro t t' c1 c2 h1 h2 hid
  have key : ∀ (x : MediaType) (c : AVCodecContext),
      Function.update (Function.update (fun _ => none) AVMEDIA_TYPE_AUDIO (some ca))
        AVMEDIA_TYPE_VIDEO (some cv) x = some c →
      (x = AVMEDIA_TYPE_VIDEO ∧ c = cv) ∨ (x = AVMEDIA_TYPE_AUDIO ∧ c = ca) := by
    intro x c hx
    by_cases hv : x = AVMEDIA_TYPE_VIDEO
    · subst hv
      simp at hx
      exact Or.inl ⟨rfl, hx.symm⟩
    · rw [Function.update_noteq hv] at hx
      by_cases ha : x = AVMEDIA_TYPE_AUDIO
      · subst ha
        simp at hx
        exact Or.inr ⟨rfl, hx.symm⟩
      · simp [Function.update_noteq ha] at hx
  rcases key t c1 h1 with ⟨a1, b1⟩ | ⟨a1, b1⟩ <;> rcases key t' c2 h2 with ⟨a2, b2⟩ | ⟨a2, b2⟩
  · rw [a1, a2]
  · exact absurd (by rw [b1, b2] at hid; exact hid.symm) h
  · exact absurd (by rw [b1, b2] at hid; exact hid) h
  · rw [a1, a2]

/-- An open that passes the test of `playing`, from a player `p1` whose context table is
empty: it ends in an error exit, or in a success exit with a context table that holds no
context twice. -/
theorem player_set_data_source_open_cases (env : OpenEnv) (p1 : Player) (evs0 : List Ev)
    (hnone : p1.input_codec_ctxs = fun _ => none) :
    ErrorExit env p1 (player_set_data_source_open env p1 evs0) ∨
    ∃ C, TableDistinct C ∧
      SuccessExit { p1 with input_inited := true } C
        (player_set_data_source_open env p1 evs0) := by
  simp only [player_set_data_source_open]
  have base : ctl p1 = { ctl p1 with input_codec_ctxs := fun _ => none } := by
    show ctl p1 = { ctl p1 with input_codec_ctxs := fun _ => none }
    simp only [ctl, hnone]
  rcases ctl_player_open_input env p1 with ⟨hneg, hc⟩ | ⟨hz, hc⟩
  · left
    rw [if_pos hneg]
    exact errorExit_of_ctl env p1 _ _ _ _ hneg (hc.trans base)
  have hnn : ¬(player_open_input env p1).1 < 0 := by rw [hz]; simp
  rw [if_neg hnn]
  generalize player_open_input env p1 = r1 at hc ⊢
  have hc0 : ctl r1.2.1 = { ctl { p1 with input_inited := true } with
      input_codec_ctxs := fun _ => none } := by
    rw [hc]; simp only [ctl, hnone]
  have e1 : r1.2.1.playing = p1.playing := congrArg Ctl.playing hc
  have e2 : r1.2.1.pause = p1.pause := congrArg Ctl.pause hc
  have e3 : r1.2.1.flush_streams = p1.flush_streams := congrArg Ctl.flush_streams hc
  have e4 : r1.2.1.stop_streams = p1.stop_streams := congrArg Ctl.stop_streams hc
  have e5 : r1.2.1.input_codec_ctxs = fun _ => none := by
    have : r1.2.1.input_codec_ctxs = p1.input_codec_ctxs := congrArg Ctl.input_codec_ctxs hc
    rw [this, hnone]
  have hself : ctl r1.2.1 = { ctl r1.2.1 with input_codec_ctxs := fun _ => none } := by
    simp only [ctl, e5]
  have toP1 : ∀ r, ErrorExit env r1.2.1 r → ErrorExit env p1 r :=
    fun r h => errorExit_congr e1 e2 e3 e4 h
  have toP1s : ∀ C r, SuccessExit r1.2.1 C r → SuccessExit { p1 with input_inited := true } C r :=
    fun C r h => successExit_congr (by rw [hc]; rfl) h
  by_cases hinfo : player_find_stream_info env < 0
  · left
    rw [if_pos hinfo]
    exact toP1 _ (errorExit_of_ctl env r1.2.1 _ _ _ _ hinfo hself)
  rw [if_neg hinfo]
  generalize r1.2.1.format_ctx.getD null_ic = ic
  have hva := av_find_best_stream_cases env ic AVMEDIA_TYPE_VIDEO
    (r1.2.1.stream_indexs AVMEDIA_TYPE_VIDEO)
  have haa := av_find_best_stream_cases env ic AVMEDIA_TYPE_AUDIO
    (r1.2.1.stream_indexs AVMEDIA_TYPE_AUDIO)
  generalize av_find_best_stream env ic AVMEDIA_TYPE_VIDEO
    (r1.2.1.stream_indexs AVMEDIA_TYPE_VIDEO) = st_video at hva ⊢
  generalize av_find_best_stream env ic AVMEDIA_TYPE_AUDIO
    (r1.2.1.stream_indexs AVMEDIA_TYPE_AUDIO) = st_audio at haa ⊢
  rcases haa with hanone | ⟨hapos, sa, hsa, htya⟩
  · -- no audio stream
    rw [if_neg (not_le.mpr hanone)]
    rcases player_set_data_source_video_cases env ic r1.2.1 r1.2.1 st_video
      (evs0 ++ r1.2.2) (fun _ => none) hself hva with h | h | ⟨c, hcid, hpos, h⟩
    · exact Or.inl (toP1 _ h)
    · exact Or.inr ⟨_, tableDistinct_none, toP1s _ _ h⟩
    · exact Or.inr ⟨_, tableDistinct_single _ c, toP1s _ _ h⟩
  · -- an audio stream
    rw [if_pos hapos]
    obtain ⟨hret, hcases⟩ := ctl_stream_component_open env ic r1.2.1 st_audio sa
      AVMEDIA_TYPE_AUDIO hapos hsa htya (Or.inl rfl)
    generalize stream_component_open env ic r1.2.1 st_audio = r3 at hret hcases ⊢
    by_cases h3 : r3.1 < 0
    · left
      rw [if_pos h3]
      rcases hcases with ⟨_, hc3⟩ | ⟨c, _, hc3⟩
      · exact toP1 _ (errorExit_of_ctl env r1.2.1 _ _ _ _ h3 (hc3.trans hself))
      · exact toP1 _ (errorExit_of_ctl env r1.2.1 _ _ _ _ h3 hc3)
    rw [if_neg h3]
    rcases hcases with ⟨hlt, _⟩ | ⟨ca, hcaid, hc3⟩
    · exact absurd hlt h3
    rw [e5] at hc3
    have c4 := ctl_player_create_audio_track env r3.2.1
    generalize player_create_audio_track env r3.2.1 = r4 at c4 ⊢
    rw [hc3] at c4
    by_cases h4 : r4.1 < 0
    · left
      rw [if_pos h4]
      exact toP1 _ (errorExit_of_ctl env r1.2.1 _ _ _ _ h4 c4)
    rw [if_neg h4]
    rcases player_set_data_source_video_cases env ic r1.2.1 r4.2.1 st_video
      (evs0 ++ r1.2.2 ++ r3.2.2 ++ r4.2.2)
      (Function.update (fun _ => none) AVMEDIA_TYPE_AUDIO (some ca)) c4 hva with
      h | h | ⟨cv, hcvid, hvpos, h⟩
    · exact Or.inl (toP1 _ h)
    · exact Or.inr ⟨_, tableDistinct_single _ ca, toP1s _ _ h⟩
    · refine Or.inr ⟨_, tableDistinct_pair ca cv ?_, toP1s _ _ h⟩
      intro hid
      rcases hva with hvneg | ⟨_, sv, hsv, htyv⟩
      · exact absurd hvpos (not_le.mpr hvneg)
      · rw [hcaid, hcvid] at hid
        rw [hid, hsv] at hsa
        have : sa = sv := (Option.some.inj hsa).symm
        rw [this, htyv] at htya
        simp [enumValue, AVMEDIA_TYPE_AUDIO, AVMEDIA_TYPE_VIDEO] at htya

/-! ## The invariant of the reachable players -/

theorem inv_init : Inv jni_player_init :=
  { flush := fun _ => rfl
    stops := fun _ => rfl
    reader := fun _ => rfl
    decoders := fun _ _ => rfl
    inited := fun h => by simp [jni_player_init] at h
    distinct := tableDistinct_none }

theorem inv_teardown (j : JoinEnv) (q : Player) (hp : q.playing = false)
    (hf : ∀ t, q.flush_streams t = false) (hs : ∀ t, q.stop_streams t = false) :
    Inv (player_teardown j q).1 := by
  rw [player_teardown_state]
  exact
    { flush := hf
      stops := hs
      reader := fun _ => rfl
      decoders := fun _ _ => rfl
      inited := fun h => by simp [hp] at h
      distinct := tableDistinct_none }

theorem inv_stop (j : JoinEnv) (p : Player) (h : Inv p) : Inv (player_stop j p).1 := by
  by_cases hp : p.playing = true
  · have : (player_stop j p).1 = (player_teardown j { p with playing := false }).1 := by
      simp [player_stop, hp]
    rw [this]
    exact inv_teardown j _ rfl h.flush h.stops
  · have hp' : p.playing = false := by simpa using hp
    rw [player_stop_of_not_playing j p hp']
    exact h

theorem inv_errorExit (env : OpenEnv) (q : Player) (r : Int × Player × List Ev)
    (hp : q.playing = false) (hf : ∀ t, q.flush_streams t = false)
    (hs : ∀ t, q.stop_streams t = false) (h : ErrorExit env q r) : Inv r.2.1 := by
  obtain ⟨_, q1, f1, _, f3, f4, hq1⟩ := h
  rw [hq1]
  refine inv_teardown env.join q1 (f1.trans hp) (fun t => ?_) (fun t => ?_)
  · cases hq : q1.flush_streams t
    · rfl
    · exact absurd (f3 t hq) (by simp [hf t])
  · cases hq : q1.stop_streams t
    · rfl
    · exact absurd (f4 t hq) (by simp [hs t])

/-- The fields of a player after a success exit, read off its control fields. -/
theorem successExit_fields {q : Player} {C : MediaType → Option AVCodecContext}
    {r : Int × Player × List Ev} (h : SuccessExit q C r) :
    r.2.1.playing = true ∧ r.2.1.pause = q.pause ∧ r.2.1.stop = false ∧
    r.2.1.seek_position = DO_NOT_SEEK_int ∧ r.2.1.input_inited = q.input_inited ∧
    r.2.1.input_codec_ctxs = C ∧ r.2.1.read_stream_thread_created = true ∧
    (r.2.1.flush_streams = fun t => q.flush_streams t && !(C t).isSome) ∧
    (r.2.1.stop_streams = fun t => q.stop_streams t && !(C t).isSome) ∧
    (r.2.1.decode_threads_created = fun t => (C t).isSome || q.decode_threads_created t) := by
  have hc := h.2
  exact ⟨congrArg Ctl.playing hc, congrArg Ctl.pause hc, congrArg Ctl.stop hc,
    congrArg Ctl.seek_position hc, congrArg Ctl.input_inited hc,
    congrArg Ctl.input_codec_ctxs hc, congrArg Ctl.read_stream_thread_created hc,
    congrArg Ctl.flush_streams hc, congrArg Ctl.stop_streams hc,
    congrArg Ctl.decode_threads_created hc⟩

theorem inv_open (env : OpenEnv) (p : Player) (v a s : Int) (h : Inv p) :
    Inv (player_set_data_source env p v a s).2.1 := by
  by_cases hp : p.playing = true
  · have : (player_set_data_source env p v a s).2.1 = p := by
      simp [player_set_data_source, hp]
    rw [this]; exact h
  · have hp' : p.playing = false := by simpa using hp
    have hdef : player_set_data_source env p v a s =
        player_set_data_source_open env (player_set_data_source_reset env p v a s)
          [Ev.lock Mutex.mutex_operation] := by
      simp [player_set_data_source, hp']
    rw [hdef]
    rcases player_set_data_source_open_cases env (player_set_data_source_reset env p v a s)
      [Ev.lock Mutex.mutex_operation] rfl with he | ⟨C, hC, hsx⟩
    · exact inv_errorExit env (player_set_data_source_reset env p v a s) _ hp' h.flush h.stops he
    · obtain ⟨g1, _, _, _, g5, g6, _, g8, g9, _⟩ := (successExit_fields hsx)
      exact
        { flush := fun t => by
            rw [g8]
            show ((p.flush_streams t) && !(C t).isSome) = false
            rw [h.flush t]; rfl
          stops := fun t => by
            rw [g9]
            show ((p.stop_streams t) && !(C t).isSome) = false
            rw [h.stops t]; rfl
          reader := fun hh => by rw [g1] at hh; exact absurd hh (by simp)
          decoders := fun hh => by rw [g1] at hh; exact absurd hh (by simp)
          inited := fun _ => g5
          distinct := by unfold CtxDistinct; rw [g6]; exact hC }

/-- Every player that `init`, `open` and `stop` can produce satisfies the invariant. -/
theorem reachable_inv {p : Player} (h : Reachable p) : Inv p := by
  induction h with
  | init => exact inv_init
  | after_open env p v a s _ ih => exact inv_open env p v a s ih
  | after_stop j p _ ih => exact inv_stop j p ih

theorem count_one_of_distinct (C : MediaType → Option AVCodecContext) (hC : TableDistinct C)
    (t : MediaType) (c : AVCodecContext) (ht : C t = some c) :
    (mediaTypes.filterMap fun i => (C i).map fun c => Ev.avcodec_close c.id).count
      (Ev.avcodec_close c.id) = 1 := by
  have key : ∀ (l : List MediaType), l.Nodup →
      (l.filterMap fun i => (C i).map fun c => Ev.avcodec_close c.id).count
        (Ev.avcodec_close c.id) = if t ∈ l then 1 else 0 := by
    intro l hl
    induction l with
    | nil => simp
    | cons a l ih =>
      have ha : a ∉ l := (List.nodup_cons.mp hl).1
      have ih' := ih (List.nodup_cons.mp hl).2
      by_cases hta : a = t
      · subst hta
        simp [List.filterMap_cons, ht, List.count_cons, ih', ha]
      · have hne : t ≠ a := fun h => hta h.symm
        cases hCa : C a with
        | none => simp [List.filterMap_cons, hCa, ih', hne]
        | some c' =>
          have hid : c'.id ≠ c.id := fun hid => hta (hC a t c' c hCa ht hid)
          simp [List.filterMap_cons, hCa, List.count_cons, ih', hne, hid]
  rw [key mediaTypes (by decide)]
  simp [mem_mediaTypes]

theorem player_teardown_closes_input (j : JoinEnv) (q : Player) (h : q.input_inited = true) :
    Ev.avformat_close_input ∈ (player_teardown j q).2 := by
  unfold player_teardown
  simp only [player_free_streams_state, player_free_frames_state, player_free_queues_state,
    player_free_rgb_frames_state, player_free_sws_context_state, player_free_audio_track_state,
    player_free_decoding_threads_state, player_signal_stop]
  apply List.mem_append_right
  simp [player_free_input, h]

/-! ## The calls of the controller functions -/

theorem allInner_nil : AllInner [] := fun _ h => by simp at h

theorem allInner_append {a b : List Ev} (ha : AllInner a) (hb : AllInner b) :
    AllInner (a ++ b) := by
  intro e he
  rcases List.mem_append.mp he with h | h
  · exact ha e h
  · exact hb e h

theorem allInner_signal_stop (p : Player) : AllInner (player_signal_stop p).2 := by
  intro e he
  simp [player_signal_stop] at he
  rcases he with h | h | h <;> subst h <;> rfl

theorem allInner_free_decoding_threads_fold (j : JoinEnv) (l : List MediaType)
    (acc : Int × Player × List Ev) (h : AllInner acc.2.2) :
    AllInner (l.foldl (player_free_decoding_threads_step j) acc).2.2 := by
  induction l generalizing acc with
  | nil => exact h
  | cons a l ih =>
    rw [List.foldl_cons]
    apply ih
    simp only [player_free_decoding_threads_step]
    split_ifs <;> first
      | exact h
      | exact allInner_append h (fun e he => by simp at he; subst he; rfl)

theorem allInner_free_decoding_threads (j : JoinEnv) (p : Player) :
    AllInner (player_free_decoding_threads j p).2.2 := by
  simp only [player_free_decoding_threads]
  apply allInner_free_decoding_threads_fold
  split_ifs <;> first
    | exact allInner_nil
    | (intro e he; simp at he; subst he; rfl)

theorem allInner_free_audio_track (p : Player) : AllInner (player_free_audio_track p).2 := by
  intro e he
  simp only [player_free_audio_track] at he
  split_ifs at he <;> (try split at he) <;> simp at he <;>
    (try rcases he with h | h | h) <;> (try subst h) <;> rfl

theorem allInner_free_sws_context (p : Player) : AllInner (player_free_sws_context p).2 := by
  intro e he
  simp only [player_free_sws_context] at he
  split_ifs at he <;> simp at he
  subst he; rfl

theorem allInner_free_rgb_frames (p : Player) : AllInner (player_free_rgb_frames p).2 := by
  intro e he
  simp only [player_free_rgb_frames] at he
  split at he <;> simp at he
  subst he; rfl

theorem allInner_free_queues_fold (l : List MediaType) (acc : Player × List Ev)
    (h : AllInner acc.2) : AllInner (l.foldl player_free_queues_step acc).2 := by
  induction l generalizing acc with
  | nil => exact h
  | cons a l ih =>
    rw [List.foldl_cons]
    apply ih
    simp only [player_free_queues_step]
    split <;> first
      | exact h
      | exact allInner_append h (fun e he => by simp at he; subst he; rfl)

theorem allInner_free_frames_fold (l : List MediaType) (acc : Player × List Ev)
    (h : AllInner acc.2) : AllInner (l.foldl player_free_frames_step acc).2 := by
  induction l generalizing acc with
  | nil => exact h
  | cons a l ih =>
    rw [List.foldl_cons]
    apply ih
    simp only [player_free_frames_step]
    split_ifs <;> first
      | exact h
      | exact allInner_append h (fun e he => by simp at he; subst he; rfl)

theorem allInner_free_streams_fold (l : List MediaType) (acc : Player × List Ev)
    (h : AllInner acc.2) : AllInner (l.foldl player_free_streams_step acc).2 := by
  induction l generalizing acc with
  | nil => exact h
  | cons a l ih =>
    rw [List.foldl_cons]
    apply ih
    simp only [player_free_streams_step]
    split <;> first
      | exact h
      | exact allInner_append h (fun e he => by simp at he; subst he; rfl)

theorem allInner_free_input (p : Player) : AllInner (player_free_input p).2 := by
  intro e he
  simp only [player_free_input] at he
  split_ifs at he <;> simp at he
  subst he; rfl

theorem allInner_teardown (j : JoinEnv) (p : Player) : AllInner (player_teardown j p).2 := by
  simp only [player_teardown]
  refine allInner_append (allInner_append (allInner_append (allInner_append (allInner_append
    (allInner_append (allInner_append (allInner_append ?_ ?_) ?_) ?_) ?_) ?_) ?_) ?_) ?_
  · exact allInner_signal_stop _
  · exact allInner_free_decoding_threads _ _
  · exact allInner_free_audio_track _
  · exact allInner_free_sws_context _
  · exact allInner_free_rgb_frames _
  · exact allInner_free_queues_fold _ _ allInner_nil
  · exact allInner_free_frames_fold _ _ allInner_nil
  · exact allInner_free_streams_fold _ _ allInner_nil
  · exact allInner_free_input _

theorem allInner_open_input (env : OpenEnv) (p : Player) :
    AllInner (player_open_input env p).2.2 := by
  intro e he
  simp only [player_open_input] at he
  split at he <;> simp at he <;> subst he <;> rfl

theorem allInner_stream_component_open (env : OpenEnv) (ic : AVFormatContext) (p : Player)
    (i : Int) : AllInner (stream_component_open env ic p i).2.2 := by
  intro e he
  simp only [stream_component_open] at he
  split_ifs at he <;> (try split at he) <;> simp at he <;>
    (try rcases he with h | h) <;> (try subst h) <;> rfl

theorem allInner_create_audio_track (env : OpenEnv) (p : Player) :
    AllInner (player_create_audio_track env p).2.2 := by
  intro e he
  simp only [player_create_audio_track] at he
  split_ifs at he <;> simp at he <;> subst he <;> rfl

theorem allInner_update_time (p : Player) (time : ℚ) :
    AllInner (player_update_time p time).2 := by
  intro e he
  simp only [player_update_time, player_update_current_time] at he
  split_ifs at he <;> simp at he <;> subst he <;> rfl

theorem allInner_play_prepare (p : Player) : AllInner (player_play_prepare p).2 := by
  intro e he
  simp [player_play_prepare] at he
  rcases he with h | h | h <;> subst h <;> rfl

theorem allInner_create_decoding_threads_loop (env : OpenEnv) (l : List MediaType) (p : Player)
    (evs : List Ev) (h : AllInner evs) :
    AllInner (player_create_decoding_threads_loop env l p evs).2.2 := by
  induction l generalizing p evs with
  | nil => exact h
  | cons a l ih =>
    simp only [player_create_decoding_threads_loop]
    split_ifs
    · exact h
    · exact ih _ _ (allInner_append h (fun e he => by simp at he; subst he; rfl))
    · exact ih _ _ h

theorem allInner_create_decoding_threads (env : OpenEnv) (p : Player) :
    AllInner (player_create_decoding_threads env p).2.2 := by
  have hl := allInner_create_decoding_threads_loop env mediaTypes p [] allInner_nil
  simp only [player_create_decoding_threads]
  split_ifs <;> first
    | exact allInner_nil
    | exact hl
    | exact allInner_append hl (fun e he => by simp at he; subst he; rfl)

theorem tail_error (env : OpenEnv) (q : Player) (err : Int) (evs : List Ev) :
    Tail evs (player_set_data_source_error env q err evs) :=
  ⟨(player_teardown env.join q).2, rfl, allInner_teardown _ _⟩

theorem tail_extend {evs extra : List Ev} {r : Int × Player × List Ev}
    (hx : AllInner extra) (h : Tail (evs ++ extra) r) : Tail evs r := by
  obtain ⟨mid, hm, hi⟩ := h
  exact ⟨extra ++ mid, by rw [hm]; simp, allInner_append hx hi⟩

theorem tail_finish (env : OpenEnv) (q : Player) (evs : List Ev) :
    Tail evs (player_set_data_source_finish env q evs) := by
  simp only [player_set_data_source_finish]
  generalize player_alloc_frames env q = r1
  generalize player_alloc_queues env r1.2 = r2
  have i4 := allInner_update_time (player_get_video_duration r2.2) 0
  generalize player_update_time (player_get_video_duration r2.2) 0 = r4 at i4 ⊢
  have i5 := allInner_play_prepare r4.1
  generalize player_play_prepare r4.1 = r5 at i5 ⊢
  have i6 := allInner_create_decoding_threads env r5.1
  generalize player_create_decoding_threads env r5.1 = r6 at i6 ⊢
  have hx : AllInner (r4.2 ++ r5.2 ++ r6.2.2) := allInner_append (allInner_append i4 i5) i6
  split_ifs
  · exact tail_error _ _ _ _
  · exact tail_error _ _ _ _
  · have := tail_error env r6.2.1 r6.1 (evs ++ (r4.2 ++ r5.2 ++ r6.2.2))
    have h2 := tail_extend hx this
    simpa [List.append_assoc] using h2
  · exact ⟨r4.2 ++ r5.2 ++ r6.2.2, by simp [List.append_assoc], hx⟩

theorem tail_video (env : OpenEnv) (ic : AVFormatContext) (q : Player) (st_video : Int)
    (evs : List Ev) : Tail evs (player_set_data_source_video env ic q st_video evs) := by
  simp only [player_set_data_source_video]
  split_ifs
  · exact tail_extend (allInner_stream_component_open _ _ _ _) (tail_error _ _ _ _)
  · exact tail_extend (allInner_stream_component_open _ _ _ _) (tail_error _ _ _ _)
  · exact tail_extend (allInner_stream_component_open _ _ _ _) (tail_error _ _ _ _)
  · exact tail_extend (allInner_stream_component_open _ _ _ _) (tail_finish _ _ _)
  · exact tail_finish _ _ _

theorem tail_open (env : OpenEnv) (p1 : Player) (evs0 : List Ev) :
    Tail evs0 (player_set_data_source_open env p1 evs0) := by
  simp only [player_set_data_source_open]
  split_ifs
  · exact tail_extend (allInner_open_input _ _) (tail_error _ _ _ _)
  · exact tail_extend (allInner_open_input _ _) (tail_error _ _ _ _)
  · exact tail_extend (allInner_open_input _ _)
      (tail_extend (allInner_stream_component_open _ _ _ _) (tail_error _ _ _ _))
  · exact tail_extend (allInner_open_input _ _)
      (tail_extend (allInner_stream_component_open _ _ _ _)
        (tail_extend (allInner_create_audio_track _ _) (tail_error _ _ _ _)))
  · exact tail_extend (allInner_open_input _ _)
      (tail_extend (allInner_stream_component_open _ _ _ _)
        (tail_extend (allInner_create_audio_track _ _) (tail_video _ _ _ _ _)))
  · exact tail_extend (allInner_open_input _ _) (tail_video _ _ _ _ _)

theorem waits_holding_of_no_wait (m : Mutex) (l : List Ev) (held : Bool)
    (h : ∀ e ∈ l, e.is_wait = false) : waits_holding m l held = false := by
  induction l generalizing held with
  | nil => rfl
  | cons e l ih =>
    have hl : ∀ e ∈ l, e.is_wait = false := fun x hx => h x (List.mem_cons_of_mem _ hx)
    have he := h e (List.mem_cons_self _ _)
    cases e <;> simp only [waits_holding] <;> first
      | exact ih _ hl
      | simp [Ev.is_wait] at he

theorem Ev.inner_no_wait {e : Ev} (h : e.inner = true) : e.is_wait = false := by
  simp only [Ev.inner, Bool.and_eq_true, Bool.not_eq_true'] at h
  exact h.1

theorem Ev.inner_no_op {e : Ev} (h : e.inner = true) : e.on_mutex_operation = false := by
  simp only [Ev.inner, Bool.and_eq_true, Bool.not_eq_true'] at h
  exact h.2

theorem bracket_no_wait (mid : List Ev) (h : AllInner mid) :
    ∀ e ∈ Ev.lock Mutex.mutex_operation :: mid ++ [Ev.unlock Mutex.mutex_operation],
      e.is_wait = false := by
  intro e he
  simp only [List.cons_append, List.mem_cons, List.mem_append, List.mem_singleton] at he
  rcases he with h1 | h1 | h1
  · subst h1; rfl
  · exact Ev.inner_no_wait (h e h1)
  · simp at h1; subst h1; rfl

/-- The calls of `player_set_data_source`: the lock of `mutex_operation`, calls that are
neither waits nor operations on that mutex, the unlock. -/
theorem player_set_data_source_calls (env : OpenEnv) (p : Player) (v a s : Int) :
    ∃ mid, (player_set_data_source env p v a s).2.2 =
        Ev.lock Mutex.mutex_operation :: mid ++ [Ev.unlock Mutex.mutex_operation] ∧
      AllInner mid := by
  simp only [player_set_data_source]
  split_ifs
  · exact ⟨[], rfl, allInner_nil⟩
  · obtain ⟨mid, hm, hi⟩ := tail_open env (player_set_data_source_reset env p v a s)
      [Ev.lock Mutex.mutex_operation]
    exact ⟨mid, by rw [hm]; rfl, hi⟩

theorem player_stop_calls (j : JoinEnv) (p : Player) (hp : p.playing = true) :
    ∃ mid, (player_stop j p).2 =
        Ev.lock Mutex.mutex_operation :: mid ++ [Ev.unlock Mutex.mutex_operation] ∧
      AllInner mid :=
  ⟨(player_teardown j { p with playing := false }).2, by simp [player_stop, hp],
    allInner_teardown _ _⟩

theorem jni_player_pause_calls (c : Nat → Int) (p : Player) :
    ∃ mid, (jni_player_pause c p).2 =
        Ev.lock Mutex.mutex_operation :: mid ++ [Ev.unlock Mutex.mutex_operation] ∧
      ∀ e ∈ mid, e.is_wait = false ∧ e.on_mutex_operation = false := by
  simp only [jni_player_pause]
  split_ifs
  · exact ⟨[Ev.throw_not_playing], rfl, by simp [Ev.is_wait, Ev.on_mutex_operation]⟩
  · exact ⟨[Ev.lock Mutex.mutex_queue, Ev.unlock Mutex.mutex_queue], rfl,
      by simp [Ev.is_wait, Ev.on_mutex_operation]⟩
  · exact ⟨[Ev.lock Mutex.mutex_queue, Ev.audio_track SinkMethod.pause, Ev.cond_broadcast,
      Ev.unlock Mutex.mutex_queue], rfl, by simp [Ev.is_wait, Ev.on_mutex_operation]⟩
  · exact ⟨[Ev.lock Mutex.mutex_queue, Ev.cond_broadcast, Ev.unlock Mutex.mutex_queue], rfl,
      by simp [Ev.is_wait, Ev.on_mutex_operation]⟩

theorem jni_player_resume_calls (c : Nat → Int) (p : Player) :
    ∃ mid, (jni_player_resume c p).2 =
        Ev.lock Mutex.mutex_operation :: mid ++ [Ev.unlock Mutex.mutex_operation] ∧
      ∀ e ∈ mid, e.is_wait = false ∧ e.on_mutex_operation = false := by
  simp only [jni_player_resume]
  split_ifs <;> first
    | exact ⟨[Ev.throw_not_playing], rfl, by simp [Ev.is_wait, Ev.on_mutex_operation]⟩
    | exact ⟨[Ev.lock Mutex.mutex_queue, Ev.unlock Mutex.mutex_queue], rfl,
        by simp [Ev.is_wait, Ev.on_mutex_operation]⟩
    | exact ⟨[Ev.lock Mutex.mutex_queue, Ev.audio_track SinkMethod.play, Ev.cond_broadcast,
        Ev.unlock Mutex.mutex_queue], rfl, by simp [Ev.is_wait, Ev.on_mutex_operation]⟩
    | exact ⟨[Ev.lock Mutex.mutex_queue, Ev.cond_broadcast, Ev.unlock Mutex.mutex_queue], rfl,
        by simp [Ev.is_wait, Ev.on_mutex_operation]⟩

theorem jni_player_seek_wait_calls (p : Player) (wakes : List Player) :
    (∀ e ∈ (jni_player_seek_wait p wakes).2, e = Ev.cond_wait) ∧
    ((jni_player_seek_wait p wakes).2 = [] ↔ seek_pending p = false) := by
  induction wakes generalizing p with
  | nil =>
    simp only [jni_player_seek_wait]
    cases seek_pending p <;> simp
  | cons w wakes ih =>
    simp only [jni_player_seek_wait]
    cases seek_pending p
    · simp
    · simp only [if_true]
      refine ⟨fun e he => ?_, by simp⟩
      rcases List.mem_cons.mp he with h | h
      · exact h
      · exact (ih w).1 e h

theorem waits_holding_cond_waits (l rest : List Ev) (hl : ∀ e ∈ l, e = Ev.cond_wait)
    (hne : l ≠ []) : waits_holding Mutex.mutex_operation (l ++ rest) true = true := by
  cases l with
  | nil => exact absurd rfl hne
  | cons e l =>
    have := hl e (List.mem_cons_self _ _)
    subst this
    simp [waits_holding]

/-- Whether `jni_player_seek` waits on `cond_queue` with `mutex_operation` held: exactly when
the player is playing and the position it stores reads as a pending seek. -/
theorem jni_player_seek_waits (wakes : List Player) (p : Player) (position : Int) :
    waits_holding Mutex.mutex_operation (jni_player_seek wakes p position).2 false =
      (p.playing && seek_pending { p with seek_position := position }) := by
  obtain ⟨hall, hnil⟩ := jni_player_seek_wait_calls { p with seek_position := position } wakes
  simp only [jni_player_seek]
  generalize ({ p with seek_position := position } : Player) = q at hall hnil ⊢
  generalize jni_player_seek_wait q wakes = r at hall hnil ⊢
  cases hp : p.playing
  · simp [waits_holding]
  · simp only [Bool.not_true, Bool.false_eq_true, if_false, Bool.true_and]
    have step : ∀ rest, waits_holding Mutex.mutex_operation
        ([Ev.lock Mutex.mutex_operation, Ev.lock Mutex.mutex_queue, Ev.cond_broadcast] ++
          r.2 ++ rest) false = waits_holding Mutex.mutex_operation (r.2 ++ rest) true := by
      intro rest
      simp [waits_holding]
    cases hpend : seek_pending q
    · have hempty : r.2 = [] := hnil.mpr hpend
      cases r.1
      · have := step []
        simp only [List.append_nil] at this
        simp only [this, hempty, waits_holding]
      · simp only [step, hempty, List.nil_append, waits_holding, Bool.true_and,
          decide_False, Bool.not_false, decide_True, Bool.not_true, Bool.and_false]
    · have hne : r.2 ≠ [] := by
        intro h; rw [hnil.mp h] at hpend; exact absurd hpend (by simp)
      cases r.1
      · have := step []
        simp only [List.append_nil] at this
        simp only [this]
        simpa using waits_holding_cond_waits r.2 [] hall hne
      · simp only [step]
        exact waits_holding_cond_waits r.2 _ hall hne

/-! ## A decoder without a reader -/

theorem player_decode_queue_check_test (p : Player) (t : MediaType)
    (h1 : p.stop_streams t = false) (h2 : p.flush_streams t = false) :
    player_decode_queue_check p t = QueueCheckFuncRet.test := by
  simp [player_decode_queue_check, h1, h2]

theorem noReader_decoder_step (t0 t : MediaType) (o : DecoderOracle) (s : Sys)
    (h : NoReader t0 s) : NoReader t0 (decoder_step t o s) := by
  have hc := player_decode_queue_check_test s.player t (h.stops t) (h.flushes t)
  rcases h.pcs t with hpc | hpc | hpc | hpc
  · -- at the label `pop`
    simp only [decoder_step, hpc, hc]
    split_ifs
    · exact ⟨h.reader, h.stops, h.flushes, h.queues, h.pcs, h.waiting⟩
    · refine ⟨h.reader, h.stops, h.flushes, h.queues, fun t' => ?_, ?_⟩
      · by_cases ht : t' = t
        · subst ht; simp [Sys.set_decoder]
        · simpa [Sys.set_decoder, Function.update_noteq ht] using h.pcs t'
      · by_cases ht : t0 = t
        · subst ht; simp [Sys.set_decoder]
        · simpa [Sys.set_decoder, Function.update_noteq ht] using h.waiting
  · -- in `queue_pop_start_impl`
    simp only [decoder_step, hpc, hc]
    cases hq : s.player.packets_queue t with
    | none =>
      simp only
      refine ⟨h.reader, h.stops, h.flushes, h.queues, fun t' => ?_, ?_⟩
      · by_cases ht : t' = t
        · subst ht; simp [Sys.set_decoder]
        · simpa [Sys.set_decoder, Function.update_noteq ht] using h.pcs t'
      · by_cases ht : t0 = t
        · subst ht; simp [Sys.set_decoder]
        · simpa [Sys.set_decoder, Function.update_noteq ht] using h.waiting
    | some q =>
      have := h.queues t q hq
      simp only [this]
      exact h
  · simp only [decoder_step, hpc]; exact h
  · simp only [decoder_step, hpc]; exact h

/-- The fields of a player that only the reader and the decoders write. -/
theorem jni_player_pause_frame (c : Nat → Int) (p : Player) :
    (jni_player_pause c p).1.stop_streams = p.stop_streams ∧
    (jni_player_pause c p).1.flush_streams = p.flush_streams ∧
    (jni_player_pause c p).1.packets_queue = p.packets_queue ∧
    (jni_player_pause c p).1.input_codec_ctxs = p.input_codec_ctxs := by
  simp only [jni_player_pause, update_external_clock_pts]
  split_ifs <;> exact ⟨rfl, rfl, rfl, rfl⟩

theorem jni_player_resume_frame (c : Nat → Int) (p : Player) :
    (jni_player_resume c p).1.stop_streams = p.stop_streams ∧
    (jni_player_resume c p).1.flush_streams = p.flush_streams ∧
    (jni_player_resume c p).1.packets_queue = p.packets_queue ∧
    (jni_player_resume c p).1.input_codec_ctxs = p.input_codec_ctxs := by
  simp only [jni_player_resume, update_external_clock_pts]
  split_ifs <;> exact ⟨rfl, rfl, rfl, rfl⟩

theorem host_step_frame (a : HostAction) (s : Sys) :
    (host_step a s).reader = s.reader ∧ (host_step a s).decoders = s.decoders ∧
    (host_step a s).player.stop_streams = s.player.stop_streams ∧
    (host_step a s).player.flush_streams = s.player.flush_streams ∧
    (host_step a s).player.packets_queue = s.player.packets_queue ∧
    (host_step a s).player.input_codec_ctxs = s.player.input_codec_ctxs ∧
    (host_step a s).flush_served = s.flush_served := by
  cases a with
  | seek position => exact ⟨rfl, rfl, rfl, rfl, rfl, rfl, rfl⟩
  | signal_stop => exact ⟨rfl, rfl, rfl, rfl, rfl, rfl, rfl⟩
  | pause c =>
    obtain ⟨h1, h2, h3, h4⟩ := jni_player_pause_frame c s.player
    exact ⟨rfl, rfl, h1, h2, h3, h4, rfl⟩
  | resume c =>
    obtain ⟨h1, h2, h3, h4⟩ := jni_player_resume_frame c s.player
    exact ⟨rfl, rfl, h1, h2, h3, h4, rfl⟩
  | render_frame_start =>
    simp only [host_step, jni_player_render_frame_start]
    split_ifs <;> exact ⟨rfl, rfl, rfl, rfl, rfl, rfl, rfl⟩
  | render_frame_stop =>
    simp only [host_step, jni_player_render_frame_stop]
    split_ifs <;> exact ⟨rfl, rfl, rfl, rfl, rfl, rfl, rfl⟩
  | render_flush =>
    simp only [host_step]
    split_ifs <;> exact ⟨rfl, rfl, rfl, rfl, rfl, rfl, rfl⟩
  | render_take => exact ⟨rfl, rfl, rfl, rfl, rfl, rfl, rfl⟩

theorem noReader_step (t0 : MediaType) (s : Sys) (a : Action) (h : NoReader t0 s) :
    NoReader t0 (s.step a) := by
  cases a with
  | reader o =>
    have : reader_step o s = s := by simp [reader_step, h.reader]
    simp only [Sys.step, this]; exact h
  | decoder t o => exact noReader_decoder_step t0 t o s h
  | host a =>
    obtain ⟨e1, e2, e3, e4, e5, _, _⟩ := host_step_frame a s
    simp only [Sys.step]
    exact ⟨by rw [e1]; exact h.reader, by rw [e3]; exact h.stops, by rw [e4]; exact h.flushes,
      by rw [e5]; exact h.queues, by rw [e2]; exact h.pcs, by rw [e2]; exact h.waiting⟩

theorem noReader_run (t0 : MediaType) (acts : List Action) (s : Sys) (h : NoReader t0 s) :
    NoReader t0 (s.run acts) := by
  induction acts generalizing s with
  | nil => exact h
  | cons a acts ih => exact ih (s.step a) (noReader_step t0 s a h)

/-- A decoder that was created while the reader was not never returns, whatever the host and
the other decoders do, when no stop or flush request is set and the packet queues are empty:
it stays in `queue_pop_start_impl`, and nothing but the reader raises its stop request. -/
theorem decoder_without_reader_never_returns (q : Player) (t0 : MediaType)
    (hreader : q.read_stream_thread_created = false)
    (hcreated : q.decode_threads_created t0 = true)
    (hstops : ∀ t, q.stop_streams t = false) (hflushes : ∀ t, q.flush_streams t = false)
    (hqueues : ∀ t, ((q.packets_queue t).map Queue.used).getD [] = [])
    (acts : List Action) :
    (((Sys.init (player_signal_stop q).1).run acts).decoders t0).pc ≠ DPc.done := by
  apply (noReader_run t0 acts _ _).waiting
  have hq : ∀ t qu, q.packets_queue t = some qu → qu.used = [] := by
    intro t qu h
    have := hqueues t
    rw [h] at this
    simpa using this
  refine ⟨by simp [Sys.init, player_signal_stop, hreader], hstops, hflushes, hq,
    fun t => ?_, by simp [Sys.init, player_signal_stop, hcreated]⟩
  simp only [Sys.init, player_signal_stop]
  split_ifs <;> simp

/-! ## What a step of a thread leaves alone -/

@[simp] theorem Sys.add_player (s : Sys) (th : Thread) (evs : List Ev) :
    (s.add th evs).player = s.player := rfl
@[simp] theorem Sys.add_reader (s : Sys) (th : Thread) (evs : List Ev) :
    (s.add th evs).reader = s.reader := rfl
@[simp] theorem Sys.add_decoders (s : Sys) (th : Thread) (evs : List Ev) :
    (s.add th evs).decoders = s.decoders := rfl
@[simp] theorem Sys.add_flush_served (s : Sys) (th : Thread) (evs : List Ev) :
    (s.add th evs).flush_served = s.flush_served := rfl
@[simp] theorem Sys.add_log (s : Sys) (th : Thread) (evs : List Ev) :
    (s.add th evs).log = s.log ++ evs.map fun e => (th, e) := rfl
@[simp] theorem Sys.set_decoder_player (s : Sys) (t : MediaType) (d : Decoder) :
    (s.set_decoder t d).player = s.player := rfl
@[simp] theorem Sys.set_decoder_reader (s : Sys) (t : MediaType) (d : Decoder) :
    (s.set_decoder t d).reader = s.reader := rfl
@[simp] theorem Sys.set_decoder_decoders (s : Sys) (t : MediaType) (d : Decoder) :
    (s.set_decoder t d).decoders = Function.update s.decoders t d := rfl
@[simp] theorem Sys.set_decoder_flush_served (s : Sys) (t : MediaType) (d : Decoder) :
    (s.set_decoder t d).flush_served = s.flush_served := rfl
@[simp] theorem Sys.set_decoder_log (s : Sys) (t : MediaType) (d : Decoder) :
    (s.set_decoder t d).log = s.log := rfl
@[simp] theorem Sys.set_player_player (s : Sys) (p : Player) :
    (s.set_player p).player = p := rfl
@[simp] theorem Sys.set_player_reader (s : Sys) (p : Player) :
    (s.set_player p).reader = s.reader := rfl
@[simp] theorem Sys.set_player_decoders (s : Sys) (p : Player) :
    (s.set_player p).decoders = s.decoders := rfl
@[simp] theorem Sys.set_player_flush_served (s : Sys) (p : Player) :
    (s.set_player p).flush_served = s.flush_served := rfl
@[simp] theorem Sys.set_player_log (s : Sys) (p : Player) :
    (s.set_player p).log = s.log := rfl

theorem keeps_refl (t : MediaType) (s : Sys) : DecoderKeeps t s s :=
  ⟨rfl, fun _ _ => rfl, fun _ _ => rfl, rfl, rfl, fun _ => Or.inl ⟨rfl, rfl⟩, ⟨[], by simp⟩⟩

theorem keeps_trans {t : MediaType} {a b c : Sys} (h1 : DecoderKeeps t a b)
    (h2 : DecoderKeeps t b c) : DecoderKeeps t a c := by
  obtain ⟨e1, l1⟩ := h1.log
  obtain ⟨e2, l2⟩ := h2.log
  refine ⟨h2.reader.trans h1.reader, fun t' ht => (h2.decoders t' ht).trans (h1.decoders t' ht),
    fun t' ht => (h2.queues t' ht).trans (h1.queues t' ht), h2.seek.trans h1.seek,
    h2.ctxs.trans h1.ctxs, fun t' => ?_, ⟨e1 ++ e2, by rw [l2, l1]; simp⟩⟩
  rcases h2.flush t' with ⟨f1, f2⟩ | h
  · rcases h1.flush t' with ⟨g1, g2⟩ | ⟨g0, g1, g2⟩
    · exact Or.inl ⟨f1.trans g1, f2.trans g2⟩
    · exact Or.inr ⟨g0, f1.trans g1, f2.trans g2⟩
  · exact Or.inr h

theorem keeps_add (t : MediaType) (s : Sys) (evs : List Ev) :
    DecoderKeeps t s (s.add (Thread.decoder t) evs) :=
  ⟨rfl, fun _ _ => rfl, fun _ _ => rfl, rfl, rfl, fun _ => Or.inl ⟨rfl, rfl⟩, ⟨evs, rfl⟩⟩

theorem keeps_set_decoder (t : MediaType) (s : Sys) (d : Decoder) :
    DecoderKeeps t s (s.set_decoder t d) :=
  ⟨rfl, fun t' ht => by simp [Function.update_noteq ht], fun _ _ => rfl, rfl, rfl,
    fun _ => Or.inl ⟨rfl, rfl⟩, ⟨[], by simp⟩⟩

theorem keeps_set_player (t : MediaType) (s : Sys) (p : Player)
    (hq : ∀ t', t' ≠ t → p.packets_queue t' = s.player.packets_queue t')
    (hs : p.seek_position = s.player.seek_position)
    (hc : p.input_codec_ctxs = s.player.input_codec_ctxs)
    (hf : p.flush_streams = s.player.flush_streams) :
    DecoderKeeps t s (s.set_player p) :=
  ⟨rfl, fun _ _ => rfl, hq, hs, hc, fun t' => Or.inl ⟨by simp [hf], rfl⟩, ⟨[], by simp⟩⟩

theorem keeps_queue_pop_finish (t : MediaType) (s : Sys) :
    DecoderKeeps t s (s.set_player (queue_pop_finish s.player t)) := by
  apply keeps_set_player <;> simp only [queue_pop_finish] <;> cases s.player.packets_queue t <;>
    simp
  intro t' ht
  simp [Function.update_noteq ht]

theorem keeps_finish_decode (t : MediaType) (pd : PacketData) (err : Int) (s : Sys) :
    DecoderKeeps t s (decoder_finish_decode t pd err s) := by
  simp only [decoder_finish_decode]
  have k1 := keeps_add t s ((if !pd.end_of_stream then (av_free_packet pd.packet).2 else []) ++
    [Ev.lock Mutex.mutex_queue, Ev.cond_broadcast, Ev.unlock Mutex.mutex_queue])
  generalize s.add (Thread.decoder t) _ = s1 at k1 ⊢
  have k2 := keeps_trans k1 (keeps_queue_pop_finish t s1)
  generalize s1.set_player _ = s2 at k2 ⊢
  have k3 := keeps_trans k2 (keeps_add t s2 [Ev.lock Mutex.mutex_queue])
  generalize s2.add (Thread.decoder t) _ = s3 at k3 ⊢
  split_ifs
  · exact keeps_trans k3 (keeps_set_decoder t s3 _)
  · exact keeps_trans k3 (keeps_set_decoder t s3 _)

theorem keeps_finish_flush (t : MediaType) (s : Sys) :
    DecoderKeeps t s (decoder_finish_flush t s) := by
  simp only [decoder_finish_flush]
  split_ifs
  · have k1 := keeps_set_player t s
      { s.player with stop_streams := Function.update s.player.stop_streams t false }
      (fun _ _ => rfl) rfl rfl rfl
    generalize s.set_player _ = s1 at k1 ⊢
    exact keeps_trans (keeps_trans k1 (keeps_add t _ _)) (keeps_set_decoder t _ _)
  · have k1 : DecoderKeeps t s { s with
        player := { s.player with
          flush_streams := Function.update s.player.flush_streams t false }
        flush_served := Function.update s.flush_served t true } := by
      refine ⟨rfl, fun _ _ => rfl, fun _ _ => rfl, rfl, rfl, fun t' => ?_, ⟨[], by simp⟩⟩
      by_cases h : t' = t
      · subst h
        exact Or.inr ⟨rfl, by simp, by simp⟩
      · exact Or.inl ⟨by simp [Function.update_noteq h], by simp [Function.update_noteq h]⟩
    generalize ({ s with player := _, flush_served := _ } : Sys) = s1 at k1 ⊢
    exact keeps_trans (keeps_trans k1 (keeps_add t _ _)) (keeps_set_decoder t _ _)

theorem player_write_audio_clock_frame (p : Player) (pts sz now : Int) :
    (player_write_audio_clock p pts sz now).packets_queue = p.packets_queue ∧
    (player_write_audio_clock p pts sz now).seek_position = p.seek_position ∧
    (player_write_audio_clock p pts sz now).input_codec_ctxs = p.input_codec_ctxs ∧
    (player_write_audio_clock p pts sz now).flush_streams = p.flush_streams := by
  simp only [player_write_audio_clock]
  split_ifs
  · cases p.input_streams AVMEDIA_TYPE_AUDIO <;> exact ⟨rfl, rfl, rfl, rfl⟩
  · exact ⟨rfl, rfl, rfl, rfl⟩

theorem player_decode_audio_frame (p : Player) (o : AudioOutcome) :
    (player_decode_audio p o).2.1.packets_queue = p.packets_queue ∧
    (player_decode_audio p o).2.1.seek_position = p.seek_position ∧
    (player_decode_audio p o).2.1.input_codec_ctxs = p.input_codec_ctxs ∧
    (player_decode_audio p o).2.1.flush_streams = p.flush_streams := by
  cases o with
  | written pts sz now ret exc =>
    simp only [player_decode_audio]
    split_ifs <;> exact player_write_audio_clock_frame p pts sz now
  | _ => exact ⟨rfl, rfl, rfl, rfl⟩

theorem keeps_flush (t : MediaType) (s : Sys) : DecoderKeeps t s (decoder_flush t s) := by
  simp only [decoder_flush]
  cases hq : s.player.packets_queue t with
  | none => exact keeps_set_decoder t s _
  | some q =>
    simp only []
    have k1 := keeps_set_player t s
      { s.player with packets_queue := Function.update s.player.packets_queue t (some q.emptied) }
      (fun t' ht => by simp [Function.update_noteq ht]) rfl rfl rfl
    have k2 := keeps_trans k1 (keeps_add t _ (drain_calls q.used))
    have e1 : ((s.set_player { s.player with
        packets_queue := Function.update s.player.packets_queue t (some q.emptied) }).add
        (Thread.decoder t) (drain_calls q.used)).player = { s.player with
        packets_queue := Function.update s.player.packets_queue t (some q.emptied) } := rfl
    generalize (s.set_player _).add (Thread.decoder t) _ = s1 at k2 e1 ⊢
    split_ifs
    · exact keeps_trans (keeps_trans k2 (keeps_add t _ _)) (keeps_finish_flush t _)
    · refine keeps_trans (keeps_trans k2 (keeps_set_player t s1 _ ?_ ?_ ?_ ?_))
        (keeps_finish_flush t _)
      · intro _ _; rw [e1]
      · rw [e1]
      · rw [e1]
      · rw [e1]
    · refine keeps_trans (keeps_trans (keeps_trans k2 (keeps_set_player t s1 _ ?_ ?_ ?_ ?_))
        (keeps_add t _ _)) (keeps_set_decoder t _ _)
      · intro _ _; rw [e1]
      · rw [e1]
      · rw [e1]
      · rw [e1]
    · exact keeps_trans k2 (keeps_finish_flush t _)

theorem keeps_decode (t : MediaType) (o : DecoderOracle) (pd : PacketData) (s : Sys) :
    DecoderKeeps t s (decoder_decode t o pd s) := by
  simp only [decoder_decode]
  split_ifs
  · obtain ⟨h1, h2, h3, h4⟩ := player_decode_audio_frame s.player o.audio
    exact keeps_trans (keeps_trans (keeps_set_player t s _ (fun _ _ => by rw [h1]) h2 h3 h4)
      (keeps_add t _ _)) (keeps_finish_decode t pd _ _)
  · exact keeps_trans (keeps_add t _ _) (keeps_set_decoder t _ _)
  · cases o.video with
    | decode_error => exact keeps_finish_decode t pd _ s
    | not_finished => exact keeps_finish_decode t pd _ s
    | frame time lock_ok => exact keeps_trans (keeps_add t _ _) (keeps_set_decoder t _ _)
  · exact keeps_finish_decode t pd _ s

theorem keeps_push_rgb (t : MediaType) (elem : VideoRGBFrameElem) (err : Int) (pd : PacketData)
    (s : Sys) : DecoderKeeps t s (decoder_push_rgb t elem err pd s) := by
  simp only [decoder_push_rgb]
  cases s.player.rgb_video_queue with
  | none => exact keeps_set_decoder t s _
  | some q =>
    cases player_decode_queue_check s.player t with
    | skip msg => exact keeps_trans (keeps_add t _ _) (keeps_finish_decode t pd _ _)
    | wait => exact keeps_refl t s
    | test =>
      simp only []
      split_ifs
      · have k1 := keeps_set_player t s { s.player with rgb_video_queue := some (q.pushed elem) }
          (fun _ _ => rfl) rfl rfl rfl
        generalize s.set_player _ = s1 at k1 ⊢
        exact keeps_trans (keeps_trans k1 (keeps_add t _ _)) (keeps_finish_decode t pd _ _)
      · exact keeps_refl t s

theorem keeps_skip (t : MediaType) (msg : Nat) (s : Sys) :
    DecoderKeeps t s (decoder_skip t msg s) := by
  simp only [decoder_skip]
  split_ifs <;> exact keeps_set_decoder t s _

theorem keeps_decoder_step (t : MediaType) (o : DecoderOracle) (s : Sys) :
    DecoderKeeps t s (decoder_step t o s) := by
  simp only [decoder_step]
  cases (s.decoders t).pc with
  | top =>
    simp only []
    split_ifs
    · cases player_decode_queue_check s.player t with
      | skip msg => exact keeps_skip t msg s
      | wait => exact keeps_add t s _
      | test => exact keeps_add t s _
    · exact keeps_set_decoder t s _
  | pop =>
    simp only []
    cases player_decode_queue_check s.player t with
    | skip msg => exact keeps_skip t msg s
    | wait => exact keeps_refl t s
    | test =>
      simp only []
      cases s.player.packets_queue t with
      | none => exact keeps_set_decoder t s _
      | some q =>
        simp only []
        cases q.used with
        | nil => exact keeps_refl t s
        | cons pd _ => exact keeps_trans (keeps_add t _ _) (keeps_set_decoder t _ _)
  | decode =>
    simp only []
    cases (s.decoders t).packet_data with
    | none => exact keeps_set_decoder t s _
    | some pd => exact keeps_decode t o pd s
  | push_rgb elem err =>
    simp only []
    cases (s.decoders t).packet_data with
    | none => exact keeps_set_decoder t s _
    | some pd => exact keeps_push_rgb t elem err pd s
  | flush => exact keeps_flush t s
  | flush_wait =>
    simp only []
    split_ifs
    · exact keeps_refl t s
    · exact keeps_finish_flush t s
  | done => exact keeps_refl t s
  | crashed => exact keeps_refl t s

theorem rk_same (o : ReaderOracle) (s : Sys) : ReaderKeeps o s s :=
  ⟨rfl, rfl, fun _ q h => ⟨q, h, fun _ hx => hx⟩, ⟨[], by simp⟩,
    Or.inl ⟨rfl, rfl, rfl, fun h => h⟩⟩

theorem rk_reader (o : ReaderOracle) (s s' : Sys) (hp : s'.player = s.player)
    (hd : s'.decoders = s.decoders) (hs : s'.flush_served = s.flush_served)
    (hl : ∃ evs : List Ev, s'.log = s.log ++ evs.map fun e => (Thread.reader, e))
    (hpc : s'.reader.pc ≠ RPc.seek_wait) : ReaderKeeps o s s' :=
  ⟨hd, by rw [hp], fun _ q h => ⟨q, by rw [hp]; exact h, fun _ hx => hx⟩, hl,
    Or.inl ⟨by rw [hp], by rw [hp], hs, fun h => absurd h hpc⟩⟩

theorem rk_reader_at (o : ReaderOracle) (s : Sys) (pc : RPc) (hpc : pc ≠ RPc.seek_wait) :
    ReaderKeeps o s (s.reader_at pc) :=
  rk_reader o s _ rfl rfl rfl ⟨[], by simp [Sys.reader_at]⟩ hpc

theorem rk_skip_loop (o : ReaderOracle) (s : Sys) : ReaderKeeps o s (reader_skip_loop s) :=
  rk_reader o s _ rfl rfl rfl ⟨_, rfl⟩ (by simp [reader_skip_loop])

theorem rk_push (o : ReaderOracle) (s s' : Sys) (i : MediaType) (q : Queue PacketData)
    (slot : PacketData) (hq : s.player.packets_queue i = some q)
    (hp : s'.player = { s.player with
      packets_queue := Function.update s.player.packets_queue i (some ⟨q.capacity, q.used ++ [slot]⟩) })
    (hd : s'.decoders = s.decoders) (hs : s'.flush_served = s.flush_served)
    (hl : ∃ evs : List Ev, s'.log = s.log ++ evs.map fun e => (Thread.reader, e))
    (hpc : s'.reader.pc ≠ RPc.seek_wait) : ReaderKeeps o s s' := by
  refine ⟨hd, by rw [hp], fun t q0 h => ?_, hl,
    Or.inl ⟨by rw [hp], by rw [hp], hs, fun h => absurd h hpc⟩⟩
  rw [hp]
  by_cases ht : t = i
  · subst ht
    rw [hq] at h
    cases h
    exact ⟨⟨q.capacity, q.used ++ [slot]⟩, by simp, fun x hx => List.mem_append_left _ hx⟩
  · exact ⟨q0, by simp [Function.update_noteq ht, h], fun _ hx => hx⟩

theorem rk_reader_step (o : ReaderOracle) (s : Sys) : ReaderKeeps o s (reader_step o s) := by
  simp only [reader_step]
  cases hpc : s.reader.pc with
  | top =>
    simp only []
    split_ifs
    · exact rk_reader o s _ rfl rfl rfl ⟨[], by simp⟩ (by simp)
    · exact rk_same o s
    · exact rk_reader_at o s _ (by simp)
  | read =>
    simp only []
    cases o.read with
    | none => exact rk_reader o s _ rfl rfl rfl ⟨_, rfl⟩ (by simp)
    | some i =>
      refine rk_reader o s _ rfl rfl rfl ⟨_, rfl⟩ ?_
      simp only []
      split_ifs <;> simp
  | eof_push =>
    simp only []
    cases hq : s.player.packets_queue AVMEDIA_TYPE_VIDEO with
    | none => exact rk_reader_at o s _ (by simp)
    | some q =>
      simp only []
      cases player_read_stream_check s.player with
      | skip msg =>
        simp only []
        split_ifs
        · exact rk_reader_at o s _ (by simp)
        · exact rk_reader o s _ rfl rfl rfl ⟨[], by simp⟩ (by simp)
      | wait => exact rk_same o s
      | test =>
        simp only []
        split_ifs
        · exact rk_push o s _ AVMEDIA_TYPE_VIDEO q _ hq rfl rfl rfl ⟨_, rfl⟩ (by simp)
        · exact rk_same o s
  | eof_wait =>
    simp only []
    split_ifs
    · exact rk_reader_at o s _ (by simp)
    · exact rk_reader o s _ rfl rfl rfl ⟨[], by simp⟩ (by simp)
    · exact rk_same o s
  | parse_frame =>
    simp only []
    cases mediaTypes.find? fun i => decide (s.reader.packet.stream_index = s.player.stream_indexs i) with
    | none => exact rk_skip_loop o s
    | some i =>
      simp only []
      split_ifs
      · exact rk_reader_at o s _ (by simp)
      · exact rk_skip_loop o s
  | push i =>
    simp only []
    cases hq : s.player.packets_queue i with
    | none => exact rk_reader_at o s _ (by simp)
    | some q =>
      simp only []
      cases player_read_stream_check s.player with
      | skip msg =>
        simp only []
        split_ifs
        · exact rk_reader_at o s _ (by simp)
        · exact rk_reader_at o s _ (by simp)
      | wait => exact rk_same o s
      | test =>
        simp only []
        split_ifs
        · cases av_dup_packet s.reader.packet s.next_payload o.dup_ok with
          | none => exact rk_reader o s _ rfl rfl rfl ⟨_, rfl⟩ (by simp)
          | some stored => exact rk_push o s _ i q _ hq rfl rfl rfl ⟨_, rfl⟩ (by simp)
        · exact rk_same o s
  | exit_loop =>
    exact ⟨rfl, rfl, fun _ q h => ⟨q, h, fun _ hx => hx⟩, ⟨_, rfl⟩,
      Or.inl ⟨rfl, rfl, rfl, fun h => by simp at h⟩⟩
  | exit_wait =>
    simp only []
    split_ifs
    · exact rk_reader o s _ rfl rfl rfl ⟨_, rfl⟩ (by simp)
    · exact rk_same o s
  | seek_loop =>
    simp only []
    cases s.player.input_streams AVMEDIA_TYPE_VIDEO with
    | none => exact rk_reader_at o s _ (by simp)
    | some seek_stream =>
      simp only []
      cases hok : o.seek_ok with
      | false =>
        exact ⟨rfl, rfl, fun _ q h => ⟨q, h, fun _ hx => hx⟩, ⟨_, rfl⟩,
          Or.inr (Or.inl ⟨hpc, hok, rfl, rfl, rfl⟩)⟩
      | true =>
        exact ⟨rfl, rfl, fun _ q h => ⟨q, h, fun _ hx => hx⟩, ⟨_, rfl⟩,
          Or.inr (Or.inr (Or.inl ⟨hpc, hok, rfl, rfl, rfl⟩))⟩
  | seek_wait =>
    simp only []
    split_ifs with hall
    · exact ⟨rfl, rfl, fun _ q h => ⟨q, h, fun _ hx => hx⟩,
        ⟨(flush_buffers_calls s.player ++ [Ev.cond_broadcast]) ++
          ((av_free_packet s.reader.packet).2 ++ [Ev.unlock Mutex.mutex_queue]),
          by simp [reader_skip_loop]⟩,
        Or.inr (Or.inr (Or.inr ⟨hpc, hall, rfl, rfl, rfl⟩))⟩
    · exact rk_same o s
  | done => exact rk_same o s
  | crashed => exact rk_same o s

/-! ## The bookkeeping of a seek -/

theorem host_step_seek (a : HostAction) (s : Sys) :
    (∃ position, a = HostAction.seek position) ∨
      (host_step a s).player.seek_position = s.player.seek_position := by
  cases a with
  | seek position => exact Or.inl ⟨position, rfl⟩
  | signal_stop => exact Or.inr rfl
  | pause c =>
    right
    simp only [host_step, jni_player_pause, update_external_clock_pts]
    split_ifs <;> rfl
  | resume c =>
    right
    simp only [host_step, jni_player_resume, update_external_clock_pts]
    split_ifs <;> rfl
  | render_frame_start =>
    right
    simp only [host_step, jni_player_render_frame_start]
    split_ifs <;> rfl
  | render_frame_stop =>
    right
    simp only [host_step, jni_player_render_frame_stop]
    split_ifs <;> rfl
  | render_flush =>
    right
    simp only [host_step]
    split_ifs <;> rfl
  | render_take => exact Or.inr rfl

theorem all_flags_clear (p : Player) (array : MediaType → Bool)
    (h : player_if_all_no_array_elements_has_value p array false = true) (t : MediaType)
    (ht : (p.input_codec_ctxs t).isSome = true) : array t = false := by
  simp only [player_if_all_no_array_elements_has_value, List.all_eq_true] at h
  have := h t (mem_mediaTypes t)
  simp [ht] at this
  exact this

theorem flushServed_init (p : Player) : FlushServed (Sys.init p) := by
  intro h
  simp only [Sys.init] at h
  split_ifs at h

theorem flushServed_step (s : Sys) (a : Action) (h : FlushServed s) : FlushServed (s.step a) := by
  cases a with
  | reader o =>
    have k := rk_reader_step o s
    simp only [Sys.step]
    rcases k.seek with ⟨_, f, g, hpc⟩ | ⟨_, _, hpc, _⟩ | ⟨_, _, _, f, _⟩ | ⟨_, _, hpc, _⟩
    · intro h1 t ht hf
      rw [k.ctxs] at ht
      rw [f] at hf
      rw [g]
      exact h (hpc h1) t ht hf
    · intro h1; rw [hpc] at h1; cases h1
    · intro _ t ht hf
      rw [k.ctxs] at ht
      rw [f, player_assign_value, if_pos ht] at hf
      cases hf
    · intro h1; rw [hpc] at h1; cases h1
  | decoder t o =>
    have k := keeps_decoder_step t o s
    simp only [Sys.step]
    intro h1 t' ht hf
    rw [k.reader] at h1
    rw [k.ctxs] at ht
    rcases k.flush t' with ⟨f, g⟩ | ⟨_, _, g⟩
    · rw [f] at hf
      rw [g]
      exact h h1 t' ht hf
    · exact g
  | host a =>
    obtain ⟨e1, _, _, e4, _, e6, e7⟩ := host_step_frame a s
    simp only [Sys.step]
    intro h1 t ht hf
    rw [e1] at h1
    rw [e6] at ht
    rw [e4] at hf
    rw [e7]
    exact h h1 t ht hf

theorem flushServed_run (acts : List Action) (s : Sys) (h : FlushServed s) :
    FlushServed (s.run acts) := by
  induction acts generalizing s with
  | nil => exact h
  | cons a acts ih => exact ih (s.step a) (flushServed_step s a h)

theorem seek_pending_congr (p q : Player) (h : q.seek_position = p.seek_position) :
    seek_pending q = seek_pending p := by
  simp only [seek_pending, h]

/-! ## What a decoder releases -/

theorem av_free_packet_owns (pkt : AVPacket) (d : Nat)
    (h : Ev.av_free_packet d ∈ (av_free_packet pkt).2) : Owns d pkt := by
  rcases pkt with ⟨data, destruct, idx⟩
  cases destruct <;> cases data <;> simp [av_free_packet] at h
  subst h
  exact ⟨rfl, rfl⟩

theorem drain_calls_owns (slots : List PacketData) (d : Nat)
    (h : Ev.av_free_packet d ∈ drain_calls slots) : ∃ pd ∈ slots, Owns d pd.packet := by
  simp only [drain_calls, List.mem_flatMap, List.mem_filter] at h
  obtain ⟨pd, ⟨hm, _⟩, hd⟩ := h
  exact ⟨pd, hm, av_free_packet_owns pd.packet d hd⟩

theorem player_decode_audio_calls (p : Player) (o : AudioOutcome) (d : Nat) :
    Ev.av_free_packet d ∉ (player_decode_audio p o).2.2 := by
  cases o with
  | written pts sz now ret exc =>
    simp only [player_decode_audio]
    split_ifs <;> simp
  | _ => simp [player_decode_audio]

theorem frees_refl (t : MediaType) (s : Sys) : DecoderFrees t s s :=
  ⟨rfl, fun q' h => ⟨q', h, fun _ hx => hx⟩, fun _ h => Or.inl h,
    ⟨[], by simp, fun _ h => by simp at h⟩⟩

theorem releasable_back {t : MediaType} {a b : Sys} (h : DecoderFrees t a b) (d : Nat)
    (hd : Releasable t b d) : Releasable t a d := by
  rcases hd with ⟨pd, hpd, ho⟩ | ⟨q', pd, hq, hm, ho⟩
  · rcases h.inflight pd hpd with h1 | ⟨q, hq, hm⟩
    · exact Or.inl ⟨pd, h1, ho⟩
    · exact Or.inr ⟨q, pd, hq, hm, ho⟩
  · obtain ⟨q, hq0, hsub⟩ := h.own_queue q' hq
    exact Or.inr ⟨q, pd, hq0, hsub pd hm, ho⟩

theorem frees_trans {t : MediaType} {a b c : Sys} (h1 : DecoderFrees t a b)
    (h2 : DecoderFrees t b c) : DecoderFrees t a c := by
  obtain ⟨e1, l1, f1⟩ := h1.log
  obtain ⟨e2, l2, f2⟩ := h2.log
  refine ⟨h2.payload.trans h1.payload, fun q' hq' => ?_, fun pd hpd => ?_,
    ⟨e1 ++ e2, by rw [l2, l1]; simp, fun d hd => ?_⟩⟩
  · obtain ⟨q1, hq1, s1⟩ := h2.own_queue q' hq'
    obtain ⟨q0, hq0, s0⟩ := h1.own_queue q1 hq1
    exact ⟨q0, hq0, fun pd hm => s0 pd (s1 pd hm)⟩
  · rcases h2.inflight pd hpd with h | ⟨q1, hq1, hm⟩
    · exact h1.inflight pd h
    · obtain ⟨q0, hq0, s0⟩ := h1.own_queue q1 hq1
      exact Or.inr ⟨q0, hq0, s0 pd hm⟩
  · rcases List.mem_append.mp hd with h | h
    · exact f1 d h
    · exact releasable_back h1 d (f2 d h)

theorem frees_add (t : MediaType) (s : Sys) (evs : List Ev)
    (h : ∀ d, Ev.av_free_packet d ∈ evs → Releasable t s d) :
    DecoderFrees t s (s.add (Thread.decoder t) evs) :=
  ⟨rfl, fun q' hq => ⟨q', hq, fun _ hx => hx⟩, fun _ hpd => Or.inl hpd, ⟨evs, rfl, h⟩⟩

theorem frees_set_decoder (t : MediaType) (s : Sys) (d : Decoder)
    (h : ∀ pd, d.packet_data = some pd → (s.decoders t).packet_data = some pd ∨
      ∃ q, s.player.packets_queue t = some q ∧ pd ∈ q.used) :
    DecoderFrees t s (s.set_decoder t d) :=
  ⟨rfl, fun q' hq => ⟨q', hq, fun _ hx => hx⟩, fun pd hpd => h pd (by simpa using hpd),
    ⟨[], by simp, fun _ h => by simp at h⟩⟩

theorem frees_set_player (t : MediaType) (s : Sys) (p : Player)
    (h : ∀ q', p.packets_queue t = some q' →
      ∃ q, s.player.packets_queue t = some q ∧ ∀ pd ∈ q'.used, pd ∈ q.used) :
    DecoderFrees t s (s.set_player p) :=
  ⟨rfl, h, fun _ hpd => Or.inl hpd, ⟨[], by simp, fun _ h => by simp at h⟩⟩

theorem frees_queue_pop_finish (t : MediaType) (s : Sys) :
    DecoderFrees t s (s.set_player (queue_pop_finish s.player t)) := by
  apply frees_set_player
  intro q' hq'
  simp only [queue_pop_finish] at hq'
  cases hq : s.player.packets_queue t with
  | none => rw [hq] at hq'; simp only [] at hq'; rw [hq] at hq'; cases hq'
  | some q =>
    rw [hq] at hq'
    simp at hq'
    subst hq'
    exact ⟨q, rfl, fun pd hm => List.mem_of_mem_tail hm⟩

theorem frees_finish_decode (t : MediaType) (pd : PacketData) (err : Int) (s : Sys)
    (hpd : (s.decoders t).packet_data = some pd) :
    DecoderFrees t s (decoder_finish_decode t pd err s) := by
  simp only [decoder_finish_decode]
  have k1 := frees_add t s ((if !pd.end_of_stream then (av_free_packet pd.packet).2 else []) ++
    [Ev.lock Mutex.mutex_queue, Ev.cond_broadcast, Ev.unlock Mutex.mutex_queue]) (by
      intro d hd
      simp only [List.mem_append, List.mem_cons, List.mem_singleton, reduceCtorEq, or_false,
        List.not_mem_nil] at hd
      split_ifs at hd
      · exact Or.inl ⟨pd, hpd, av_free_packet_owns pd.packet d hd⟩
      · simp at hd)
  generalize s.add (Thread.decoder t) _ = s1 at k1 ⊢
  have k2 := frees_trans k1 (frees_queue_pop_finish t s1)
  generalize s1.set_player _ = s2 at k2 ⊢
  have k3 := frees_trans k2 (frees_add t s2 [Ev.lock Mutex.mutex_queue] (by simp))
  generalize s2.add (Thread.decoder t) _ = s3 at k3 ⊢
  split_ifs
  · exact frees_trans k3 (frees_set_decoder t s3 _ (by simp))
  · exact frees_trans k3 (frees_set_decoder t s3 _ (by simp))

theorem frees_finish_flush (t : MediaType) (s : Sys) :
    DecoderFrees t s (decoder_finish_flush t s) := by
  simp only [decoder_finish_flush]
  split_ifs
  · have k1 := frees_set_player t s
      { s.player with stop_streams := Function.update s.player.stop_streams t false }
      (fun q' h => ⟨q', h, fun _ hx => hx⟩)
    have e1 : ((s.set_player
      { s.player with stop_streams := Function.update s.player.stop_streams t false }).decoders
        t).packet_data = (s.decoders t).packet_data := rfl
    generalize s.set_player _ = s1 at k1 e1 ⊢
    refine frees_trans (frees_trans k1 (frees_add t _ _ (by simp))) (frees_set_decoder t _ _ ?_)
    intro pd hpd
    exact Or.inl (by rw [← hpd]; exact e1)
  · have k1 : DecoderFrees t s { s with
        player := { s.player with
          flush_streams := Function.update s.player.flush_streams t false }
        flush_served := Function.update s.flush_served t true } :=
      ⟨rfl, fun q' h => ⟨q', h, fun _ hx => hx⟩, fun _ hpd => Or.inl hpd,
        ⟨[], by simp, fun _ h => by simp at h⟩⟩
    have e1 : (({ s with
        player := { s.player with
          flush_streams := Function.update s.player.flush_streams t false }
        flush_served := Function.update s.flush_served t true } : Sys).decoders t).packet_data =
        (s.decoders t).packet_data := rfl
    generalize ({ s with player := _, flush_served := _ } : Sys) = s1 at k1 e1 ⊢
    refine frees_trans (frees_trans k1 (frees_add t _ _ (by simp))) (frees_set_decoder t _ _ ?_)
    intro pd hpd
    exact Or.inl (by rw [← hpd]; exact e1)

theorem frees_flush (t : MediaType) (s : Sys) : DecoderFrees t s (decoder_flush t s) := by
  simp only [decoder_flush]
  cases hq : s.player.packets_queue t with
  | none => exact frees_set_decoder t s _ (fun _ h => Or.inl h)
  | some q =>
    simp only []
    have k1 := frees_set_player t s
      { s.player with packets_queue := Function.update s.player.packets_queue t (some q.emptied) }
      (fun q' h => ⟨q, hq, fun pd hm => by
        simp at h
        subst h
        simp [Queue.emptied] at hm⟩)
    have k2 : DecoderFrees t s ((s.set_player { s.player with
        packets_queue := Function.update s.player.packets_queue t (some q.emptied) }).add
        (Thread.decoder t) (drain_calls q.used)) :=
      ⟨rfl, k1.own_queue, fun _ hpd => Or.inl hpd, ⟨_, rfl, fun d hd => by
        obtain ⟨pd, hm, ho⟩ := drain_calls_owns q.used d hd
        exact Or.inr ⟨q, pd, hq, hm, ho⟩⟩⟩
    have e1 : ((s.set_player { s.player with
        packets_queue := Function.update s.player.packets_queue t (some q.emptied) }).add
        (Thread.decoder t) (drain_calls q.used)).player = { s.player with
        packets_queue := Function.update s.player.packets_queue t (some q.emptied) } := rfl
    have e2 : (((s.set_player { s.player with
        packets_queue := Function.update s.player.packets_queue t (some q.emptied) }).add
        (Thread.decoder t) (drain_calls q.used)).decoders t).packet_data =
        (s.decoders t).packet_data := rfl
    generalize (s.set_player _).add (Thread.decoder t) _ = s1 at k2 e1 e2 ⊢
    have hsame : ∀ p1 : Player, p1.packets_queue = s1.player.packets_queue →
        DecoderFrees t s1 (s1.set_player p1) := fun p1 h =>
      frees_set_player t s1 p1 (fun q' hq' => ⟨q', by rw [← h]; exact hq', fun _ hx => hx⟩)
    split_ifs
    · exact frees_trans (frees_trans k2 (frees_add t _ _ (by simp))) (frees_finish_flush t _)
    · exact frees_trans (frees_trans k2 (hsame _ (by rw [e1]))) (frees_finish_flush t _)
    · refine frees_trans (frees_trans (frees_trans k2 (hsame _ (by rw [e1])))
        (frees_add t _ _ (by simp))) (frees_set_decoder t _ _ ?_)
      intro pd hpd
      exact Or.inl (by rw [← hpd]; exact e2)
    · exact frees_trans k2 (frees_finish_flush t _)

theorem frees_decode (t : MediaType) (o : DecoderOracle) (pd : PacketData) (s : Sys)
    (hpd : (s.decoders t).packet_data = some pd) :
    DecoderFrees t s (decoder_decode t o pd s) := by
  simp only [decoder_decode]
  split_ifs
  · have k1 := frees_set_player t s (player_decode_audio s.player o.audio).2.1
      (fun q' h => ⟨q', by rw [← (player_decode_audio_frame s.player o.audio).1]; exact h,
        fun _ hx => hx⟩)
    have e1 : ((s.set_player (player_decode_audio s.player o.audio).2.1).decoders t).packet_data =
        some pd := hpd
    generalize s.set_player _ = s1 at k1 e1 ⊢
    exact frees_trans (frees_trans k1 (frees_add t _ _
      (fun d hd => absurd hd (player_decode_audio_calls s.player o.audio d))))
      (frees_finish_decode t pd _ _ e1)
  · exact frees_trans (frees_add t _ _ (by simp)) (frees_set_decoder t _ _ (fun _ h => Or.inl h))
  · cases o.video with
    | decode_error => exact frees_finish_decode t pd _ s hpd
    | not_finished => exact frees_finish_decode t pd _ s hpd
    | frame time lock_ok =>
      exact frees_trans (frees_add t _ _ (by simp))
        (frees_set_decoder t _ _ (fun _ h => Or.inl h))
  · exact frees_finish_decode t pd _ s hpd

theorem frees_push_rgb (t : MediaType) (elem : VideoRGBFrameElem) (err : Int) (pd : PacketData)
    (s : Sys) (hpd : (s.decoders t).packet_data = some pd) :
    DecoderFrees t s (decoder_push_rgb t elem err pd s) := by
  simp only [decoder_push_rgb]
  cases s.player.rgb_video_queue with
  | none => exact frees_set_decoder t s _ (fun _ h => Or.inl h)
  | some q =>
    cases player_decode_queue_check s.player t with
    | skip msg =>
      exact frees_trans (frees_add t _ _ (by simp)) (frees_finish_decode t pd _ _ hpd)
    | wait => exact frees_refl t s
    | test =>
      simp only []
      split_ifs
      · have k1 := frees_set_player t s
          { s.player with rgb_video_queue := some (q.pushed elem) }
          (fun q' h => ⟨q', h, fun _ hx => hx⟩)
        have e1 : ((s.set_player
            { s.player with rgb_video_queue := some (q.pushed elem) }).decoders t).packet_data =
            some pd := hpd
        generalize s.set_player _ = s1 at k1 e1 ⊢
        exact frees_trans (frees_trans k1 (frees_add t _ _ (by simp)))
          (frees_finish_decode t pd _ _ e1)
      · exact frees_refl t s

theorem frees_skip (t : MediaType) (msg : Nat) (s : Sys) :
    DecoderFrees t s (decoder_skip t msg s) := by
  simp only [decoder_skip]
  split_ifs <;> exact frees_set_decoder t s _ (fun _ h => Or.inl h)

theorem frees_decoder_step (t : MediaType) (o : DecoderOracle) (s : Sys) :
    DecoderFrees t s (decoder_step t o s) := by
  simp only [decoder_step]
  cases hpc : (s.decoders t).pc with
  | top =>
    simp only []
    split_ifs
    · cases player_decode_queue_check s.player t with
      | skip msg => exact frees_skip t msg s
      | wait => exact frees_add t s _ (by simp)
      | test => exact frees_add t s _ (by simp)
    · exact frees_set_decoder t s _ (fun _ h => Or.inl h)
  | pop =>
    simp only []
    cases player_decode_queue_check s.player t with
    | skip msg => exact frees_skip t msg s
    | wait => exact frees_refl t s
    | test =>
      simp only []
      cases hq : s.player.packets_queue t with
      | none => exact frees_set_decoder t s _ (fun _ h => Or.inl h)
      | some q =>
        simp only []
        cases hu : q.used with
        | nil => exact frees_refl t s
        | cons pd rest =>
          refine frees_trans (frees_add t _ _ (by simp)) (frees_set_decoder t _ _ ?_)
          intro pd1 h1
          simp at h1
          subst h1
          exact Or.inr ⟨q, hq, by simp [hu]⟩
  | decode =>
    simp only []
    cases hpd : (s.decoders t).packet_data with
    | none => exact frees_set_decoder t s _ (fun _ h => Or.inl (by simp [hpd] at h))
    | some pd => exact frees_decode t o pd s hpd
  | push_rgb elem err =>
    simp only []
    cases hpd : (s.decoders t).packet_data with
    | none => exact frees_set_decoder t s _ (fun _ h => Or.inl (by simp [hpd] at h))
    | some pd => exact frees_push_rgb t elem err pd s hpd
  | flush => exact frees_flush t s
  | flush_wait =>
    simp only []
    split_ifs
    · exact frees_refl t s
    · exact frees_finish_flush t s
  | done => exact frees_refl t s
  | crashed => exact frees_refl t s

/-! ## What the reader commits -/

theorem av_dup_packet_cases (pkt stored : AVPacket) (fresh : Nat) (ok : Bool)
    (h : av_dup_packet pkt fresh ok = some stored) :
    stored.data = some fresh ∨ stored = pkt := by
  simp only [av_dup_packet] at h
  split_ifs at h
  · simp at h
    subst h
    exact Or.inl rfl
  · simp at h
    exact Or.inr h.symm

theorem rc_same (s : Sys) : ReaderCarries s s :=
  ⟨le_refl _, fun h => Or.inl ⟨h, rfl⟩, fun _ q' h => ⟨q', h, fun _ hm => Or.inl hm⟩⟩

theorem rc_of (s s' : Sys) (hn : s.next_payload ≤ s'.next_payload)
    (hq : s'.player.packets_queue = s.player.packets_queue)
    (hpk : s'.reader.pc.carries = true →
      (s.reader.pc.carries = true ∧ s'.reader.packet = s.reader.packet) ∨
        s'.reader.packet.destruct = false ∨ s'.reader.packet.data = some s.next_payload) :
    ReaderCarries s s' :=
  ⟨hn, hpk, fun _ q' h => ⟨q', by rw [← hq]; exact h, fun _ hm => Or.inl hm⟩⟩

theorem rc_reader_at (s : Sys) (pc : RPc)
    (h : pc.carries = true → s.reader.pc.carries = true) : ReaderCarries s (s.reader_at pc) :=
  rc_of s _ (le_refl _) rfl (fun h1 => Or.inl ⟨h h1, rfl⟩)

theorem rc_skip_loop (s : Sys) : ReaderCarries s (reader_skip_loop s) :=
  rc_of s _ (le_refl _) rfl (fun h => by simp [reader_skip_loop, RPc.carries] at h)

theorem rc_push (s s' : Sys) (i : MediaType) (q : Queue PacketData) (slot : PacketData)
    (hq : s.player.packets_queue i = some q)
    (hp : s'.player.packets_queue =
      Function.update s.player.packets_queue i (some ⟨q.capacity, q.used ++ [slot]⟩))
    (hn : s.next_payload ≤ s'.next_payload) (hpc : s'.reader.pc.carries = false)
    (hslot : slot.packet.destruct = false ∨ slot.packet.data = some s.next_payload ∨
      (s.reader.pc.carries = true ∧ slot.packet = s.reader.packet)) :
    ReaderCarries s s' := by
  refine ⟨hn, fun h => (by rw [hpc] at h; cases h), fun t q' h => ?_⟩
  rw [hp] at h
  by_cases ht : t = i
  · subst ht
    simp at h
    subst h
    refine ⟨q, hq, fun pd hm => ?_⟩
    rcases List.mem_append.mp hm with h1 | h1
    · exact Or.inl h1
    · simp at h1
      subst h1
      exact Or.inr hslot
  · rw [Function.update_noteq ht] at h
    exact ⟨q', h, fun _ hm => Or.inl hm⟩

theorem rc_reader_step (o : ReaderOracle) (s : Sys) : ReaderCarries s (reader_step o s) := by
  simp only [reader_step]
  cases hpc : s.reader.pc with
  | top =>
    simp only []
    split_ifs
    · exact rc_of s _ (le_refl _) rfl (fun _ => Or.inr (Or.inl rfl))
    · exact rc_same s
    · exact rc_reader_at s _ (fun h => by simp [RPc.carries] at h)
  | read =>
    simp only []
    cases o.read with
    | none => exact rc_of s _ (le_refl _) rfl (fun h => by simp [RPc.carries] at h)
    | some i => exact rc_of s _ (Nat.le_succ _) rfl (fun _ => Or.inr (Or.inr rfl))
  | eof_push =>
    simp only []
    cases hq : s.player.packets_queue AVMEDIA_TYPE_VIDEO with
    | none => exact rc_reader_at s _ (fun h => by simp [RPc.carries] at h)
    | some q =>
      simp only []
      cases player_read_stream_check s.player with
      | skip msg =>
        simp only []
        split_ifs
        · exact rc_reader_at s _ (fun h => by simp [RPc.carries] at h)
        · exact rc_of s _ (le_refl _) rfl (fun _ => Or.inr (Or.inl rfl))
      | wait => exact rc_same s
      | test =>
        simp only []
        split_ifs
        · exact rc_push s _ AVMEDIA_TYPE_VIDEO q _ hq rfl (le_refl _) rfl (Or.inl rfl)
        · exact rc_same s
  | eof_wait =>
    simp only []
    split_ifs
    · exact rc_reader_at s _ (fun h => by simp [RPc.carries] at h)
    · exact rc_of s _ (le_refl _) rfl (fun _ => Or.inr (Or.inl rfl))
    · exact rc_same s
  | parse_frame =>
    simp only []
    cases mediaTypes.find? fun i => decide (s.reader.packet.stream_index = s.player.stream_indexs i) with
    | none => exact rc_skip_loop s
    | some i =>
      simp only []
      split_ifs
      · exact rc_reader_at s _ (fun _ => by rw [hpc]; rfl)
      · exact rc_skip_loop s
  | push i =>
    simp only []
    cases hq : s.player.packets_queue i with
    | none => exact rc_reader_at s _ (fun h => by simp [RPc.carries] at h)
    | some q =>
      simp only []
      cases player_read_stream_check s.player with
      | skip msg =>
        simp only []
        split_ifs
        · exact rc_reader_at s _ (fun h => by simp [RPc.carries] at h)
        · exact rc_reader_at s _ (fun _ => by rw [hpc]; rfl)
      | wait => exact rc_same s
      | test =>
        simp only []
        split_ifs
        · cases hdup : av_dup_packet s.reader.packet s.next_payload o.dup_ok with
          | none => exact rc_of s _ (le_refl _) rfl (fun h => by simp [RPc.carries] at h)
          | some stored =>
            refine rc_push s _ i q ⟨false, stored⟩ hq rfl (Nat.le_succ _) rfl ?_
            rcases av_dup_packet_cases _ _ _ _ hdup with h | h
            · exact Or.inr (Or.inl h)
            · exact Or.inr (Or.inr ⟨by rw [hpc]; rfl, h⟩)
        · exact rc_same s
  | exit_loop => exact rc_of s _ (le_refl _) rfl (fun h => by simp [RPc.carries] at h)
  | exit_wait =>
    simp only []
    split_ifs
    · exact rc_of s _ (le_refl _) rfl (fun h => by simp [RPc.carries] at h)
    · exact rc_same s
  | seek_loop =>
    simp only []
    cases s.player.input_streams AVMEDIA_TYPE_VIDEO with
    | none => exact rc_reader_at s _ (fun h => by simp [RPc.carries] at h)
    | some seek_stream =>
      simp only []
      cases o.seek_ok with
      | false => exact rc_of s _ (le_refl _) rfl (fun _ => Or.inl ⟨by rw [hpc]; rfl, rfl⟩)
      | true => exact rc_of s _ (le_refl _) rfl (fun h => by simp [RPc.carries] at h)
  | seek_wait =>
    simp only []
    split_ifs
    · exact rc_of s _ (le_refl _) rfl (fun h => by simp [reader_skip_loop, RPc.carries] at h)
    · exact rc_same s
  | done => exact rc_same s
  | crashed => exact rc_same s

/-! ## A packet committed after its decoder has returned -/

theorem host_step_log (a : HostAction) (s : Sys) :
    (host_step a s).next_payload = s.next_payload ∧
    ∃ evs : List Ev, (host_step a s).log = s.log ++ evs.map fun e => (Thread.host, e) := by
  cases a with
  | seek position => exact ⟨rfl, _, rfl⟩
  | signal_stop => exact ⟨rfl, _, rfl⟩
  | pause c => exact ⟨rfl, _, rfl⟩
  | resume c => exact ⟨rfl, _, rfl⟩
  | render_frame_start =>
    simp only [host_step]
    cases (jni_player_render_frame_start s.player).1 with
    | none => exact ⟨rfl, [], by simp⟩
    | some p1 => exact ⟨rfl, _, rfl⟩
  | render_frame_stop =>
    simp only [host_step]
    cases (jni_player_render_frame_stop s.player).1 with
    | none => exact ⟨rfl, [], by simp⟩
    | some p1 => exact ⟨rfl, _, rfl⟩
  | render_flush =>
    simp only [host_step]
    split_ifs
    · exact ⟨rfl, _, rfl⟩
    · exact ⟨rfl, [], by simp⟩
  | render_take => exact ⟨rfl, [], by simp [host_step]⟩

theorem decoder_step_done (t : MediaType) (o : DecoderOracle) (s : Sys)
    (h : (s.decoders t).pc = DPc.done) : decoder_step t o s = s := by
  simp only [decoder_step, h]

theorem not_mem_log_append {t : MediaType} {th : Thread} {id : Nat}
    {log : List (Thread × Ev)} {evs : List Ev}
    (h1 : (Thread.decoder t, Ev.av_free_packet id) ∉ log)
    (h2 : th = Thread.decoder t → Ev.av_free_packet id ∉ evs) :
    (Thread.decoder t, Ev.av_free_packet id) ∉ log ++ evs.map fun e => (th, e) := by
  intro h
  rcases List.mem_append.mp h with h | h
  · exact h1 h
  · simp only [List.mem_map, Prod.mk.injEq] at h
    obtain ⟨e, he, hth, rfl⟩ := h
    exact h2 hth he

theorem stranded_reader_step (t0 : MediaType) (id : Nat) (slot : PacketData)
    (o : ReaderOracle) (s : Sys) (h : Stranded t0 id slot s) :
    Stranded t0 id slot (reader_step o s) := by
  have rk := rk_reader_step o s
  have rc := rc_reader_step o s
  obtain ⟨q, hq, hm⟩ := h.queued
  obtain ⟨q', hq', hsub⟩ := rk.queues t0 q hq
  obtain ⟨evs, hlog⟩ := rk.log
  have hfresh : ∀ pkt : AVPacket, pkt.data = some s.next_payload → ¬Owns id pkt := by
    intro pkt hd ho
    rw [ho.2] at hd
    cases hd
    exact absurd h.numbered (lt_irrefl _)
  have hplain : ∀ pkt : AVPacket, pkt.destruct = false → ¬Owns id pkt := by
    intro pkt hd ho
    rw [ho.1] at hd
    cases hd
  refine ⟨by rw [rk.decoders]; exact h.ended, ⟨q', hq', hsub slot hm⟩,
    lt_of_lt_of_le h.numbered rc.payload, fun hc => ?_, fun t ht q1 pd hq1 hpd => ?_,
    fun t ht pd hpd => h.inflight t ht pd (by rw [← rk.decoders]; exact hpd),
    fun t => by rw [hlog]; exact not_mem_log_append (h.unreleased t) (fun e => by cases e)⟩
  · rcases rc.packet hc with ⟨h1, h2⟩ | h1 | h1
    · rw [h2]; exact h.carried h1
    · exact hplain _ h1
    · exact hfresh _ h1
  · obtain ⟨q0, hq0, hs⟩ := rc.queues t q1 hq1
    rcases hs pd hpd with h1 | h1 | h1 | ⟨h1, h2⟩
    · exact h.others t ht q0 pd hq0 h1
    · exact hplain _ h1
    · exact hfresh _ h1
    · rw [h2]; exact h.carried h1

theorem stranded_decoder_step (t0 : MediaType) (id : Nat) (slot : PacketData) (t : MediaType)
    (o : DecoderOracle) (s : Sys) (h : Stranded t0 id slot s) :
    Stranded t0 id slot (decoder_step t o s) := by
  by_cases ht : t = t0
  · subst ht
    rw [decoder_step_done t o s h.ended]
    exact h
  have dk := keeps_decoder_step t o s
  have df := frees_decoder_step t o s
  have ht0 : t0 ≠ t := fun e => ht e.symm
  obtain ⟨evs, hlog, hfree⟩ := df.log
  have hrel : ¬Releasable t s id := by
    rintro (⟨pd, hpd, ho⟩ | ⟨q, pd, hq, hm, ho⟩)
    · exact h.inflight t ht pd hpd ho
    · exact h.others t ht q pd hq hm ho
  refine ⟨by rw [dk.decoders t0 ht0]; exact h.ended, by rw [dk.queues t0 ht0]; exact h.queued,
    by rw [df.payload]; exact h.numbered, by rw [dk.reader]; exact h.carried,
    fun t1 ht1 q1 pd hq1 hpd => ?_, fun t1 ht1 pd hpd => ?_, fun t1 => ?_⟩
  rotate_left 2
  · rw [hlog]
    exact not_mem_log_append (h.unreleased t1) (fun _ hm => hrel (hfree id hm))
  · by_cases e : t1 = t
    · subst e
      obtain ⟨q0, hq0, hs⟩ := df.own_queue q1 hq1
      exact h.others t1 ht1 q0 pd hq0 (hs pd hpd)
    · rw [dk.queues t1 e] at hq1
      exact h.others t1 ht1 q1 pd hq1 hpd
  · by_cases e : t1 = t
    · subst e
      rcases df.inflight pd hpd with h1 | ⟨q0, hq0, hm⟩
      · exact h.inflight t1 ht1 pd h1
      · exact h.others t1 ht1 q0 pd hq0 hm
    · rw [dk.decoders t1 e] at hpd
      exact h.inflight t1 ht1 pd hpd

theorem stranded_host_step (t0 : MediaType) (id : Nat) (slot : PacketData) (a : HostAction)
    (s : Sys) (h : Stranded t0 id slot s) : Stranded t0 id slot (host_step a s) := by
  obtain ⟨e1, e2, _, _, e5, _, _⟩ := host_step_frame a s
  obtain ⟨e8, evs, hlog⟩ := host_step_log a s
  exact ⟨by rw [e2]; exact h.ended, by rw [e5]; exact h.queued, by rw [e8]; exact h.numbered,
    by rw [e1]; exact h.carried, by rw [e5]; exact h.others, by rw [e2]; exact h.inflight,
    fun t => by rw [hlog]; exact not_mem_log_append (h.unreleased t) (fun e => by cases e)⟩

theorem stranded_run (t0 : MediaType) (id : Nat) (slot : PacketData) (acts : List Action)
    (s : Sys) (h : Stranded t0 id slot s) : Stranded t0 id slot (s.run acts) := by
  induction acts generalizing s with
  | nil => exact h
  | cons a acts ih =>
    refine ih (s.step a) ?_
    cases a with
    | reader o => exact stranded_reader_step t0 id slot o s h
    | decoder t o => exact stranded_decoder_step t0 id slot t o s h
    | host a => exact stranded_host_step t0 id slot a s h

/-! ## The reported time and the duration -/

theorem player_update_time_cases (q : Player) (t : ℚ) :
    (player_update_time q t).1.last_updated_time ≤ (player_update_time q t).1.video_duration ∨
    (q.last_updated_time = double_to_long (c_round t) ∧ (player_update_time q t).1 = q ∧
      q.video_duration < q.last_updated_time) := by
  simp only [player_update_time]
  split_ifs with h1 h2
  · rcases le_or_lt q.last_updated_time q.video_duration with h | h
    · exact Or.inl h
    · exact Or.inr ⟨h1, rfl, h⟩
  · exact Or.inl (le_refl _)
  · exact Or.inl (not_lt.mp h2)

theorem player_update_time_keeps (q : Player) (t : ℚ)
    (h : q.last_updated_time ≤ q.video_duration) :
    (player_update_time q t).1.last_updated_time ≤ (player_update_time q t).1.video_duration := by
  rcases player_update_time_cases q t with h1 | ⟨_, _, h3⟩
  · exact h1
  · exact absurd h (not_le.mpr h3)

theorem player_update_times_keeps (ts : List ℚ) (q : Player)
    (h : q.last_updated_time ≤ q.video_duration) :
    (player_update_times q ts).last_updated_time ≤ (player_update_times q ts).video_duration := by
  induction ts generalizing q with
  | nil => exact h
  | cons t ts ih => exact ih _ (player_update_time_keeps q t h)

theorem player_get_video_duration_last (p : Player) :
    (player_get_video_duration p).last_updated_time = -1 := by
  obtain ⟨vd, h⟩ := player_get_video_duration_state p
  rw [h]

theorem c_round_zero : c_round 0 = 0 := by
  simp only [c_round, le_refl, if_true, zero_add]
  rw [Int.floor_eq_iff]
  norm_num

theorem find_no_positive (l : List AVStream) (h : ∀ x ∈ l, x.duration ≤ 0) :
    l.find? (fun st => decide (0 < st.duration)) = none := by
  rw [List.find?_eq_none]
  intro x hx
  simp [not_lt.mpr (h x hx)]
/-! ## The time of the open -/

theorem jni_player_resume_external_clock (q : Player) (R : Int) (hplaying : q.playing = true)
    (hpause : q.pause = true) :
    (jni_player_resume (fun _ => R) q).1.external_clock =
      q.external_clock_drift + (R : ℚ) / 1000000 -
        ((R : ℚ) / 1000000 - (q.external_clock_time : ℚ) / 1000000) *
          (1 - q.external_clock_speed) := by
  simp only [jni_player_resume, hplaying, hpause, Bool.not_true, Bool.false_eq_true, if_false]
  split_ifs <;> simp [update_external_clock_pts, get_external_clock]

theorem jni_player_pause_external_clock (p : Player) (P : Int) (hplaying : p.playing = true)
    (hpause : p.pause = false) :
    (jni_player_pause (fun _ => P) p).1.playing = true ∧
    (jni_player_pause (fun _ => P) p).1.pause = true ∧
    (jni_player_pause (fun _ => P) p).1.external_clock_speed = p.external_clock_speed ∧
    (jni_player_pause (fun _ => P) p).1.external_clock_time = P ∧
    (jni_player_pause (fun _ => P) p).1.external_clock_drift =
      (jni_player_pause (fun _ => P) p).1.external_clock - (P : ℚ) / 1000000 := by
  simp [jni_player_pause, hplaying, hpause, update_external_clock_pts]

/-! ## The stop barrier of the reader -/

theorem stops_refl (t : MediaType) (s : Sys) : StopsKept t s s := fun _ _ => rfl

theorem stops_trans {t : MediaType} {a b c : Sys} (h1 : StopsKept t a b)
    (h2 : StopsKept t b c) : StopsKept t a c :=
  fun t' ht => (h2 t' ht).trans (h1 t' ht)

theorem stops_add (t : MediaType) (s : Sys) (evs : List Ev) :
    StopsKept t s (s.add (Thread.decoder t) evs) := fun _ _ => rfl

theorem stops_set_decoder (t : MediaType) (s : Sys) (d : Decoder) :
    StopsKept t s (s.set_decoder t d) := fun _ _ => rfl

theorem stops_set_player (t : MediaType) (s : Sys) (p : Player)
    (h : p.stop_streams = s.player.stop_streams) : StopsKept t s (s.set_player p) :=
  fun t' _ => by simp [h]

theorem stops_queue_pop_finish (t : MediaType) (s : Sys) :
    StopsKept t s (s.set_player (queue_pop_finish s.player t)) := by
  apply stops_set_player
  simp only [queue_pop_finish]
  cases s.player.packets_queue t <;> rfl

theorem stops_finish_decode (t : MediaType) (pd : PacketData) (err : Int) (s : Sys) :
    StopsKept t s (decoder_finish_decode t pd err s) := by
  simp only [decoder_finish_decode]
  have k1 := stops_add t s ((if !pd.end_of_stream then (av_free_packet pd.packet).2 else []) ++
    [Ev.lock Mutex.mutex_queue, Ev.cond_broadcast, Ev.unlock Mutex.mutex_queue])
  generalize s.add (Thread.decoder t) _ = s1 at k1 ⊢
  have k2 := stops_trans k1 (stops_queue_pop_finish t s1)
  generalize s1.set_player _ = s2 at k2 ⊢
  have k3 := stops_trans k2 (stops_add t s2 [Ev.lock Mutex.mutex_queue])
  generalize s2.add (Thread.decoder t) _ = s3 at k3 ⊢
  split_ifs
  · exact stops_trans k3 (stops_set_decoder t s3 _)
  · exact stops_trans k3 (stops_set_decoder t s3 _)

theorem stops_finish_flush (t : MediaType) (s : Sys) :
    StopsKept t s (decoder_finish_flush t s) := by
  simp only [decoder_finish_flush]
  split_ifs
  · have k1 : StopsKept t s (s.set_player
        { s.player with stop_streams := Function.update s.player.stop_streams t false }) :=
      fun t' ht => by simp [Function.update_noteq ht]
    generalize s.set_player _ = s1 at k1 ⊢
    exact stops_trans (stops_trans k1 (stops_add t _ _)) (stops_set_decoder t _ _)
  · have k1 : StopsKept t s { s with
        player := { s.player with
          flush_streams := Function.update s.player.flush_streams t false }
        flush_served := Function.update s.flush_served t true } := fun _ _ => rfl
    generalize ({ s with player := _, flush_served := _ } : Sys) = s1 at k1 ⊢
    exact stops_trans (stops_trans k1 (stops_add t _ _)) (stops_set_decoder t _ _)

theorem player_decode_audio_stop_streams (p : Player) (o : AudioOutcome) :
    (player_decode_audio p o).2.1.stop_streams = p.stop_streams := by
  cases o with
  | written pts sz now ret exc =>
    simp only [player_decode_audio, player_write_audio_clock]
    split_ifs <;> (try cases p.input_streams AVMEDIA_TYPE_AUDIO) <;> rfl
  | _ => rfl

theorem stops_flush (t : MediaType) (s : Sys) : StopsKept t s (decoder_flush t s) := by
  simp only [decoder_flush]
  cases hq : s.player.packets_queue t with
  | none => exact stops_set_decoder t s _
  | some q =>
    simp only []
    have k1 := stops_set_player t s
      { s.player with packets_queue := Function.update s.player.packets_queue t (some q.emptied) }
      rfl
    have k2 := stops_trans k1 (stops_add t _ (drain_calls q.used))
    have e1 : ((s.set_player { s.player with
        packets_queue := Function.update s.player.packets_queue t (some q.emptied) }).add
        (Thread.decoder t) (drain_calls q.used)).player = { s.player with
        packets_queue := Function.update s.player.packets_queue t (some q.emptied) } := rfl
    generalize (s.set_player _).add (Thread.decoder t) _ = s1 at k2 e1 ⊢
    split_ifs
    · exact stops_trans (stops_trans k2 (stops_add t _ _)) (stops_finish_flush t _)
    · refine stops_trans (stops_trans k2 (stops_set_player t s1 _ ?_)) (stops_finish_flush t _)
      rw [e1]
    · refine stops_trans (stops_trans (stops_trans k2 (stops_set_player t s1 _ ?_))
        (stops_add t _ _)) (stops_set_decoder t _ _)
      rw [e1]
    · exact stops_trans k2 (stops_finish_flush t _)

theorem stops_decode (t : MediaType) (o : DecoderOracle) (pd : PacketData) (s : Sys) :
    StopsKept t s (decoder_decode t o pd s) := by
  simp only [decoder_decode]
  split_ifs
  · exact stops_trans (stops_trans
      (stops_set_player t s _ (player_decode_audio_stop_streams s.player o.audio))
      (stops_add t _ _)) (stops_finish_decode t pd _ _)
  · exact stops_trans (stops_add t _ _) (stops_set_decoder t _ _)
  · cases o.video with
    | decode_error => exact stops_finish_decode t pd _ s
    | not_finished => exact stops_finish_decode t pd _ s
    | frame time lock_ok => exact stops_trans (stops_add t _ _) (stops_set_decoder t _ _)
  · exact stops_finish_decode t pd _ s

theorem stops_push_rgb (t : MediaType) (elem : VideoRGBFrameElem) (err : Int) (pd : PacketData)
    (s : Sys) : StopsKept t s (decoder_push_rgb t elem err pd s) := by
  simp only [decoder_push_rgb]
  cases s.player.rgb_video_queue with
  | none => exact stops_set_decoder t s _
  | some q =>
    cases player_decode_queue_check s.player t with
    | skip msg => exact stops_trans (stops_add t _ _) (stops_finish_decode t pd _ _)
    | wait => exact stops_refl t s
    | test =>
      simp only []
      split_ifs
      · have k1 := stops_set_player t s { s.player with rgb_video_queue := some (q.pushed elem) }
          rfl
        generalize s.set_player _ = s1 at k1 ⊢
        exact stops_trans (stops_trans k1 (stops_add t _ _)) (stops_finish_decode t pd _ _)
      · exact stops_refl t s

theorem stops_skip (t : MediaType) (msg : Nat) (s : Sys) :
    StopsKept t s (decoder_skip t msg s) := by
  simp only [decoder_skip]
  split_ifs <;> exact stops_set_decoder t s _

theorem stops_decoder_step (t : MediaType) (o : DecoderOracle) (s : Sys) :
    StopsKept t s (decoder_step t o s) := by
  simp only [decoder_step]
  cases (s.decoders t).pc with
  | top =>
    simp only []
    split_ifs
    · cases player_decode_queue_check s.player t with
      | skip msg => exact stops_skip t msg s
      | wait => exact stops_add t s _
      | test => exact stops_add t s _
    · exact stops_set_decoder t s _
  | pop =>
    simp only []
    cases player_decode_queue_check s.player t with
    | skip msg => exact stops_skip t msg s
    | wait => exact stops_refl t s
    | test =>
      simp only []
      cases s.player.packets_queue t with
      | none => exact stops_set_decoder t s _
      | some q =>
        simp only []
        cases q.used with
        | nil => exact stops_refl t s
        | cons pd _ => exact stops_trans (stops_add t _ _) (stops_set_decoder t _ _)
  | decode =>
    simp only []
    cases (s.decoders t).packet_data with
    | none => exact stops_set_decoder t s _
    | some pd => exact stops_decode t o pd s
  | push_rgb elem err =>
    simp only []
    cases (s.decoders t).packet_data with
    | none => exact stops_set_decoder t s _
    | some pd => exact stops_push_rgb t elem err pd s
  | flush => exact stops_flush t s
  | flush_wait =>
    simp only []
    split_ifs
    · exact stops_refl t s
    · exact stops_finish_flush t s
  | done => exact stops_refl t s
  | crashed => exact stops_refl t s

theorem stop_flag_blocks (p : Player) (array : MediaType → Bool) (t : MediaType)
    (hctx : (p.input_codec_ctxs t).isSome = true) (hset : array t = true) :
    player_if_all_no_array_elements_has_value p array false = false := by
  cases h : player_if_all_no_array_elements_has_value p array false with
  | false => rfl
  | true =>
    simp only [player_if_all_no_array_elements_has_value, List.all_eq_true] at h
    have := h t (mem_mediaTypes t)
    simp [hctx, hset] at this

theorem barrierStuck_reader_step (t : MediaType) (o : ReaderOracle) (s : Sys)
    (h : BarrierStuck t s) : reader_step o s = s := by
  simp only [reader_step, h.waiting, stop_flag_blocks s.player s.player.stop_streams t h.active
    h.requested, Bool.false_eq_true, if_false]

theorem barrierStuck_step (t : MediaType) (a : Action) (s : Sys) (h : BarrierStuck t s) :
    BarrierStuck t (s.step a) := by
  cases a with
  | reader o =>
    simp only [Sys.step]
    rw [barrierStuck_reader_step t o s h]
    exact h
  | decoder t' o =>
    simp only [Sys.step]
    by_cases ht : t' = t
    · subst ht
      rw [decoder_step_done t' o s h.ended]
      exact h
    · have k := keeps_decoder_step t' o s
      have k2 := stops_decoder_step t' o s
      exact ⟨by rw [k.reader]; exact h.waiting,
        by rw [k2 t (fun e => ht e.symm)]; exact h.requested,
        by rw [k.ctxs]; exact h.active,
        by rw [k.decoders t (fun e => ht e.symm)]; exact h.ended⟩
  | host a =>
    simp only [Sys.step]
    obtain ⟨h1, h2, h3, _, _, h6, _⟩ := host_step_frame a s
    exact ⟨by rw [h1]; exact h.waiting, by rw [h3]; exact h.requested,
      by rw [h6]; exact h.active, by rw [h2]; exact h.ended⟩

theorem barrierStuck_run (t : MediaType) (acts : List Action) (s : Sys)
    (h : BarrierStuck t s) : BarrierStuck t (s.run acts) := by
  induction acts generalizing s with
  | nil => exact h
  | cons a acts ih => exact ih (s.step a) (barrierStuck_step t a s h)

/-! ## Rounding and the conversion to `long` -/

theorem double_to_long_of_range (x : Int) (h1 : LONG_MIN ≤ x) (h2 : x ≤ LONG_MAX) :
    double_to_long x = x := by
  simp only [double_to_long]
  rw [min_eq_right h2, max_eq_right h1]

theorem double_to_long_lt_neg_one (x : Int) : double_to_long x < -1 ↔ x < -1 := by
  simp only [double_to_long, LONG_MIN, LONG_MAX]
  omega

theorem player_get_video_duration_container (p : Player) (ic : AVFormatContext)
    (hic : p.format_ctx = some ic) (hnone : ∀ x ∈ opened_streams p, x.duration ≤ 0)
    (hd : ic.duration ≠ 0) :
    (player_get_video_duration p).video_duration = double_to_long (container_seconds ic) := by
  have := find_no_positive _ hnone
  simp only [opened_streams] at this
  simp only [player_get_video_duration, this, hic, Option.getD_some]
  rw [if_pos hd]

/-! ## Theorems -/

/-- C1 (code at the failing input): when every setup step succeeds and only
`pthread_attr_destroy` reports an error, `player_set_data_source` returns the positive value
`ERROR_COULD_NOT_DESTROY_PTHREAD_ATTR` (49) although the open went through: `playing` is set
and the reader and both decoder threads are created. -/
theorem player_set_data_source_positive_status :
    (player_set_data_source attr_destroy_fails_env jni_player_init (-1) (-1) (-1)).1 = 49 ∧
    (player_set_data_source attr_destroy_fails_env jni_player_init (-1) (-1) (-1)).2.1.playing
      = true ∧
    (player_set_data_source attr_destroy_fails_env jni_player_init (-1) (-1)
      (-1)).2.1.read_stream_thread_created = true ∧
    (player_set_data_source attr_destroy_fails_env jni_player_init (-1) (-1)
      (-1)).2.1.decode_threads_created AVMEDIA_TYPE_VIDEO = true ∧
    (player_set_data_source attr_destroy_fails_env jni_player_init (-1) (-1)
      (-1)).2.1.decode_threads_created AVMEDIA_TYPE_AUDIO = true := by
  refine ⟨?_, ?_, ?_, ?_, ?_⟩ <;> decide!

/-- C2: when `playing` is set, `player_set_data_source` returns the status
`ERROR_NOT_STOP_LAST_INSTANCE`, which is a failure status as soon as that constant is not zero,
and it returns the player it was given, every field unchanged; the only calls it makes are the
lock and the unlock of `mutex_operation`. -/
theorem player_set_data_source_busy (env : OpenEnv) (p : Player) (v a s : Int)
    (hplaying : p.playing = true) (hcode : env.ERROR_NOT_STOP_LAST_INSTANCE ≠ 0) :
    (player_set_data_source env p v a s).1 = env.ERROR_NOT_STOP_LAST_INSTANCE ∧
    (player_set_data_source env p v a s).1 ≠ 0 ∧
    (player_set_data_source env p v a s).2.1 = p ∧
    (player_set_data_source env p v a s).2.2 =
      [Ev.lock Mutex.mutex_operation, Ev.unlock Mutex.mutex_operation] := by
  simp [player_set_data_source, hplaying, hcode]

/-- C2 at a concrete input: a second open on the playing player that a first open of the
sample source produced. -/
theorem player_set_data_source_busy_witness :
    (player_set_data_source sample_env
        (player_set_data_source sample_env jni_player_init (-1) (-1) (-1)).2.1 0 1 (-1)).1 = 51 ∧
    (player_set_data_source sample_env
        (player_set_data_source sample_env jni_player_init (-1) (-1) (-1)).2.1 0 1 (-1)).2.1 =
      (player_set_data_source sample_env jni_player_init (-1) (-1) (-1)).2.1 :=
  have h := player_set_data_source_busy sample_env
    (player_set_data_source sample_env jni_player_init (-1) (-1) (-1)).2.1 0 1 (-1)
    (by decide!) (by decide)
  ⟨h.1, h.2.2.1⟩

/-- C6: `jni_player_pause`, `jni_player_resume` and `player_stop` are idempotent on the player,
for every player and all clock readings and join results: a second call returns the player
the first one left, and it calls no method of the audio sink (for `player_stop` it makes no
call at all). -/
theorem pause_resume_stop_idempotent (c1 c2 : Nat → Int) (j1 j2 : JoinEnv) (p : Player) :
    ((jni_player_pause c2 (jni_player_pause c1 p).1).1 = (jni_player_pause c1 p).1 ∧
      ∀ m, Ev.audio_track m ∉ (jni_player_pause c2 (jni_player_pause c1 p).1).2) ∧
    ((jni_player_resume c2 (jni_player_resume c1 p).1).1 = (jni_player_resume c1 p).1 ∧
      ∀ m, Ev.audio_track m ∉ (jni_player_resume c2 (jni_player_resume c1 p).1).2) ∧
    player_stop j2 (player_stop j1 p).1 = ((player_stop j1 p).1, []) := by
  refine ⟨?_, ?_, ?_⟩
  · apply jni_player_pause_noop
    intro h
    rw [(jni_player_pause_post c1 p).1] at h
    exact (jni_player_pause_post c1 p).2 h
  · apply jni_player_resume_noop
    intro h
    rw [(jni_player_resume_post c1 p).1] at h
    exact (jni_player_resume_post c1 p).2 h
  · exact player_stop_of_not_playing j2 _ (player_stop_playing j1 p)
/-- C4: after an open that does not fail (status not negative, in particular status 0), from a
player that `init`, `open` and `stop` can produce and that is not playing: `playing` and
`pause` are set, `stop` is clear, `seek_position` holds `DO_NOT_SEEK` (no seek is pending),
no flush or stop request is set for any media type, the decoder thread of a media type is
marked created exactly when that type has a codec context, and the reader thread is marked
created. -/
theorem player_set_data_source_success_state (env : OpenEnv) (p : Player) (v a s : Int)
    (hr : Reachable p) (hp : p.playing = false)
    (hok : 0 ≤ (player_set_data_source env p v a s).1) :
    (player_set_data_source env p v a s).2.1.playing = true ∧
    (player_set_data_source env p v a s).2.1.pause = true ∧
    (player_set_data_source env p v a s).2.1.stop = false ∧
    (player_set_data_source env p v a s).2.1.seek_position = DO_NOT_SEEK_int ∧
    seek_pending (player_set_data_source env p v a s).2.1 = false ∧
    (∀ t, (player_set_data_source env p v a s).2.1.flush_streams t = false ∧
      (player_set_data_source env p v a s).2.1.stop_streams t = false) ∧
    (∀ t, (player_set_data_source env p v a s).2.1.decode_threads_created t =
      ((player_set_data_source env p v a s).2.1.input_codec_ctxs t).isSome) ∧
    (player_set_data_source env p v a s).2.1.read_stream_thread_created = true := by
  have hinv := reachable_inv (Reachable.after_open env p v a s hr)
  have hdef : player_set_data_source env p v a s =
      player_set_data_source_open env (player_set_data_source_reset env p v a s)
        [Ev.lock Mutex.mutex_operation] := by
    simp [player_set_data_source, hp]
  rw [hdef] at hok hinv ⊢
  rcases player_set_data_source_open_cases env (player_set_data_source_reset env p v a s)
    [Ev.lock Mutex.mutex_operation] rfl with he | ⟨C, _, hsx⟩
  · exact absurd hok (not_le.mpr he.1)
  · obtain ⟨g1, g2, g3, g4, _, g6, g7, _, _, g10⟩ := (successExit_fields hsx)
    refine ⟨g1, g2, g3, g4, ?_, fun t => ⟨hinv.flush t, hinv.stops t⟩, fun t => ?_, g7⟩
    · simp only [seek_pending, g4]
      decide
    · rw [g10, g6]
      simp [player_set_data_source_reset]

/-- C4 at a concrete input: the first open of the sample source on a fresh player. -/
theorem player_set_data_source_success_state_witness :
    Reachable jni_player_init ∧ jni_player_init.playing = false ∧
    (player_set_data_source sample_env jni_player_init (-1) (-1) (-1)).1 = 0 ∧
    (player_set_data_source sample_env jni_player_init (-1) (-1) (-1)).2.1.pause = true ∧
    (player_set_data_source sample_env jni_player_init (-1) (-1) (-1)).2.1.seek_position =
      DO_NOT_SEEK_int :=
  have h := player_set_data_source_success_state sample_env jni_player_init (-1) (-1) (-1)
    Reachable.init rfl (by decide!)
  ⟨Reachable.init, rfl, by decide!, h.2.1, h.2.2.2.1⟩

/-- C5: `player_stop` on a playing player that `init`, `open` and `stop` can produce leaves:
`playing` clear, no reader or decoder thread marked created, every entry of the context table
empty with `avcodec_close` called exactly once on each context the table held, the scaler, the
resampler, the audio track, the RGB queue, every packet queue and every scratch frame null,
and the container closed (`avformat_close_input` called, `input_inited` clear). -/
theorem player_stop_clears (j : JoinEnv) (p : Player) (hr : Reachable p)
    (hp : p.playing = true) :
    (player_stop j p).1.playing = false ∧
    (player_stop j p).1.read_stream_thread_created = false ∧
    (∀ t, (player_stop j p).1.decode_threads_created t = false) ∧
    (∀ t, (player_stop j p).1.input_codec_ctxs t = none) ∧
    (∀ t c, p.input_codec_ctxs t = some c →
      (player_stop j p).2.count (Ev.avcodec_close c.id) = 1) ∧
    (player_stop j p).1.sws_context = false ∧
    (player_stop j p).1.swr_context = false ∧
    (player_stop j p).1.audio_track = false ∧
    (player_stop j p).1.rgb_video_queue = none ∧
    (∀ t, (player_stop j p).1.packets_queue t = none) ∧
    (∀ t, (player_stop j p).1.input_frames t = false) ∧
    (player_stop j p).1.input_inited = false ∧
    (player_stop j p).1.format_ctx = none ∧
    Ev.avformat_close_input ∈ (player_stop j p).2 := by
  have hinv := reachable_inv hr
  have hin := hinv.inited hp
  have hst : (player_stop j p).1 = (player_teardown j { p with playing := false }).1 := by
    simp [player_stop, hp]
  have hev : (player_stop j p).2 = [Ev.lock Mutex.mutex_operation] ++
      (player_teardown j { p with playing := false }).2 ++ [Ev.unlock Mutex.mutex_operation] := by
    simp [player_stop, hp]
  rw [hst, hev, player_teardown_state]
  refine ⟨rfl, rfl, fun _ => rfl, fun _ => rfl, fun t c htc => ?_, rfl, rfl, rfl, rfl,
    fun _ => rfl, fun _ => rfl, rfl, by simp [hin], ?_⟩
  · rw [List.count_append, List.count_append, player_teardown_closes]
    have := count_one_of_distinct p.input_codec_ctxs hinv.distinct t c htc
    simpa [List.count_cons] using this
  · apply List.mem_append_left
    apply List.mem_append_right
    exact player_teardown_closes_input j _ hin

/-- C5 at a concrete input: the stop of the player that the open of the sample source on a
fresh player leaves; its video context 0 is closed once. -/
theorem player_stop_clears_witness :
    (player_set_data_source sample_env jni_player_init (-1) (-1) (-1)).2.1.playing = true ∧
    (player_stop sample_join
      (player_set_data_source sample_env jni_player_init (-1) (-1) (-1)).2.1).1.playing = false ∧
    (player_stop sample_join
      (player_set_data_source sample_env jni_player_init (-1) (-1) (-1)).2.1).1.format_ctx
        = none :=
  have h := player_stop_clears sample_join
    (player_set_data_source sample_env jni_player_init (-1) (-1) (-1)).2.1
    (Reachable.after_open sample_env jni_player_init (-1) (-1) (-1) Reachable.init)
    (by decide!)
  ⟨by decide!, h.1, h.2.2.2.2.2.2.2.2.2.2.2.2.1⟩
/-- C7 (counterexample): a seek to second 5 on the playing sample player, which the reader
answers after one wait, waits on `cond_queue` while `mutex_operation` is held, and returns. -/
theorem jni_player_seek_waits_holding_mutex_operation :
    waits_holding Mutex.mutex_operation
      (jni_player_seek [playing_player] playing_player 5).2 false = true ∧
    (jni_player_seek [playing_player] playing_player 5).1.isSome = true ∧
    (jni_player_seek [playing_player] playing_player 5).2 =
      [Ev.lock Mutex.mutex_operation, Ev.lock Mutex.mutex_queue, Ev.cond_broadcast,
        Ev.cond_wait, Ev.unlock Mutex.mutex_queue, Ev.unlock Mutex.mutex_operation] := by
  refine ⟨?_, ?_, ?_⟩ <;> decide!

/-- C7 (amended): `player_set_data_source`, `player_stop`, `jni_player_pause`,
`jni_player_resume`, `jni_player_render_frame_start` and `jni_player_render_frame_stop` never
wait on `cond_queue` while they hold `mutex_operation`; `jni_player_seek` does hold it during
its wait, which it makes exactly when the player is playing and the stored position reads as a
pending seek. -/
theorem controller_waits_holding_mutex_operation :
    (∀ (env : OpenEnv) (p : Player) (v a s : Int),
      waits_holding Mutex.mutex_operation (player_set_data_source env p v a s).2.2 false
        = false) ∧
    (∀ (j : JoinEnv) (p : Player),
      waits_holding Mutex.mutex_operation (player_stop j p).2 false = false) ∧
    (∀ (c : Nat → Int) (p : Player),
      waits_holding Mutex.mutex_operation (jni_player_pause c p).2 false = false) ∧
    (∀ (c : Nat → Int) (p : Player),
      waits_holding Mutex.mutex_operation (jni_player_resume c p).2 false = false) ∧
    (∀ p : Player,
      waits_holding Mutex.mutex_operation (jni_player_render_frame_start p).2 false = false) ∧
    (∀ p : Player,
      waits_holding Mutex.mutex_operation (jni_player_render_frame_stop p).2 false = false) ∧
    (∀ (wakes : List Player) (p : Player) (position : Int),
      waits_holding Mutex.mutex_operation (jni_player_seek wakes p position).2 false =
        (p.playing && seek_pending { p with seek_position := position })) := by
  refine ⟨?_, ?_, ?_, ?_, ?_, ?_, jni_player_seek_waits⟩
  · intro env p v a s
    obtain ⟨mid, hm, hi⟩ := player_set_data_source_calls env p v a s
    rw [hm]
    exact waits_holding_of_no_wait _ _ _ (bracket_no_wait mid hi)
  · intro j p
    by_cases hp : p.playing = true
    · obtain ⟨mid, hm, hi⟩ := player_stop_calls j p hp
      rw [hm]
      exact waits_holding_of_no_wait _ _ _ (bracket_no_wait mid hi)
    · rw [player_stop_of_not_playing j p (by simpa using hp)]
      rfl
  · intro c p
    obtain ⟨mid, hm, hi⟩ := jni_player_pause_calls c p
    rw [hm]
    apply waits_holding_of_no_wait
    intro e he
    simp only [List.cons_append, List.mem_cons, List.mem_append, List.mem_singleton] at he
    rcases he with h1 | h1 | h1
    · subst h1; rfl
    · exact (hi e h1).1
    · simp at h1; subst h1; rfl
  · intro c p
    obtain ⟨mid, hm, hi⟩ := jni_player_resume_calls c p
    rw [hm]
    apply waits_holding_of_no_wait
    intro e he
    simp only [List.cons_append, List.mem_cons, List.mem_append, List.mem_singleton] at he
    rcases he with h1 | h1 | h1
    · subst h1; rfl
    · exact (hi e h1).1
    · simp at h1; subst h1; rfl
  · intro p
    simp only [jni_player_render_frame_start]
    split_ifs <;> rfl
  · intro p
    simp only [jni_player_render_frame_stop]
    split_ifs <;> rfl

/-- C8 (counterexample): `jni_player_render_frame_start` on a fresh player sets `rendering`
and its calls are the lock of `mutex_queue`, the broadcast and the unlock: it changes engine
state without ever taking `mutex_operation`. -/
theorem jni_player_render_frame_start_skips_mutex_operation :
    jni_player_init.rendering = false ∧
    (jni_player_render_frame_start jni_player_init).1.map Player.rendering = some true ∧
    (jni_player_render_frame_start jni_player_init).2 =
      [Ev.lock Mutex.mutex_queue, Ev.cond_broadcast, Ev.unlock Mutex.mutex_queue] ∧
    Ev.lock Mutex.mutex_operation ∉ (jni_player_render_frame_start jni_player_init).2 := by
  refine ⟨?_, ?_, ?_, ?_⟩ <;> decide

/-- C8 (amended): the calls of `player_set_data_source`, `jni_player_pause`,
`jni_player_resume`, of a `jni_player_seek` that returns and of a `player_stop` that finds
`playing` set start with the lock of `mutex_operation`, end with its unlock and do not touch
that mutex in between; a `player_stop` that finds `playing` clear returns without any call;
`jni_player_render_frame_start` and `jni_player_render_frame_stop` never lock or unlock
`mutex_operation`. -/
theorem controller_mutex_operation_brackets :
    (∀ (env : OpenEnv) (p : Player) (v a s : Int),
      bracketed (player_set_data_source env p v a s).2.2) ∧
    (∀ (c : Nat → Int) (p : Player), bracketed (jni_player_pause c p).2) ∧
    (∀ (c : Nat → Int) (p : Player), bracketed (jni_player_resume c p).2) ∧
    (∀ (wakes : List Player) (p : Player) (position : Int),
      (jni_player_seek wakes p position).1.isSome = true →
        bracketed (jni_player_seek wakes p position).2) ∧
    (∀ (j : JoinEnv) (p : Player), p.playing = true → bracketed (player_stop j p).2) ∧
    (∀ (j : JoinEnv) (p : Player), p.playing = false → player_stop j p = (p, [])) ∧
    (∀ p : Player, ∀ e ∈ (jni_player_render_frame_start p).2, e.on_mutex_operation = false) ∧
    (∀ p : Player, ∀ e ∈ (jni_player_render_frame_stop p).2, e.on_mutex_operation = false) := by
  refine ⟨?_, ?_, ?_, ?_, ?_, player_stop_of_not_playing, ?_, ?_⟩
  · intro env p v a s
    obtain ⟨mid, hm, hi⟩ := player_set_data_source_calls env p v a s
    exact ⟨mid, hm, fun e he => Ev.inner_no_op (hi e he)⟩
  · intro c p
    obtain ⟨mid, hm, hi⟩ := jni_player_pause_calls c p
    exact ⟨mid, hm, fun e he => (hi e he).2⟩
  · intro c p
    obtain ⟨mid, hm, hi⟩ := jni_player_resume_calls c p
    exact ⟨mid, hm, fun e he => (hi e he).2⟩
  · intro wakes p position hsome
    obtain ⟨hall, -⟩ := jni_player_seek_wait_calls { p with seek_position := position } wakes
    simp only [jni_player_seek] at hsome ⊢
    generalize ({ p with seek_position := position } : Player) = q at hall hsome ⊢
    generalize jni_player_seek_wait q wakes = r at hall hsome ⊢
    cases hp : p.playing
    · exact ⟨[Ev.throw_not_playing], by simp, by simp [Ev.on_mutex_operation]⟩
    · simp only [hp, Bool.not_true, Bool.false_eq_true, if_false] at hsome ⊢
      cases hr : r.1 with
      | none => simp [hr] at hsome
      | some p2 =>
        refine ⟨[Ev.lock Mutex.mutex_queue, Ev.cond_broadcast] ++ r.2 ++
          [Ev.unlock Mutex.mutex_queue], by simp, fun e he => ?_⟩
        simp only [List.cons_append, List.nil_append, List.mem_cons, List.mem_append,
          List.mem_singleton, List.not_mem_nil, or_false] at he
        rcases he with h1 | h1 | h1 | h1
        · subst h1; rfl
        · subst h1; rfl
        · rw [hall e h1]; rfl
        · subst h1; rfl
  · intro j p hp
    obtain ⟨mid, hm, hi⟩ := player_stop_calls j p hp
    exact ⟨mid, hm, fun e he => Ev.inner_no_op (hi e he)⟩
  · intro p e he
    simp only [jni_player_render_frame_start] at he
    split_ifs at he <;> simp at he
    · subst he; rfl
    · rcases he with h | h | h <;> subst h <;> rfl
  · intro p e he
    simp only [jni_player_render_frame_stop] at he
    split_ifs at he <;> simp at he
    · subst he; rfl
    · rcases he with h | h | h <;> subst h <;> rfl

/-- C8 (amended) at a concrete input: the seek of the counterexample to C7 returns and its
calls are bracketed; the stop of the playing sample player is bracketed. -/
theorem controller_mutex_operation_brackets_witness :
    (jni_player_seek [playing_player] playing_player 5).1.isSome = true ∧
    bracketed (jni_player_seek [playing_player] playing_player 5).2 ∧
    playing_player.playing = true ∧
    bracketed (player_stop sample_join playing_player).2 :=
  ⟨by decide!,
    controller_mutex_operation_brackets.2.2.2.1 [playing_player] playing_player 5 (by decide!),
    by decide!,
    controller_mutex_operation_brackets.2.2.2.2.1 sample_join playing_player (by decide!)⟩
/-- C3 (code at the failing input): the open of the sample source on a fresh player, with
`pthread_create` failing for the reader thread after both decoder threads were created.  The
sequential model, in which every `pthread_join` returns, yields the status
`-ERROR_COULD_NOT_CREATE_PTHREAD` and the teardown of `open_failed_player`, whose calls join
the video decoder although no reader was created.  In the model of the threads that join
never returns: from the player the teardown has after `player_signal_stop`, whatever the
decoders and the host do, the video decoder never reaches its end. -/
theorem player_set_data_source_hangs_without_reader :
    (player_set_data_source reader_create_fails_env jni_player_init (-1) (-1) (-1)).1 =
      -ERROR_COULD_NOT_CREATE_PTHREAD ∧
    (player_set_data_source reader_create_fails_env jni_player_init (-1) (-1) (-1)).2.1 =
      (player_teardown sample_join open_failed_player).1 ∧
    Ev.pthread_join_decoder AVMEDIA_TYPE_VIDEO ∈
      (player_set_data_source reader_create_fails_env jni_player_init (-1) (-1) (-1)).2.2 ∧
    Ev.pthread_create_reader ∉
      (player_set_data_source reader_create_fails_env jni_player_init (-1) (-1) (-1)).2.2 ∧
    ∀ acts : List Action,
      (((Sys.init (player_signal_stop open_failed_player).1).run acts).decoders
        AVMEDIA_TYPE_VIDEO).pc ≠ DPc.done := by
  refine ⟨by decide!, by apply Player.ext <;> decide!, by decide!, by decide!, ?_⟩
  exact decoder_without_reader_never_returns open_failed_player AVMEDIA_TYPE_VIDEO
    (by decide!) (by decide!) (by decide!) (by decide!) (by decide!)

/-- C9 (counterexample): on the playing sample player, which is paused, the host asks for a
seek to 5 and the reader reaches `seek_loop` with the request pending; `av_seek_frame` fails,
and the next step of the reader sets `seek_position` back to `DO_NOT_SEEK` and goes on to
`parse_frame`, although no flush request was set for any stream, no decoder has cleared one,
and no decoder has made any call. -/
theorem seek_position_reset_without_flush :
    seek_pending seek_requested_run.player = true ∧
    seek_requested_run.reader.pc = RPc.seek_loop ∧
    (seek_requested_run.step (Action.reader seek_fails_oracle)).player.seek_position =
      DO_NOT_SEEK_int ∧
    seek_pending (seek_requested_run.step (Action.reader seek_fails_oracle)).player = false ∧
    (seek_requested_run.step (Action.reader seek_fails_oracle)).reader.pc = RPc.parse_frame ∧
    (∀ t, (seek_requested_run.step (Action.reader seek_fails_oracle)).player.flush_streams t =
        false ∧
      (seek_requested_run.step (Action.reader seek_fails_oracle)).flush_served t = false) ∧
    (seek_requested_run.step (Action.reader seek_fails_oracle)).log =
      [(Thread.host, Ev.cond_broadcast), (Thread.reader, Ev.av_seek_frame 0 125),
        (Thread.reader, Ev.cond_broadcast)] := by
  refine ⟨by decide!, by decide!, by decide!, by decide!, by decide!, by decide!, by decide!⟩

/-- C9 (amended): in every run of the reader, the decoders and the host from the start of the
threads, a step that turns a pending seek request into none is one of three: a new request of
the host; a step of the reader in `seek_loop` whose `av_seek_frame` fails; or the step of the
reader at the end of `seek_loop`, and then every active stream has no flush request and its
decoder has cleared that request since the `av_seek_frame` of this seek set it. -/
theorem seek_position_reset_after_flush (p : Player) (acts : List Action) (a : Action)
    (hpend : seek_pending ((Sys.init p).run acts).player = true)
    (hreset : seek_pending (((Sys.init p).run acts).step a).player = false) :
    (∃ position, a = Action.host (HostAction.seek position)) ∨
    (∃ o, a = Action.reader o ∧ ((Sys.init p).run acts).reader.pc = RPc.seek_loop ∧
      o.seek_ok = false) ∨
    (∃ o, a = Action.reader o ∧ ((Sys.init p).run acts).reader.pc = RPc.seek_wait ∧
      ∀ t, (((Sys.init p).run acts).player.input_codec_ctxs t).isSome = true →
        ((Sys.init p).run acts).player.flush_streams t = false ∧
        ((Sys.init p).run acts).flush_served t = true) := by
  have hJ := flushServed_run acts (Sys.init p) (flushServed_init p)
  generalize (Sys.init p).run acts = s at hpend hreset hJ ⊢
  have hne : ∀ q : Player, seek_pending q = false → q.seek_position ≠ s.player.seek_position := by
    intro q hq e
    rw [seek_pending_congr _ _ e, hpend] at hq
    cases hq
  cases a with
  | reader o =>
    have k := rk_reader_step o s
    simp only [Sys.step] at hreset
    rcases k.seek with ⟨e, _⟩ | ⟨hpc, hok, _⟩ | ⟨_, _, e, _⟩ | ⟨hpc, hall, _⟩
    · exact absurd e (hne _ hreset)
    · exact Or.inr (Or.inl ⟨o, rfl, hpc, hok⟩)
    · exact absurd e (hne _ hreset)
    · refine Or.inr (Or.inr ⟨o, rfl, hpc, fun t ht => ?_⟩)
      have hf := all_flags_clear s.player _ hall t ht
      exact ⟨hf, hJ hpc t ht hf⟩
  | decoder t o =>
    simp only [Sys.step] at hreset
    exact absurd (keeps_decoder_step t o s).seek (hne _ hreset)
  | host h =>
    simp only [Sys.step] at hreset
    rcases host_step_seek h s with ⟨position, e⟩ | e
    · exact Or.inl ⟨position, by rw [e]⟩
    · exact absurd e (hne _ hreset)

/-- C9 (witness): the run on the playing sample player in which `av_seek_frame` succeeds and
both decoders carry out their flush; the next step of the reader withdraws the request. -/
theorem seek_position_reset_after_flush_witness :
    seek_pending ((Sys.init playing_player).run seek_flushed_run).player = true ∧
    seek_pending (((Sys.init playing_player).run seek_flushed_run).step
      (Action.reader seek_succeeds_oracle)).player = false ∧
    ((∃ position, Action.reader seek_succeeds_oracle = Action.host (HostAction.seek position)) ∨
    (∃ o, Action.reader seek_succeeds_oracle = Action.reader o ∧
      ((Sys.init playing_player).run seek_flushed_run).reader.pc = RPc.seek_loop ∧
      o.seek_ok = false) ∨
    (∃ o, Action.reader seek_succeeds_oracle = Action.reader o ∧
      ((Sys.init playing_player).run seek_flushed_run).reader.pc = RPc.seek_wait ∧
      ∀ t, (((Sys.init playing_player).run seek_flushed_run).player.input_codec_ctxs t).isSome =
          true →
        ((Sys.init playing_player).run seek_flushed_run).player.flush_streams t = false ∧
        ((Sys.init playing_player).run seek_flushed_run).flush_served t = true)) :=
  ⟨by decide!, by decide!,
    seek_position_reset_after_flush playing_player seek_flushed_run
      (Action.reader seek_succeeds_oracle) (by decide!) (by decide!)⟩

/-- C10 (code at the failing input): on the playing sample player the host resumes, the reader
commits one audio packet, the audio decoder takes it, `avcodec_decode_audio4` fails, the
decoder releases that packet and returns through the label `stop`; the reader then commits a
second audio packet, with the payload 3.  After that run the audio decoder has returned and
the slot is in the audio queue; and whatever the reader, the decoders and the host do
afterwards, the audio decoder stays returned, the slot stays in the queue, and no decoder
passes the payload to `av_free_packet`. -/
theorem committed_packet_never_released :
    (((Sys.init playing_player).run decode_error_run).decoders AVMEDIA_TYPE_AUDIO).pc =
      DPc.done ∧
    (((Sys.init playing_player).run decode_error_run).player.packets_queue
      ( AVMEDIA_TYPE_AUDIO)).map Queue.used = some [⟨false, ⟨some 3, true, 1⟩⟩] ∧
    ∀ acts : List Action,
      ((((Sys.init playing_player).run decode_error_run).run acts).decoders
        ( AVMEDIA_TYPE_AUDIO)).pc = DPc.done ∧
      (∃ q, (((Sys.init playing_player).run decode_error_run).run acts).player.packets_queue
        ( AVMEDIA_TYPE_AUDIO) = some q ∧ (⟨false, ⟨some 3, true, 1⟩⟩ : PacketData) ∈ q.used) ∧
      ∀ t, (Thread.decoder t, Ev.av_free_packet 3) ∉
        (((Sys.init playing_player).run decode_error_run).run acts).log := by
  have hq : (((Sys.init playing_player).run decode_error_run).player.packets_queue
      ( AVMEDIA_TYPE_AUDIO)).map Queue.used = some [⟨false, ⟨some 3, true, 1⟩⟩] := by decide!
  have hothers : ∀ t, t ≠ AVMEDIA_TYPE_AUDIO →
      ((((Sys.init playing_player).run decode_error_run).player.packets_queue t).map
        Queue.used).getD [] = [] := by decide!
  have hinflight : ∀ t,
      (((Sys.init playing_player).run decode_error_run).decoders t).packet_data = none := by
    decide!
  have h0 : Stranded AVMEDIA_TYPE_AUDIO 3 ⟨false, ⟨some 3, true, 1⟩⟩
      ((Sys.init playing_player).run decode_error_run) := by
    refine ⟨by decide!, ?_, by decide!, fun h => ?_, fun t ht q pd hq1 hm => ?_,
      fun t _ pd hpd => ?_, by decide!⟩
    · cases hq1 : ((Sys.init playing_player).run decode_error_run).player.packets_queue
        ( AVMEDIA_TYPE_AUDIO) with
      | none => rw [hq1] at hq; cases hq
      | some q =>
        rw [hq1] at hq
        simp only [Option.map_some', Option.some.injEq] at hq
        exact ⟨q, rfl, by rw [hq]; exact List.mem_singleton.mpr rfl⟩
    · have : ((Sys.init playing_player).run decode_error_run).reader.pc.carries = false := by
        decide!
      rw [this] at h
      cases h
    · have := hothers t ht
      rw [hq1] at this
      simp only [Option.map_some', Option.getD_some] at this
      rw [this] at hm
      cases hm
    · rw [hinflight t] at hpd
      cases hpd
  refine ⟨by decide!, hq, fun acts => ?_⟩
  have h := stranded_run AVMEDIA_TYPE_AUDIO 3 _ acts _ h0
  exact ⟨h.ended, h.queued, h.unreleased⟩

/-- C11 (counterexample): a container without streams whose duration is −5 seconds.  Right
after `player_get_video_duration` the reported time is −1 and `video_duration` is −5: the
duration is below the reported time. -/
theorem player_get_video_duration_below_last_updated_time :
    (player_get_video_duration (duration_player (-5000000))).last_updated_time = -1 ∧
    (player_get_video_duration (duration_player (-5000000))).video_duration = -5 ∧
    (player_get_video_duration (duration_player (-5000000))).video_duration <
      (player_get_video_duration (duration_player (-5000000))).last_updated_time := by
  refine ⟨by decide!, by decide!, by decide!⟩

/-- C11 (amended): for every player, that is for every stream and container duration, and all
frame times.  `player_get_video_duration` sets the reported time to −1.  After the
`player_update_time(0)` that follows it in the open, and after each of any further calls
`player_update_time(t)`, `video_duration ≥ last_updated_time` holds; this is so from every
state with the reported time −1, whatever its `video_duration`.  A single
`player_update_time(t)` on any player either establishes the inequality, or `t` rounds to the
reported time, the call changes nothing, and the inequality did not hold before.  Right after
`player_get_video_duration` itself, when no opened stream has a positive duration and the
duration of the container is not 0 and fits a `long` in seconds, `video_duration` is that
duration in seconds, rounded, and the inequality fails if and only if that rounded value is
−2 or less. -/
theorem video_duration_ge_last_updated_time (p q : Player) (t : ℚ) (ts : List ℚ) :
    (player_get_video_duration p).last_updated_time = -1 ∧
    (player_update_times (player_update_time (player_get_video_duration p) 0).1
        ts).last_updated_time ≤
      (player_update_times (player_update_time (player_get_video_duration p) 0).1
        ts).video_duration ∧
    (q.last_updated_time = -1 →
      (player_update_times (player_update_time q 0).1 ts).last_updated_time ≤
        (player_update_times (player_update_time q 0).1 ts).video_duration) ∧
    ((player_update_time q t).1.last_updated_time ≤ (player_update_time q t).1.video_duration ∨
      (q.last_updated_time = double_to_long (c_round t) ∧ (player_update_time q t).1 = q ∧
        q.video_duration < q.last_updated_time)) ∧
    (∀ ic, p.format_ctx = some ic → (∀ x ∈ opened_streams p, x.duration ≤ 0) →
      ic.duration ≠ 0 → LONG_MIN ≤ container_seconds ic → container_seconds ic ≤ LONG_MAX →
      (player_get_video_duration p).video_duration = container_seconds ic ∧
      ((player_get_video_duration p).video_duration <
          (player_get_video_duration p).last_updated_time ↔ container_seconds ic ≤ -2)) := by
  have hgen : ∀ r : Player, r.last_updated_time = -1 →
      (player_update_times (player_update_time r 0).1 ts).last_updated_time ≤
        (player_update_times (player_update_time r 0).1 ts).video_duration := by
    intro r hr
    apply player_update_times_keeps
    rcases player_update_time_cases r 0 with h | ⟨h, _, _⟩
    · exact h
    · rw [hr, c_round_zero] at h
      have h0 : double_to_long 0 = 0 := by decide
      rw [h0] at h
      cases h
  refine ⟨player_get_video_duration_last p, hgen _ (player_get_video_duration_last p), hgen q,
    player_update_time_cases q t, ?_⟩
  intro ic hic hnone hd r1 r2
  have hv := player_get_video_duration_container p ic hic hnone hd
  rw [double_to_long_of_range _ r1 r2] at hv
  refine ⟨hv, ?_⟩
  rw [hv, player_get_video_duration_last]
  omega

/-- C11 (witness): containers without streams.  With the duration −5 seconds
`video_duration` is −5 right after `player_get_video_duration`, below the reported time −1;
with the duration −1 µs it is 0, not below it. -/
theorem video_duration_ge_last_updated_time_witness :
    (player_get_video_duration (duration_player (-5000000))).video_duration = -5 ∧
    (player_get_video_duration (duration_player (-5000000))).video_duration <
      (player_get_video_duration (duration_player (-5000000))).last_updated_time ∧
    (player_get_video_duration (duration_player (-1))).video_duration = 0 ∧
    ¬ (player_get_video_duration (duration_player (-1))).video_duration <
      (player_get_video_duration (duration_player (-1))).last_updated_time := by
  have h5 := (video_duration_ge_last_updated_time (duration_player (-5000000)) jni_player_init
    0 []).2.2.2.2 ⟨[], -5000000⟩ rfl (by decide!) (by decide) (by decide!) (by decide!)
  have h1 := (video_duration_ge_last_updated_time (duration_player (-1)) jni_player_init
    0 []).2.2.2.2 ⟨[], -1⟩ rfl (by decide!) (by decide) (by decide!) (by decide!)
  refine ⟨?_, h5.2.mpr (by decide!), ?_, fun h => absurd (h1.2.mp h) (by decide!)⟩
  · rw [h5.1]
    decide!
  · rw [h1.1]
    decide!

/-- C12: for every player, every wall-clock reading `now`, every value `pts` and every time
`t0` of an update: with `pause` set `get_video_clock` returns `video_current_pts`, and that is
the value `update_video_pts` stored last; with `pause` clear it returns
`video_current_pts_drift + now` in seconds; `update_video_pts pts` at the time `t0` stores
`pts` and sets the drift to `pts − t0`, and leaves `pause` as it was. -/
theorem get_video_clock_paused_and_running (p : Player) (pts : ℚ) (now t0 : Int) :
    get_video_clock { p with pause := true } now = p.video_current_pts ∧
    get_video_clock { update_video_pts p pts t0 with pause := true } now = pts ∧
    get_video_clock { p with pause := false } now =
      p.video_current_pts_drift + (now : ℚ) / 1000000 ∧
    (update_video_pts p pts t0).video_current_pts = pts ∧
    (update_video_pts p pts t0).video_current_pts_drift = pts - (t0 : ℚ) / 1000000 ∧
    (update_video_pts p pts t0).pause = p.pause ∧
    get_video_clock { update_video_pts p pts t0 with pause := false } t0 = pts := by
  refine ⟨rfl, rfl, rfl, rfl, rfl, rfl, ?_⟩
  simp [get_video_clock, update_video_pts]

/-- C13: for every player, every value `pts` and all wall-clock readings, with `pause` set
`get_external_clock` called right after `update_external_clock_pts pts` returns `pts`. -/
theorem get_external_clock_after_update_paused (p : Player) (pts : ℚ) (now1 now2 : Int) :
    get_external_clock (update_external_clock_pts { p with pause := true } pts now1) now2 =
      pts := by
  simp [get_external_clock, update_external_clock_pts]

/-- C17: for every player, that is for every combination of the four flags, and every content
`old` of the tag: `player_render_frame_check` returns a skip with the tag
`RENDER_CHECK_MSG_INTERRUPT` when `interrupt_renderer` is set; else a skip with the tag
`RENDER_CHECK_MSG_FLUSH` when `flush_video_play` is set; else a wait when `pause` or `stop` is
set; else a test; and the tag keeps its content `old` where the result is not a skip. -/
theorem player_render_frame_check_cases (p : Player) (old : Nat) :
    player_render_frame_check p =
      (if p.interrupt_renderer = true then QueueCheckFuncRet.skip RENDER_CHECK_MSG_INTERRUPT
       else if p.flush_video_play = true then QueueCheckFuncRet.skip RENDER_CHECK_MSG_FLUSH
       else if p.pause = true ∨ p.stop = true then QueueCheckFuncRet.wait
       else QueueCheckFuncRet.test) ∧
    (player_render_frame_check p).cell old =
      (if p.interrupt_renderer = true then RENDER_CHECK_MSG_INTERRUPT
       else if p.flush_video_play = true then RENDER_CHECK_MSG_FLUSH
       else old) ∧
    RENDER_CHECK_MSG_INTERRUPT ≠ RENDER_CHECK_MSG_FLUSH := by
  refine ⟨?_, ?_, by decide⟩
  · simp only [player_render_frame_check]
    cases p.interrupt_renderer <;> cases p.flush_video_play <;> cases p.pause <;>
      cases p.stop <;> simp
  · simp only [player_render_frame_check, QueueCheckFuncRet.cell]
    cases p.interrupt_renderer <;> cases p.flush_video_play <;> cases p.pause <;>
      cases p.stop <;> simp

/-- C20: for every player, every media type `t` and every content `old` of the tag:
`player_decode_queue_check` returns a skip if `stop_streams[t]` or `flush_streams[t]` is set
and a test otherwise, never a wait; the tag is `DECODE_CHECK_MSG_STOP` when the stop flag is
set, also when both are, `DECODE_CHECK_MSG_FLUSH` when only the flush flag is set, and it
keeps its content `old` on a test. -/
theorem player_decode_queue_check_cases (p : Player) (t : MediaType) (old : Nat) :
    player_decode_queue_check p t =
      (if p.stop_streams t = true then QueueCheckFuncRet.skip DECODE_CHECK_MSG_STOP
       else if p.flush_streams t = true then QueueCheckFuncRet.skip DECODE_CHECK_MSG_FLUSH
       else QueueCheckFuncRet.test) ∧
    player_decode_queue_check p t ≠ QueueCheckFuncRet.wait ∧
    ((∃ msg, player_decode_queue_check p t = QueueCheckFuncRet.skip msg) ↔
      (p.stop_streams t = true ∨ p.flush_streams t = true)) ∧
    (player_decode_queue_check p t).cell old =
      (if p.stop_streams t = true then DECODE_CHECK_MSG_STOP
       else if p.flush_streams t = true then DECODE_CHECK_MSG_FLUSH
       else old) ∧
    DECODE_CHECK_MSG_STOP ≠ DECODE_CHECK_MSG_FLUSH := by
  simp only [player_decode_queue_check, QueueCheckFuncRet.cell]
  cases p.stop_streams t <;> cases p.flush_streams t <;> simp <;> decide

/-- C19: for every playing, paused player and all clock readings, `jni_player_resume` stores
the resume time `R = clock 0` in `audio_resume_time` and, with `P` the stored
`audio_pause_time`: if `audio_write_time < P` it becomes `R`; else if `audio_write_time < R`
it is increased by `R − P`; otherwise it is unchanged. -/
theorem jni_player_resume_audio_write_time (clock : Nat → Int) (p : Player)
    (hplaying : p.playing = true) (hpause : p.pause = true) :
    (jni_player_resume clock p).1.audio_resume_time = clock 0 ∧
    (jni_player_resume clock p).1.audio_pause_time = p.audio_pause_time ∧
    (jni_player_resume clock p).1.audio_write_time =
      (if p.audio_write_time < p.audio_pause_time then clock 0
       else if p.audio_write_time < clock 0 then
         p.audio_write_time + (clock 0 - p.audio_pause_time)
       else p.audio_write_time) := by
  simp only [jni_player_resume, hplaying, hpause, update_external_clock_pts, Bool.not_true,
    Bool.false_eq_true, if_false]
  split_ifs <;> exact ⟨rfl, rfl, rfl⟩

/-- C19 (witness): the playing sample player, which was paused at the time 1000, with a last
write at the time 1200, resumed at the time 1700: the write time becomes 1900. -/
theorem jni_player_resume_audio_write_time_witness :
    ({ playing_player with audio_write_time := 1200 } : Player).playing = true ∧
    ({ playing_player with audio_write_time := 1200 } : Player).pause = true ∧
    (jni_player_resume (fun _ => 1700)
      { playing_player with audio_write_time := 1200 }).1.audio_write_time = 1900 := by
  have h := jni_player_resume_audio_write_time (fun _ => 1700)
    { playing_player with audio_write_time := 1200 } (by decide!) (by decide!)
  refine ⟨by decide!, by decide!, ?_⟩
  rw [h.2.2]
  decide!

/-- C29 (counterexample): the position −559038737, the `int` with the bit pattern of
`DO_NOT_SEEK`, on the playing sample player.  Right after the assignment no seek is pending,
and `jni_player_seek` returns without a single wait, the position still stored. -/
theorem jni_player_seek_position_reads_as_no_seek :
    DO_NOT_SEEK_int = -559038737 ∧
    playing_player.playing = true ∧
    seek_pending { playing_player with seek_position := DO_NOT_SEEK_int } = false ∧
    (jni_player_seek [] playing_player DO_NOT_SEEK_int).1.map Player.seek_position =
      some DO_NOT_SEEK_int ∧
    Ev.cond_wait ∉ (jni_player_seek [] playing_player DO_NOT_SEEK_int).2 := by
  refine ⟨by decide, by decide!, by decide!, by decide!, by decide!⟩

/-- C29 (amended): for every player and every 32-bit position other than −559038737, the
stored `seek_position` is a pending seek right after the assignment; for that one position it
is not. -/
theorem seek_pending_after_assignment (p : Player) (position : Int)
    (hlo : -(2 ^ 31) ≤ position) (hhi : position < 2 ^ 31) :
    (seek_pending { p with seek_position := position } = true ↔
      position ≠ DO_NOT_SEEK_int) := by
  simp only [seek_pending, decide_eq_true_eq, DO_NOT_SEEK, DO_NOT_SEEK_int, ne_eq]
  constructor
  · intro h e
    subst e
    exact h (by decide)
  · intro h e
    apply h
    omega

/-- C29 (witness): the position 5. -/
theorem seek_pending_after_assignment_witness :
    -(2 ^ 31) ≤ (5 : Int) ∧ (5 : Int) < 2 ^ 31 ∧
    seek_pending { playing_player with seek_position := 5 } = true :=
  ⟨by decide, by decide,
    (seek_pending_after_assignment playing_player 5 (by decide) (by decide)).mpr (by decide)⟩

/-- C27 (code): for every playing player that is not paused, with `external_clock_speed = 1`,
a pause at the wall time `P` and a resume at the wall time `R`: the external clock value that
`jni_player_resume` stores is the value that `jni_player_pause` stored plus `R − P` in
seconds, so the paused interval is not hidden but added.  `jni_player_resume` clears `pause`
before it calls `get_external_clock`, which therefore reads the running clock. -/
theorem jni_player_resume_adds_paused_interval (p : Player) (P R : Int)
    (hplaying : p.playing = true) (hpause : p.pause = false)
    (hspeed : p.external_clock_speed = 1) :
    (jni_player_resume (fun _ => R) (jni_player_pause (fun _ => P) p).1).1.external_clock =
      (jni_player_pause (fun _ => P) p).1.external_clock + ((R : ℚ) - (P : ℚ)) / 1000000 := by
  obtain ⟨h1, h2, h3, h4, h5⟩ := jni_player_pause_external_clock p P hplaying hpause
  rw [jni_player_resume_external_clock _ R h1 h2, h3, h4, h5, hspeed]
  ring

/-- C27 (failing input): the running sample player, paused at the time 2 s and resumed at the
time 5 s: the stored external clock value goes up by 3. -/
theorem jni_player_resume_adds_paused_interval_witness :
    running_player.playing = true ∧ running_player.pause = false ∧
    running_player.external_clock_speed = 1 ∧
    (jni_player_resume (fun _ => 5000000)
      (jni_player_pause (fun _ => 2000000) running_player).1).1.external_clock =
      (jni_player_pause (fun _ => 2000000) running_player).1.external_clock + 3 := by
  refine ⟨by decide!, by decide!, by decide!, ?_⟩
  rw [jni_player_resume_adds_paused_interval running_player 2000000 5000000 (by decide!)
    (by decide!) (by decide!)]
  norm_num

/-- C25 (code at the failing input): an open of the sample source that follows a stop of the
playing sample player, and one that follows a failed open on a fresh player.  Both players
are reachable through `init`, `open` and `stop` and are not playing, and both still have the
`stop` flag that `player_signal_stop` set in the teardown.  At the moment `player_open_input`
calls `avformat_open_input`, at the elapsed time 0, `decoder_interrupt_cb` returns 1: the open
is told to abort.  This is so for every player that has `stop` set, on every host and for
every clock reading. -/
theorem decoder_interrupt_cb_after_stop (env : OpenEnv) (p : Player) (v a s now : Int) :
    Reachable stopped_player ∧ stopped_player.playing = false ∧
    stopped_player.stop = true ∧
    decoder_interrupt_cb
      (player_open_input_start sample_env
        (player_set_data_source_reset sample_env stopped_player (-1) (-1) (-1)))
      (sample_env.gettime 1) = 1 ∧
    Reachable failed_open_player ∧ failed_open_player.playing = false ∧
    failed_open_player.stop = true ∧
    decoder_interrupt_cb
      (player_open_input_start sample_env
        (player_set_data_source_reset sample_env failed_open_player (-1) (-1) (-1)))
      (sample_env.gettime 1) = 1 ∧
    decoder_interrupt_cb
      (player_open_input_start env
        (player_set_data_source_reset env { p with stop := true } v a s)) now = 1 ∧
    (player_open_input env
      (player_set_data_source_reset env p v a s)).2.1.open_time =
      (if (player_open_input env (player_set_data_source_reset env p v a s)).1 < 0 then
        (player_open_input_start env (player_set_data_source_reset env p v a s)).open_time
       else 0) := by
  have hr : Reachable playing_player :=
    Reachable.after_open sample_env jni_player_init (-1) (-1) (-1) Reachable.init
  refine ⟨Reachable.after_stop sample_join playing_player hr, by decide!, by decide!,
    by decide!,
    Reachable.after_open open_fails_env jni_player_init (-1) (-1) (-1) Reachable.init,
    by decide!, by decide!, by decide!, ?_, ?_⟩
  · simp [decoder_interrupt_cb, player_open_input_start, player_set_data_source_reset]
  · simp only [player_open_input, player_open_input_start]
    cases env.avformat_open_input with
    | none => simp [ERROR_COULD_NOT_OPEN_VIDEO_FILE]
    | some ic => simp [ERROR_NO_ERROR, update_external_clock_speed, update_external_clock_pts]

/-- C23 (code): for every state in which the reader waits at the end of `seek_loop` and no
active stream has a flush request left, the next step of the reader sets `seek_position` to
`DO_NOT_SEEK` and republishes the external clock as `seek_target / AV_TIME_BASE`, where
`seek_target` is the position in units of the time base of the video stream, not in
microseconds. -/
theorem reader_republishes_seek_target (s : Sys) (o : ReaderOracle)
    (hpc : s.reader.pc = RPc.seek_wait)
    (hclear : player_if_all_no_array_elements_has_value s.player s.player.flush_streams false =
      true) :
    (reader_step o s).player.seek_position = DO_NOT_SEEK_int ∧
    (reader_step o s).player.external_clock =
      (s.reader.seek_target : ℚ) / (AV_TIME_BASE : ℚ) := by
  simp only [reader_step, hpc, hclear, if_true]
  exact ⟨rfl, rfl⟩

/-- C23 (failing input): the playing sample player, whose video stream has the time base
1/25, and a seek to 5 seconds for which `av_seek_frame` succeeds and both decoders flush.  The
seek target is 125, and the reader republishes the external clock as 125/1000000, not 5. -/
theorem reader_republishes_seek_target_witness :
    ((Sys.init playing_player).run seek_flushed_run).reader.pc = RPc.seek_wait ∧
    ((Sys.init playing_player).run seek_flushed_run).reader.seek_target = 125 ∧
    (reader_step seek_succeeds_oracle
      ((Sys.init playing_player).run seek_flushed_run)).player.seek_position =
      DO_NOT_SEEK_int ∧
    (reader_step seek_succeeds_oracle
      ((Sys.init playing_player).run seek_flushed_run)).player.external_clock =
      125 / 1000000 ∧
    (reader_step seek_succeeds_oracle
      ((Sys.init playing_player).run seek_flushed_run)).player.external_clock ≠ 5 := by
  have h := reader_republishes_seek_target ((Sys.init playing_player).run seek_flushed_run)
    seek_succeeds_oracle (by decide!) (by decide!)
  refine ⟨by decide!, by decide!, h.1, ?_, ?_⟩
  · rw [h.2]
    decide!
  · rw [h.2]
    decide!

/-- C22 (code at the failing input): a seek entered from the pause loop of the reader, with
`av_seek_frame` failing.  First on the playing sample player, which is paused and has read
nothing yet: the reader sets `seek_position` to `DO_NOT_SEEK`, broadcasts, sets no flush
flag, calls no flush of the sink or of a codec, and then commits to the video queue the
blank packet that `av_init_packet` left, one it has never read.  Second after one video packet
was read, committed and released by the video decoder: at `parse_frame` the packet of the
reader still points at the released payload 1, and a copy of it is committed to the video
queue.  In both runs the reader makes no container read between the seek and the commit. -/
theorem failed_seek_enqueues_unread_packet :
    ((Sys.init playing_player).run failed_seek_paused_run).player.seek_position =
      DO_NOT_SEEK_int ∧
    (∀ t, ((Sys.init playing_player).run failed_seek_paused_run).player.flush_streams t =
      false) ∧
    ((Sys.init playing_player).run failed_seek_paused_run).log =
      [(Thread.host, Ev.cond_broadcast), (Thread.reader, Ev.av_seek_frame 0 125),
        (Thread.reader, Ev.cond_broadcast), (Thread.reader, Ev.unlock Mutex.mutex_queue),
        (Thread.reader, Ev.lock Mutex.mutex_queue), (Thread.reader, Ev.cond_broadcast),
        (Thread.reader, Ev.unlock Mutex.mutex_queue)] ∧
    (((Sys.init playing_player).run failed_seek_paused_run).player.packets_queue
      AVMEDIA_TYPE_VIDEO).map Queue.used = some [⟨false, ⟨none, false, 0⟩⟩] ∧
    (((Sys.init playing_player).run (failed_seek_stale_run.take 10)).player.packets_queue
      AVMEDIA_TYPE_VIDEO).map Queue.used = some [] ∧
    (Thread.decoder AVMEDIA_TYPE_VIDEO, Ev.av_free_packet 1) ∈
      ((Sys.init playing_player).run (failed_seek_stale_run.take 10)).log ∧
    ((Sys.init playing_player).run (failed_seek_stale_run.take 12)).reader.pc =
      RPc.parse_frame ∧
    ((Sys.init playing_player).run (failed_seek_stale_run.take 12)).reader.packet =
      ⟨some 1, false, 0⟩ ∧
    ((Sys.init playing_player).run failed_seek_stale_run).player.seek_position =
      DO_NOT_SEEK_int ∧
    (((Sys.init playing_player).run failed_seek_stale_run).player.packets_queue
      AVMEDIA_TYPE_VIDEO).map Queue.used = some [⟨false, ⟨some 3, true, 0⟩⟩] := by
  refine ⟨by decide!, by decide!, by decide!, by decide!, by decide!, by decide!, by decide!,
    by decide!, by decide!, by decide!⟩

/-- C21 (code at the failing input): the open of the sample source, whose stream 0 is video
and whose stream 1 is audio, with the caller asking for the video stream number 1.  No video
stream of that number exists, so the open succeeds without video; the audio stream 1 is
active and has a queue, but `stream_indexs[VIDEO]` keeps the number 1 the caller gave, with no
queue.  A packet of the stream 1 that the reader has read meets the video entry first in
`parse_frame`: it is freed and not enqueued, although its stream index is the container index
of the active audio stream. -/
theorem parse_frame_drops_packet_of_active_stream :
    (player_set_data_source sample_env jni_player_init 1 (-1) (-1)).1 = 0 ∧
    shadowed_player.playing = true ∧
    (shadowed_player.input_codec_ctxs AVMEDIA_TYPE_AUDIO).isSome = true ∧
    (shadowed_player.packets_queue AVMEDIA_TYPE_AUDIO).isSome = true ∧
    shadowed_player.stream_indexs AVMEDIA_TYPE_AUDIO = 1 ∧
    (shadowed_player.input_codec_ctxs AVMEDIA_TYPE_VIDEO).isSome = false ∧
    (shadowed_player.packets_queue AVMEDIA_TYPE_VIDEO).isSome = false ∧
    shadowed_player.stream_indexs AVMEDIA_TYPE_VIDEO = 1 ∧
    ((Sys.init shadowed_player).run (shadowed_run.take 3)).reader.pc = RPc.parse_frame ∧
    ((Sys.init shadowed_player).run (shadowed_run.take 3)).reader.packet =
      ⟨some 1, true, 1⟩ ∧
    ((Sys.init shadowed_player).run shadowed_run).reader.pc = RPc.top ∧
    (((Sys.init shadowed_player).run shadowed_run).player.packets_queue
      AVMEDIA_TYPE_AUDIO).map Queue.used = some [] ∧
    (Thread.reader, Ev.av_free_packet 1) ∈ ((Sys.init shadowed_player).run shadowed_run).log := by
  refine ⟨by decide!, by decide!, by decide!, by decide!, by decide!, by decide!, by decide!,
    by decide!, by decide!, by decide!, by decide!, by decide!, by decide!⟩

/-- C26 (code at the failing input): the open of a container whose only stream is an audio
stream.  The open succeeds, the audio stream is active, and the entries of the video kind in
`packets_queue` and `input_streams` are null.  At the end of the container the reader takes
`packets_queue[VIDEO]` for its end-of-stream marker, and in its seek step it takes
`input_streams[VIDEO]` for the time base: in both runs the reader ends at the program point
that stands for the use of a null entry. -/
theorem reader_takes_null_video_entries :
    (player_set_data_source audio_only_env jni_player_init (-1) (-1) (-1)).1 = 0 ∧
    audio_only_player.playing = true ∧
    (audio_only_player.input_codec_ctxs AVMEDIA_TYPE_AUDIO).isSome = true ∧
    (audio_only_player.input_codec_ctxs AVMEDIA_TYPE_VIDEO).isSome = false ∧
    (audio_only_player.packets_queue AVMEDIA_TYPE_VIDEO).isSome = false ∧
    (audio_only_player.input_streams AVMEDIA_TYPE_VIDEO).isSome = false ∧
    ((Sys.init audio_only_player).run (audio_only_end_run.take 3)).reader.pc = RPc.eof_push ∧
    ((Sys.init audio_only_player).run audio_only_end_run).reader.pc = RPc.crashed ∧
    ((Sys.init audio_only_player).run (audio_only_seek_run.take 2)).reader.pc =
      RPc.seek_loop ∧
    ((Sys.init audio_only_player).run audio_only_seek_run).reader.pc = RPc.crashed := by
  refine ⟨by decide!, by decide!, by decide!, by decide!, by decide!, by decide!, by decide!,
    by decide!, by decide!, by decide!⟩

/-- C30 (counterexample): the open of the sample source on a host whose audio sink reports 0
channels.  The open succeeds with a resampler, and in the resampling branch of
`player_decode_audio` the divisor `audio_track_channel_count · bytes_per_sample` is 0. -/
theorem sample_per_buffer_divider_zero :
    (player_set_data_source zero_channel_env jni_player_init (-1) (-1) (-1)).1 = 0 ∧
    zero_channel_player.playing = true ∧
    zero_channel_player.swr_context = true ∧
    zero_channel_player.audio_track_channel_count = 0 ∧
    sample_per_buffer_divider zero_channel_player = 0 := by
  refine ⟨by decide!, by decide!, by decide!, by decide!, by decide!⟩

/-- C30 (amended): for every player whose sink format is `AV_SAMPLE_FMT_S16`, as
`player_create_audio_track` sets it, and whose sink has a positive channel count below
2^30, and every result `len2` of the resampler with `0 ≤ len2 ≤` the output count asked
for: the divisor is twice the channel count, it is not 0, and the byte count handed to the
sink, `len2 · divisor`, is between 0 and the size of `audio_buf2`, 768000. -/
theorem resampled_data_size_fits (p : Player) (len2 : Int)
    (hfmt : p.audio_track_format = AV_SAMPLE_FMT_S16)
    (hpos : 0 < p.audio_track_channel_count) (hfit : p.audio_track_channel_count < 2 ^ 30)
    (h0 : 0 ≤ len2) (hlen : len2 ≤ swr_out_count p) :
    sample_per_buffer_divider p = 2 * p.audio_track_channel_count ∧
    sample_per_buffer_divider p ≠ 0 ∧
    0 ≤ resampled_data_size p len2 ∧
    resampled_data_size p len2 ≤ audio_buf2_size ∧
    audio_buf2_size = 768000 := by
  have hd : sample_per_buffer_divider p = 2 * p.audio_track_channel_count := by
    simp only [sample_per_buffer_divider, hfmt, AV_SAMPLE_FMT_S16, av_get_bytes_per_sample]
    norm_num
    ring
  have hdpos : 0 < sample_per_buffer_divider p := by rw [hd]; omega
  have hmod : sample_per_buffer_divider p % 2 ^ 32 = sample_per_buffer_divider p := by
    apply Int.emod_eq_of_lt (le_of_lt hdpos)
    rw [hd]
    omega
  simp only [swr_out_count, hmod] at hlen
  refine ⟨hd, ne_of_gt hdpos, ?_, ?_, by decide⟩
  · exact mul_nonneg h0 (le_of_lt hdpos)
  · have h1 : len2 * sample_per_buffer_divider p ≤
        audio_buf2_size / sample_per_buffer_divider p * sample_per_buffer_divider p :=
      mul_le_mul_of_nonneg_right hlen (le_of_lt hdpos)
    have h2 := Int.ediv_mul_le audio_buf2_size (ne_of_gt hdpos)
    exact le_trans h1 h2

/-- C30 (witness): the playing sample player with a resampler, whose sink has 2 channels, and
the largest result the resampler may return, 192000: the divisor is not 0 and the byte count
is within the size of the buffer. -/
theorem resampled_data_size_fits_witness :
    swr_out_count { playing_player with swr_context := true } = 192000 ∧
    sample_per_buffer_divider { playing_player with swr_context := true } ≠ 0 ∧
    resampled_data_size { playing_player with swr_context := true } 192000 ≤ audio_buf2_size :=
  have h := resampled_data_size_fits { playing_player with swr_context := true } 192000
    (by decide!) (by decide!) (by decide!) (by decide) (by decide!)
  ⟨by decide!, h.2.1, h.2.2.2.1⟩

/-- C24 (code at the failing input): on the playing sample player the audio decoder meets a
decode error and returns through the label `stop`, while `stop` is clear; then the host calls
`player_signal_stop` and the reader sets the stop request of every active stream and waits.
After that run the reader is in the wait loop of `exit_loop`, the stop request of the audio
stream is set and the audio decoder has returned; and whatever the reader, the decoders and
the host do afterwards, the reader is still in that loop, the request is still set and the
audio decoder is still returned: no thread clears the flag. -/
theorem reader_waits_for_returned_decoder :
    (((Sys.init playing_player).run decode_error_run).decoders AVMEDIA_TYPE_AUDIO).pc =
      DPc.done ∧
    ((Sys.init playing_player).run decode_error_run).player.stop = false ∧
    ((Sys.init playing_player).run decode_error_run).player.stop_streams
      ( AVMEDIA_TYPE_AUDIO) = false ∧
    ((Sys.init playing_player).run stop_after_decode_error_run).reader.pc = RPc.exit_wait ∧
    ∀ acts : List Action,
      (((Sys.init playing_player).run stop_after_decode_error_run).run acts).reader.pc =
        RPc.exit_wait ∧
      (((Sys.init playing_player).run stop_after_decode_error_run).run acts).player.stop_streams
        ( AVMEDIA_TYPE_AUDIO) = true ∧
      ((((Sys.init playing_player).run stop_after_decode_error_run).run acts).decoders
        ( AVMEDIA_TYPE_AUDIO)).pc = DPc.done := by
  have h0 : BarrierStuck AVMEDIA_TYPE_AUDIO
      ((Sys.init playing_player).run stop_after_decode_error_run) :=
    ⟨by decide!, by decide!, by decide!, by decide!⟩
  refine ⟨by decide!, by decide!, by decide!, by decide!, fun acts => ?_⟩
  have h := barrierStuck_run AVMEDIA_TYPE_AUDIO acts _ h0
  exact ⟨h.waiting, h.requested, h.ended⟩

end FFmpegPlayer
